import Mathlib

/-!
# evdev-tablet.c: the tablet event dispatcher

A shallow embedding of `src/evdev-tablet.c`.  Every function of the C file is
a Lean function of the same name over explicit state.

Conventions of the embedding:

* a bit array (`unsigned char a[NCHARS(n)]` with `set_bit`, `clear_bit`,
  `bit_is_set`) is the finite set of the indices of its set bits;
* an `int` (`__s32`, `int32_t`) is an integer, and a subtraction of two of them
  is brought back into 32 bits by two's complement wrap-around (`int_sub`);
* a `double` is a `c_double`: an exact rational when it is finite (rounding is
  left out), or one of the values a division by zero yields;
* a conversion to `uint32_t` is written with an explicit `% 2 ^ 32`;
* a run that dereferences a null pointer, fails an `assert` or calls `abort`
  has the result `none`;
* logging has no effect on the state and is left out.
-/

namespace EvdevTablet

/-! ## Constants of `linux/input.h` -/

def EV_SYN : Nat := 0x00
def EV_KEY : Nat := 0x01
def EV_ABS : Nat := 0x03
def EV_MSC : Nat := 0x04

def ABS_X : Nat := 0x00
def ABS_Y : Nat := 0x01
def ABS_PRESSURE : Nat := 0x18
def ABS_DISTANCE : Nat := 0x19
def ABS_TILT_X : Nat := 0x1a
def ABS_TILT_Y : Nat := 0x1b
def ABS_MISC : Nat := 0x28

def MSC_SERIAL : Nat := 0x00

def BTN_LEFT : Nat := 0x110
def BTN_RIGHT : Nat := 0x111
def BTN_MIDDLE : Nat := 0x112
def BTN_SIDE : Nat := 0x113
def BTN_EXTRA : Nat := 0x114
def BTN_FORWARD : Nat := 0x115
def BTN_BACK : Nat := 0x116
def BTN_TASK : Nat := 0x117
def BTN_TOOL_PEN : Nat := 0x140
def BTN_TOOL_RUBBER : Nat := 0x141
def BTN_TOOL_BRUSH : Nat := 0x142
def BTN_TOOL_PENCIL : Nat := 0x143
def BTN_TOOL_AIRBRUSH : Nat := 0x144
def BTN_TOOL_FINGER : Nat := 0x145
def BTN_TOOL_MOUSE : Nat := 0x146
def BTN_TOOL_LENS : Nat := 0x147
def BTN_TOUCH : Nat := 0x14a
def BTN_STYLUS : Nat := 0x14b
def BTN_STYLUS2 : Nat := 0x14c

/-- The number of key codes, `KEY_MAX + 1`: `stylus_buttons` has this many bits. -/
abbrev KEY_CNT : Nat := 0x300

/-! ## Types declared in the headers -/

/-- Modelled from the spec: `enum libinput_tablet_axis` (libinput.h), the
fixed enumeration of axes.  `LIBINPUT_TABLET_AXIS_NONE` is not an axis; it is
the `none` of `evcode_to_axis`.  The constructors are listed in the order in
which the loops `for (a = LIBINPUT_TABLET_AXIS_X; a <= LIBINPUT_TABLET_AXIS_MAX; a++)`
visit them. -/
inductive libinput_tablet_axis where
  | X
  | Y
  | DISTANCE
  | PRESSURE
  | TILT_X
  | TILT_Y
  deriving DecidableEq, Repr, Fintype

/-- Modelled from the spec: `enum libinput_tool_type` (libinput.h) together
with `LIBINPUT_TOOL_NONE` (evdev-tablet.h). -/
inductive libinput_tool_type where
  | NONE
  | PEN
  | ERASER
  | BRUSH
  | PENCIL
  | AIRBRUSH
  | FINGER
  | MOUSE
  | LENS
  deriving DecidableEq, Repr

/-- Modelled from the spec: `enum tablet_status` (evdev-tablet.h), the flags
of the status bit mask; `TABLET_NONE` is the empty set. -/
inductive tablet_status where
  | TABLET_AXES_UPDATED
  | TABLET_BUTTONS_PRESSED
  | TABLET_BUTTONS_RELEASED
  | TABLET_STYLUS_IN_CONTACT
  | TABLET_TOOL_LEAVING_PROXIMITY
  | TABLET_TOOL_OUT_OF_PROXIMITY
  | TABLET_TOOL_ENTERING_PROXIMITY
  deriving DecidableEq, Repr

inductive libinput_tool_proximity_state where
  | LIBINPUT_TOOL_PROXIMITY_OUT
  | LIBINPUT_TOOL_PROXIMITY_IN
  deriving DecidableEq, Repr

inductive libinput_button_state where
  | LIBINPUT_BUTTON_STATE_RELEASED
  | LIBINPUT_BUTTON_STATE_PRESSED
  deriving DecidableEq, Repr

open libinput_tablet_axis libinput_tool_type tablet_status
open libinput_tool_proximity_state libinput_button_state

/-! ## C arithmetic -/

/-- An integer brought into the range of `int`, `-2 ^ 31 .. 2 ^ 31 - 1`, by
two's complement wrap-around.  Signed overflow is undefined in C; the wrapped
result is what the compiled code computes. -/
def wrap_int32 (x : Int) : Int :=
  (x + 2 ^ 31) % 2 ^ 32 - 2 ^ 31

/-- The difference `a - b` of two `int` values, computed in `int`. -/
def int_sub (a b : Int) : Int :=
  wrap_int32 (a - b)

/-- A C `double`.  A finite value is the exact rational it stands for; the
other three are the values of IEEE 754 that a division by zero yields.  The
sign of a zero is not kept: the only divisors of this file are conversions of
an `int`, whose zero is `+0.0`, and nothing else depends on that sign. -/
inductive c_double where
  | finite (q : ℚ)
  | pos_inf
  | neg_inf
  | nan
  deriving DecidableEq

instance : Zero c_double := ⟨c_double.finite 0⟩

/-- The conversion of an `int` to `double`. -/
def c_double.of_int (i : Int) : c_double :=
  c_double.finite (i : ℚ)

/-- The quotient `x / y` of two doubles. -/
def c_double.div : c_double → c_double → c_double
  | .nan, _ => .nan
  | _, .nan => .nan
  | .finite a, .finite b =>
    if b ≠ 0 then .finite (a / b)
    else if 0 < a then .pos_inf
    else if a < 0 then .neg_inf
    else .nan
  | .finite _, .pos_inf => .finite 0
  | .finite _, .neg_inf => .finite 0
  | .pos_inf, .finite b => if 0 ≤ b then .pos_inf else .neg_inf
  | .neg_inf, .finite b => if 0 ≤ b then .neg_inf else .pos_inf
  | .pos_inf, .pos_inf => .nan
  | .pos_inf, .neg_inf => .nan
  | .neg_inf, .pos_inf => .nan
  | .neg_inf, .neg_inf => .nan

/-- The product `x * y` of two doubles. -/
def c_double.mul : c_double → c_double → c_double
  | .nan, _ => .nan
  | _, .nan => .nan
  | .finite a, .finite b => .finite (a * b)
  | .finite a, .pos_inf =>
    if 0 < a then .pos_inf else if a < 0 then .neg_inf else .nan
  | .finite a, .neg_inf =>
    if 0 < a then .neg_inf else if a < 0 then .pos_inf else .nan
  | .pos_inf, .finite b =>
    if 0 < b then .pos_inf else if b < 0 then .neg_inf else .nan
  | .neg_inf, .finite b =>
    if 0 < b then .neg_inf else if b < 0 then .pos_inf else .nan
  | .pos_inf, .pos_inf => .pos_inf
  | .pos_inf, .neg_inf => .neg_inf
  | .neg_inf, .pos_inf => .neg_inf
  | .neg_inf, .neg_inf => .pos_inf

/-- The difference `x - y` of two doubles. -/
def c_double.sub : c_double → c_double → c_double
  | .nan, _ => .nan
  | _, .nan => .nan
  | .finite a, .finite b => .finite (a - b)
  | .finite _, .pos_inf => .neg_inf
  | .finite _, .neg_inf => .pos_inf
  | .pos_inf, .finite _ => .pos_inf
  | .neg_inf, .finite _ => .neg_inf
  | .pos_inf, .pos_inf => .nan
  | .pos_inf, .neg_inf => .pos_inf
  | .neg_inf, .pos_inf => .neg_inf
  | .neg_inf, .neg_inf => .nan

/-! ## Structures declared in the headers -/

/-- The `struct input_event` of the kernel, without its time stamp (the time
is passed to `tablet_process` separately). -/
structure input_event where
  type : Nat
  code : Nat
  value : Int

/-- The `struct input_absinfo` of the kernel: the current raw value of an axis
and its calibrated range.  The three fields are `__s32`. -/
structure input_absinfo where
  value : Int
  minimum : Int
  maximum : Int

/-- The part of `struct libevdev` the dispatcher queries: `abs c` is what
`libevdev_get_abs_info` returns for the code `c` (`none` is the null pointer of
an axis the device does not have), `key c` says whether the device reports the
key code `c`. -/
structure libevdev where
  abs : Nat → Option input_absinfo
  key : Nat → Bool

/-- The part of `struct evdev_device` the dispatcher uses. -/
structure evdev_device where
  evdev : libevdev
  left_handed_enabled : Bool
  left_handed_want_enabled : Bool

/-- The address of a `struct libinput_tool`. -/
abbrev tool_ptr := Nat

/-- The `struct libinput_tool` of libinput-private.h; its `link` field is
represented by the position of the tool in the list that holds it. -/
structure libinput_tool where
  type : libinput_tool_type
  serial : Nat
  tool_id : Nat
  refcount : Int
  axis_caps : Finset libinput_tablet_axis
  buttons : Finset Nat

/-- A tool list (`struct list` of tools linked through `link`): the tools in
the order of `list_for_each`, each with its address. -/
abbrev tool_list_t := List (tool_ptr × libinput_tool)

/-- Modelled from the spec: the notification sink interface (the events that
`tablet_notify_proximity`, `tablet_notify_axis` and `tablet_notify_button` of
libinput.c queue).  Each carries the time, the tool reference and a snapshot of
the axis values. -/
inductive notification where
  | proximity (time : Nat) (tool : tool_ptr) (state : libinput_tool_proximity_state)
      (changed_axes : Finset libinput_tablet_axis) (axes : libinput_tablet_axis → c_double)
  | axis (time : Nat) (tool : tool_ptr)
      (changed_axes : Finset libinput_tablet_axis) (axes : libinput_tablet_axis → c_double)
  | button (time : Nat) (tool : tool_ptr) (axes : libinput_tablet_axis → c_double)
      (button : Nat) (state : libinput_button_state)

/-- The part of `struct libinput` (the context shared by all devices) the
dispatcher uses: the global tool list and the queue of emitted notifications;
`next_tool` is the address the next `zalloc` of a tool returns. -/
structure libinput where
  tool_list : tool_list_t
  next_tool : tool_ptr
  events : List notification

structure button_state where
  stylus_buttons : Finset (Fin KEY_CNT)

/-- The `struct tablet_dispatch` of evdev-tablet.h, without `base` and the
`device` pointer (the device is a component of `State`). -/
structure tablet_dispatch where
  status : Finset tablet_status
  changed_axes : Finset libinput_tablet_axis
  axes : libinput_tablet_axis → c_double
  axis_caps : Finset libinput_tablet_axis
  tool_list : tool_list_t
  button_state : EvdevTablet.button_state
  prev_button_state : EvdevTablet.button_state
  current_tool_type : libinput_tool_type
  current_tool_id : Nat
  current_tool_serial : Nat

/-- The stylus classes of libwacom (`WacomStylusType`). -/
inductive WacomStylusType where
  | WSTYLUS_UNKNOWN
  | WSTYLUS_GENERAL
  | WSTYLUS_INKING
  | WSTYLUS_AIRBRUSH
  | WSTYLUS_CLASSIC
  | WSTYLUS_MARKER
  | WSTYLUS_STROKE
  | WSTYLUS_PUCK
  deriving DecidableEq, Repr

open WacomStylusType

/-- What the dispatcher reads of a libwacom stylus entry. -/
structure WacomStylus where
  type : WacomStylusType
  num_buttons : Int

/-- The libwacom stylus database: `libwacom_stylus_get_for_id`. -/
structure WacomDeviceDatabase where
  stylus_get_for_id : Nat → Option WacomStylus

/-- The memory `tablet_process` works on: one dispatcher, its device, the
libinput context, and the hardware database (`none` when the file is built
without `HAVE_LIBWACOM` or `libwacom_database_new` returns null). -/
structure State where
  tablet : tablet_dispatch
  device : evdev_device
  libinput : EvdevTablet.libinput
  libwacom : Option WacomDeviceDatabase

/-! ## Bit arrays and lists (libinput-util.h) -/

/-- The macro `set_bit(array, bit)`. -/
def set_bit {α : Type} [DecidableEq α] (array : Finset α) (bit : α) : Finset α :=
  insert bit array

/-- The macro `clear_bit(array, bit)`. -/
def clear_bit {α : Type} [DecidableEq α] (array : Finset α) (bit : α) : Finset α :=
  array.erase bit

/-- The macro `bit_is_set(array, bit)`. -/
def bit_is_set {α : Type} [DecidableEq α] (array : Finset α) (bit : α) : Bool :=
  decide (bit ∈ array)

/-- The first element of a tool list that satisfies `p`: the loop
`list_for_each(t, tool_list, link) { if (p t) { tool = t; break; } }`. -/
def list_find (p : libinput_tool → Bool) : tool_list_t → Option (tool_ptr × libinput_tool)
  | [] => none
  | t :: rest => if p t.2 then some t else list_find p rest

/-- The function `list_insert(list, elm)`: the element becomes the first of the list. -/
def list_insert (list : tool_list_t) (elm : tool_ptr × libinput_tool) : tool_list_t :=
  elm :: list

/-! ## Helpers of evdev-tablet.h -/

/-- Modelled from the spec: `evcode_to_axis` (evdev-tablet.h); the recognised
ABS codes map one to one to the axes, any other code gives
`LIBINPUT_TABLET_AXIS_NONE` (here `none`). -/
def evcode_to_axis (evcode : Nat) : Option libinput_tablet_axis :=
  if evcode = ABS_X then some X
  else if evcode = ABS_Y then some Y
  else if evcode = ABS_DISTANCE then some DISTANCE
  else if evcode = ABS_PRESSURE then some PRESSURE
  else if evcode = ABS_TILT_X then some TILT_X
  else if evcode = ABS_TILT_Y then some TILT_Y
  else none

/-- Modelled from the spec: `axis_to_evcode` (evdev-tablet.h), the inverse of
`evcode_to_axis`. -/
def axis_to_evcode : libinput_tablet_axis → Nat
  | X => ABS_X
  | Y => ABS_Y
  | DISTANCE => ABS_DISTANCE
  | PRESSURE => ABS_PRESSURE
  | TILT_X => ABS_TILT_X
  | TILT_Y => ABS_TILT_Y

/-- The axes from `LIBINPUT_TABLET_AXIS_X` to `LIBINPUT_TABLET_AXIS_MAX`, in
the order of the loops over them. -/
def all_axes : List libinput_tablet_axis := [X, Y, DISTANCE, PRESSURE, TILT_X, TILT_Y]

/-! ## libevdev queries -/

def libevdev_get_abs_info (evdev : libevdev) (code : Nat) : Option input_absinfo :=
  evdev.abs code

/-- The query `libevdev_has_event_code`, for the two event types the dispatcher asks about. -/
def libevdev_has_event_code (evdev : libevdev) (type code : Nat) : Bool :=
  if type = EV_ABS then (evdev.abs code).isSome
  else if type = EV_KEY then evdev.key code
  else false

/-! ## The notification sink (libinput.c) -/

def post (li : libinput) (n : notification) : libinput :=
  { li with events := li.events ++ [n] }

def tablet_notify_proximity (s : State) (time : Nat) (tool : tool_ptr)
    (state : libinput_tool_proximity_state) (changed_axes : Finset libinput_tablet_axis)
    (axes : libinput_tablet_axis → c_double) : State :=
  { s with libinput := post s.libinput (notification.proximity time tool state changed_axes axes) }

def tablet_notify_axis (s : State) (time : Nat) (tool : tool_ptr)
    (changed_axes : Finset libinput_tablet_axis) (axes : libinput_tablet_axis → c_double) : State :=
  { s with libinput := post s.libinput (notification.axis time tool changed_axes axes) }

def tablet_notify_button (s : State) (time : Nat) (tool : tool_ptr)
    (axes : libinput_tablet_axis → c_double) (button : Nat) (state : libinput_button_state) : State :=
  { s with libinput := post s.libinput (notification.button time tool axes button state) }

/-! ## evdev-tablet.c -/

def tablet_set_status (tablet : tablet_dispatch) (s : tablet_status) : tablet_dispatch :=
  { tablet with status := insert s tablet.status }

def tablet_unset_status (tablet : tablet_dispatch) (s : tablet_status) : tablet_dispatch :=
  { tablet with status := tablet.status.erase s }

def tablet_has_status (tablet : tablet_dispatch) (s : tablet_status) : Bool :=
  decide (s ∈ tablet.status)

/-- The buttons set in the current state and not in the previous one. -/
def tablet_get_pressed_buttons (tablet : tablet_dispatch) : Finset (Fin KEY_CNT) :=
  tablet.button_state.stylus_buttons \ tablet.prev_button_state.stylus_buttons

/-- The buttons set in the previous state and not in the current one. -/
def tablet_get_released_buttons (tablet : tablet_dispatch) : Finset (Fin KEY_CNT) :=
  tablet.prev_button_state.stylus_buttons \ tablet.button_state.stylus_buttons

def tablet_device_has_axis (device : evdev_device) (axis : libinput_tablet_axis) : Bool :=
  libevdev_has_event_code device.evdev EV_ABS (axis_to_evcode axis)

def tablet_process_absolute (s : State) (e : input_event) : State :=
  if e.code = ABS_X ∨ e.code = ABS_Y ∨ e.code = ABS_PRESSURE ∨ e.code = ABS_TILT_X
      ∨ e.code = ABS_TILT_Y ∨ e.code = ABS_DISTANCE then
    match evcode_to_axis e.code with
    | none => s
    | some axis =>
      let tablet := { s.tablet with changed_axes := set_bit s.tablet.changed_axes axis }
      { s with tablet := tablet_set_status tablet TABLET_AXES_UPDATED }
  else if e.code = ABS_MISC then
    { s with tablet := { s.tablet with current_tool_id := (e.value % 2 ^ 32).toNat } }
  else
    s

/-- One iteration of the loop of `tablet_mark_all_axes_changed`. -/
def mark_axis_changed (device : evdev_device) (changed_axes : Finset libinput_tablet_axis)
    (a : libinput_tablet_axis) : Finset libinput_tablet_axis :=
  if tablet_device_has_axis device a then set_bit changed_axes a else changed_axes

def tablet_mark_all_axes_changed (s : State) : State :=
  let tablet := { s.tablet with
    changed_axes := all_axes.foldl (mark_axis_changed s.device) s.tablet.changed_axes }
  { s with tablet := tablet_set_status tablet TABLET_AXES_UPDATED }

def tablet_change_to_left_handed (s : State) : State :=
  if s.device.left_handed_enabled = s.device.left_handed_want_enabled then s
  else if !tablet_has_status s.tablet TABLET_TOOL_OUT_OF_PROXIMITY then s
  else { s with device :=
          { s.device with left_handed_enabled := s.device.left_handed_want_enabled } }

/-- The function `tablet_update_tool`; a failed `assert` is `none`. -/
def tablet_update_tool (s : State) (tool : libinput_tool_type) (enabled : Bool) :
    Option State :=
  if tool = NONE then none
  else if enabled then
    let s1 := { s with tablet := { s.tablet with current_tool_type := tool } }
    let s2 := tablet_mark_all_axes_changed s1
    let t3 := tablet_set_status s2.tablet TABLET_TOOL_ENTERING_PROXIMITY
    some { s2 with tablet := tablet_unset_status t3 TABLET_TOOL_OUT_OF_PROXIMITY }
  else
    some { s with tablet := tablet_set_status s.tablet TABLET_TOOL_LEAVING_PROXIMITY }

/-- The function `normalize_pressure_or_dist`: both differences are computed
in `int` and converted to `double`, the division is a division of doubles. -/
def normalize_pressure_or_dist (absinfo : input_absinfo) : c_double :=
  let range : c_double := c_double.of_int (int_sub absinfo.maximum absinfo.minimum)
  let value : c_double :=
    (c_double.of_int (int_sub absinfo.value absinfo.minimum)).div range
  value

/-- The function `normalize_tilt`. -/
def normalize_tilt (absinfo : input_absinfo) : c_double :=
  let range : c_double := c_double.of_int (int_sub absinfo.maximum absinfo.minimum)
  let value : c_double :=
    (c_double.of_int (int_sub absinfo.value absinfo.minimum)).div range
  (value.mul (c_double.of_int 2)).sub (c_double.of_int 1)

/-- The function `invert_axis`: both subtractions are computed in `int`. -/
def invert_axis (absinfo : input_absinfo) : Int :=
  int_sub absinfo.maximum (int_sub absinfo.value absinfo.minimum)

/-- The value the loop of `tablet_check_notify_axes` stores in `tablet->axes[a]`
for a changed axis `a`; the loop reads through the pointer that
`libevdev_get_abs_info` returns. -/
def axis_value (device : evdev_device) (a : libinput_tablet_axis) : Option c_double :=
  match libevdev_get_abs_info device.evdev (axis_to_evcode a) with
  | none => none
  | some absinfo =>
    match a with
    | X | Y =>
      if device.left_handed_enabled then some (c_double.of_int (invert_axis absinfo))
      else some (c_double.of_int absinfo.value)
    | DISTANCE | PRESSURE => some (normalize_pressure_or_dist absinfo)
    | TILT_X | TILT_Y => some (normalize_tilt absinfo)

/-- The loop of `tablet_check_notify_axes` over the axes still to visit; the
state of the loop is `tablet->axes` and `axis_update_needed`. -/
def check_notify_axes_loop (device : evdev_device) (changed_axes : Finset libinput_tablet_axis) :
    List libinput_tablet_axis → (libinput_tablet_axis → c_double) × Bool →
    Option ((libinput_tablet_axis → c_double) × Bool)
  | [], acc => some acc
  | a :: rest, acc =>
    if !bit_is_set changed_axes a then
      check_notify_axes_loop device changed_axes rest acc
    else
      match axis_value device a with
      | none => none
      | some v =>
        check_notify_axes_loop device changed_axes rest (Function.update acc.1 a v, true)

def tablet_check_notify_axes (s : State) (time : Nat) (tool : tool_ptr) : Option State :=
  match check_notify_axes_loop s.device s.tablet.changed_axes all_axes (s.tablet.axes, false) with
  | none => none
  | some (axes, axis_update_needed) =>
    let s1 : State := { s with tablet := { s.tablet with axes := axes } }
    let s2 : State :=
      if axis_update_needed
          && !tablet_has_status s1.tablet TABLET_TOOL_OUT_OF_PROXIMITY
          && !tablet_has_status s1.tablet TABLET_TOOL_LEAVING_PROXIMITY then
        if tablet_has_status s1.tablet TABLET_TOOL_ENTERING_PROXIMITY then
          tablet_notify_proximity s1 time tool LIBINPUT_TOOL_PROXIMITY_IN
            s1.tablet.changed_axes s1.tablet.axes
        else
          tablet_notify_axis s1 time tool s1.tablet.changed_axes s1.tablet.axes
      else s1
    some { s2 with tablet := { s2.tablet with changed_axes := ∅ } }

/-- The function `tablet_update_button`.  Every code of the allow-list is below
`KEY_CNT`, so the bit lies inside `stylus_buttons`. -/
def tablet_update_button (tablet : tablet_dispatch) (evcode : Nat) (enable : Nat) :
    tablet_dispatch :=
  if evcode = BTN_LEFT ∨ evcode = BTN_RIGHT ∨ evcode = BTN_MIDDLE ∨ evcode = BTN_SIDE
      ∨ evcode = BTN_EXTRA ∨ evcode = BTN_FORWARD ∨ evcode = BTN_BACK ∨ evcode = BTN_TASK
      ∨ evcode = BTN_TOUCH ∨ evcode = BTN_STYLUS ∨ evcode = BTN_STYLUS2 then
    if h : evcode < KEY_CNT then
      if enable ≠ 0 then
        let t1 := { tablet with button_state :=
          { stylus_buttons := set_bit tablet.button_state.stylus_buttons ⟨evcode, h⟩ } }
        tablet_set_status t1 TABLET_BUTTONS_PRESSED
      else
        let t1 := { tablet with button_state :=
          { stylus_buttons := clear_bit tablet.button_state.stylus_buttons ⟨evcode, h⟩ } }
        tablet_set_status t1 TABLET_BUTTONS_RELEASED
    else tablet
  else
    tablet

/-- The function `tablet_evcode_to_tool`; `abort()` is `none`. -/
def tablet_evcode_to_tool (code : Nat) : Option libinput_tool_type :=
  if code = BTN_TOOL_PEN then some PEN
  else if code = BTN_TOOL_RUBBER then some ERASER
  else if code = BTN_TOOL_BRUSH then some BRUSH
  else if code = BTN_TOOL_PENCIL then some PENCIL
  else if code = BTN_TOOL_AIRBRUSH then some AIRBRUSH
  else if code = BTN_TOOL_FINGER then some FINGER
  else if code = BTN_TOOL_MOUSE then some MOUSE
  else if code = BTN_TOOL_LENS then some LENS
  else none

def tablet_process_key (s : State) (e : input_event) : Option State :=
  if e.code = BTN_TOOL_PEN ∨ e.code = BTN_TOOL_RUBBER ∨ e.code = BTN_TOOL_BRUSH
      ∨ e.code = BTN_TOOL_PENCIL ∨ e.code = BTN_TOOL_AIRBRUSH ∨ e.code = BTN_TOOL_FINGER
      ∨ e.code = BTN_TOOL_MOUSE ∨ e.code = BTN_TOOL_LENS then
    match tablet_evcode_to_tool e.code with
    | none => none
    | some tool => tablet_update_tool s tool (decide (e.value ≠ 0))
  else
    let tablet1 :=
      if e.code = BTN_TOUCH then
        if e.value ≠ 0 then tablet_set_status s.tablet TABLET_STYLUS_IN_CONTACT
        else tablet_unset_status s.tablet TABLET_STYLUS_IN_CONTACT
      else s.tablet
    some { s with tablet := tablet_update_button tablet1 e.code (e.value % 2 ^ 32).toNat }

def tablet_process_misc (s : State) (e : input_event) : State :=
  if e.code = MSC_SERIAL then
    if e.value ≠ -1 then
      { s with tablet := { s.tablet with current_tool_serial := (e.value % 2 ^ 32).toNat } }
    else s
  else
    s

def copy_axis_cap (tablet : tablet_dispatch) (tool : libinput_tool)
    (axis : libinput_tablet_axis) : libinput_tool :=
  if bit_is_set tablet.axis_caps axis then
    { tool with axis_caps := set_bit tool.axis_caps axis }
  else tool

def copy_button_cap (device : evdev_device) (tool : libinput_tool) (button : Nat) :
    libinput_tool :=
  if libevdev_has_event_code device.evdev EV_KEY button then
    { tool with buttons := set_bit tool.buttons button }
  else tool

/-- The function `tool_set_bits_from_libwacom`: the return code and the tool.
The loop of the puck case visits the codes `BTN_LEFT + i` for
`0 <= i < num_buttons`. -/
def tool_set_bits_from_libwacom (s : State) (tool : libinput_tool) : Int × libinput_tool :=
  match s.libwacom with
  | none => (1, tool)
  | some db =>
    match db.stylus_get_for_id tool.tool_id with
    | none => (1, tool)
    | some st =>
      let tool1 :=
        if st.type = WSTYLUS_PUCK then
          (List.range st.num_buttons.toNat).foldl
            (fun t i => copy_button_cap s.device t (BTN_LEFT + i)) tool
        else
          let t1 := if st.num_buttons ≥ 2 then copy_button_cap s.device tool BTN_STYLUS2 else tool
          let t2 := if st.num_buttons ≥ 1 then copy_button_cap s.device t1 BTN_STYLUS else t1
          copy_button_cap s.device t2 BTN_TOUCH
      let tool2 :=
        match st.type with
        | WSTYLUS_AIRBRUSH | WSTYLUS_MARKER | WSTYLUS_GENERAL | WSTYLUS_INKING
        | WSTYLUS_CLASSIC | WSTYLUS_STROKE =>
          let a1 := copy_axis_cap s.tablet tool1 PRESSURE
          let a2 := copy_axis_cap s.tablet a1 DISTANCE
          let a3 := copy_axis_cap s.tablet a2 TILT_X
          copy_axis_cap s.tablet a3 TILT_Y
        | _ => tool1
      (0, tool2)

/-- The type-based part of `tool_set_bits`, run when the database gave nothing. -/
def tool_set_bits_fallback (s : State) (tool : libinput_tool) : libinput_tool :=
  let type := tool.type
  let tool1 :=
    match type with
    | PEN | ERASER | PENCIL | BRUSH | AIRBRUSH =>
      let a1 := copy_axis_cap s.tablet tool PRESSURE
      let a2 := copy_axis_cap s.tablet a1 DISTANCE
      let a3 := copy_axis_cap s.tablet a2 TILT_X
      copy_axis_cap s.tablet a3 TILT_Y
    | _ => tool
  match type with
  | PEN | BRUSH | AIRBRUSH | PENCIL | ERASER =>
    let b1 := copy_button_cap s.device tool1 BTN_STYLUS
    let b2 := copy_button_cap s.device b1 BTN_STYLUS2
    copy_button_cap s.device b2 BTN_TOUCH
  | MOUSE | LENS =>
    let b1 := copy_button_cap s.device tool1 BTN_LEFT
    let b2 := copy_button_cap s.device b1 BTN_MIDDLE
    let b3 := copy_button_cap s.device b2 BTN_RIGHT
    let b4 := copy_button_cap s.device b3 BTN_SIDE
    copy_button_cap s.device b4 BTN_EXTRA
  | _ => tool1

def tool_set_bits (s : State) (tool : libinput_tool) : libinput_tool :=
  let r := tool_set_bits_from_libwacom s tool
  if r.1 = 0 then r.2
  else tool_set_bits_fallback s tool

/-- The function `tablet_get_tool`: the address of the tool and the new state.
A tool with a serial is looked up in the global list of the libinput context,
a tool without one in the list of the dispatcher.  A tool that is not found is
allocated (`zalloc`, taken to succeed, at the address `next_tool`), filled in,
given its capabilities and put at the head of the list that was searched. -/
def tablet_get_tool (s : State) (type : libinput_tool_type) (tool_id serial : Nat) :
    tool_ptr × State :=
  let found :=
    if serial ≠ 0 then
      list_find (fun t => decide (type = t.type) && decide (serial = t.serial))
        s.libinput.tool_list
    else
      list_find (fun t => decide (type = t.type)) s.tablet.tool_list
  match found with
  | some t => (t.1, s)
  | none =>
    let p : tool_ptr := s.libinput.next_tool
    let tool0 : libinput_tool :=
      { type := type, serial := serial, tool_id := tool_id, refcount := 1,
        axis_caps := ∅, buttons := ∅ }
    let tool := tool_set_bits s tool0
    if serial ≠ 0 then
      (p, { s with libinput := { s.libinput with
              tool_list := list_insert s.libinput.tool_list (p, tool), next_tool := p + 1 } })
    else
      (p, { s with
              tablet := { s.tablet with tool_list := list_insert s.tablet.tool_list (p, tool) },
              libinput := { s.libinput with next_tool := p + 1 } })

/-- The function `tablet_notify_button_mask`.  The loop runs over the
`nbits = 8 * sizeof(buttons[0]) * buttons_len = KEY_CNT` bits of the mask. -/
def tablet_notify_button_mask (s : State) (time : Nat) (tool : tool_ptr)
    (buttons : Finset (Fin KEY_CNT)) (state : libinput_button_state) : State :=
  (List.finRange KEY_CNT).foldl
    (fun st i =>
      if !bit_is_set buttons i then st
      else tablet_notify_button st time tool st.tablet.axes i.val state)
    s

def tablet_notify_buttons (s : State) (time : Nat) (tool : tool_ptr)
    (state : libinput_button_state) : State :=
  let buttons :=
    if state = LIBINPUT_BUTTON_STATE_PRESSED then tablet_get_pressed_buttons s.tablet
    else tablet_get_released_buttons s.tablet
  tablet_notify_button_mask s time tool buttons state

/-- The function `sanitize_tablet_axes`.  The condition of the first branch is
evaluated left to right and stops at the first false conjunct, so `distance` is
read only when the distance bit is set and `pressure` only when moreover the
raw distance is above its minimum. -/
def sanitize_tablet_axes (s : State) : Option State :=
  let distance := libevdev_get_abs_info s.device.evdev ABS_DISTANCE
  let pressure := libevdev_get_abs_info s.device.evdev ABS_PRESSURE
  let second : State :=
    if bit_is_set s.tablet.changed_axes PRESSURE
        && !tablet_has_status s.tablet TABLET_STYLUS_IN_CONTACT then
      if s.tablet.axes PRESSURE = 0 then
        { s with tablet := { s.tablet with
            changed_axes := clear_bit s.tablet.changed_axes PRESSURE } }
      else
        { s with tablet := { s.tablet with axes := Function.update s.tablet.axes PRESSURE 0 } }
    else s
  if bit_is_set s.tablet.changed_axes DISTANCE then
    match distance with
    | none => none
    | some d =>
      if d.value > d.minimum then
        match pressure with
        | none => none
        | some pr =>
          if pr.value > pr.minimum then
            some { s with tablet := { s.tablet with
              changed_axes := clear_bit s.tablet.changed_axes DISTANCE,
              axes := Function.update s.tablet.axes DISTANCE 0 } }
          else some second
      else some second
  else some second

/-- The first part of `tablet_flush`, after the tool is resolved: the branch on
leaving proximity and on pending axis updates. -/
def tablet_flush_axes (s : State) (time : Nat) (tool : tool_ptr) : Option State :=
  if tablet_has_status s.tablet TABLET_TOOL_LEAVING_PROXIMITY then
    let t1 := { s.tablet with button_state := { stylus_buttons := ∅ } }
    some { s with tablet := tablet_set_status t1 TABLET_BUTTONS_RELEASED }
  else if tablet_has_status s.tablet TABLET_AXES_UPDATED
      || tablet_has_status s.tablet TABLET_TOOL_ENTERING_PROXIMITY then
    match sanitize_tablet_axes s with
    | none => none
    | some s1 =>
      match tablet_check_notify_axes s1 time tool with
      | none => none
      | some s2 =>
        let t3 := tablet_unset_status s2.tablet TABLET_TOOL_ENTERING_PROXIMITY
        some { s2 with tablet := tablet_unset_status t3 TABLET_AXES_UPDATED }
  else some s

/-- The block of `tablet_flush` that reports the released buttons. -/
def tablet_flush_released (s : State) (time : Nat) (tool : tool_ptr) : State :=
  if tablet_has_status s.tablet TABLET_BUTTONS_RELEASED then
    let n := tablet_notify_buttons s time tool LIBINPUT_BUTTON_STATE_RELEASED
    { n with tablet := tablet_unset_status n.tablet TABLET_BUTTONS_RELEASED }
  else s

/-- The block of `tablet_flush` that reports the pressed buttons. -/
def tablet_flush_pressed (s : State) (time : Nat) (tool : tool_ptr) : State :=
  if tablet_has_status s.tablet TABLET_BUTTONS_PRESSED then
    let n := tablet_notify_buttons s time tool LIBINPUT_BUTTON_STATE_PRESSED
    { n with tablet := tablet_unset_status n.tablet TABLET_BUTTONS_PRESSED }
  else s

/-- The block of `tablet_flush` that takes the tool out of proximity. -/
def tablet_flush_leaving (s : State) (time : Nat) (tool : tool_ptr) : State :=
  if tablet_has_status s.tablet TABLET_TOOL_LEAVING_PROXIMITY then
    let c : State := { s with tablet := { s.tablet with changed_axes := ∅ } }
    let n := tablet_notify_proximity c time tool LIBINPUT_TOOL_PROXIMITY_OUT
      c.tablet.changed_axes c.tablet.axes
    let t1 := tablet_set_status n.tablet TABLET_TOOL_OUT_OF_PROXIMITY
    let u : State := { n with tablet := tablet_unset_status t1 TABLET_TOOL_LEAVING_PROXIMITY }
    tablet_change_to_left_handed u
  else s

/-- The second part of `tablet_flush`: the three blocks above in the order of the
source, then the snapshot of the button state. -/
def tablet_flush_buttons (s : State) (time : Nat) (tool : tool_ptr) : State :=
  let s3 := tablet_flush_leaving
    (tablet_flush_pressed (tablet_flush_released s time tool) time tool) time tool
  { s3 with tablet := { s3.tablet with prev_button_state := s3.tablet.button_state } }

def tablet_flush (s : State) (time : Nat) : Option State :=
  let r := tablet_get_tool s s.tablet.current_tool_type s.tablet.current_tool_id
    s.tablet.current_tool_serial
  match tablet_flush_axes r.2 time r.1 with
  | none => none
  | some s1 => some (tablet_flush_buttons s1 time r.1)

/-- The function `tablet_process`.  Its `time` is 64 bits wide and
`tablet_flush` takes a `uint32_t`. -/
def tablet_process (s : State) (e : input_event) (time : Nat) : Option State :=
  if e.type = EV_ABS then some (tablet_process_absolute s e)
  else if e.type = EV_KEY then tablet_process_key s e
  else if e.type = EV_MSC then some (tablet_process_misc s e)
  else if e.type = EV_SYN then tablet_flush s (time % 2 ^ 32)
  else some s

/-- One iteration of the loop of `tablet_init` that fills `axis_caps`. -/
def init_axis_cap (device : evdev_device) (axis_caps : Finset libinput_tablet_axis)
    (axis : libinput_tablet_axis) : Finset libinput_tablet_axis :=
  if tablet_device_has_axis device axis then set_bit axis_caps axis else axis_caps

/-- The function `tablet_init` on the zeroed dispatcher that `evdev_tablet_create`
allocates, for the given device, context and database. -/
def tablet_init (device : evdev_device) (li : libinput) (db : Option WacomDeviceDatabase) :
    State :=
  let zeroed : tablet_dispatch :=
    { status := ∅, changed_axes := ∅, axes := fun _ => 0, axis_caps := ∅, tool_list := [],
      button_state := { stylus_buttons := ∅ }, prev_button_state := { stylus_buttons := ∅ },
      current_tool_type := NONE, current_tool_id := 0, current_tool_serial := 0 }
  let t1 := { zeroed with axis_caps := all_axes.foldl (init_axis_cap device) zeroed.axis_caps }
  let s1 := tablet_mark_all_axes_changed
    { tablet := t1, device := device, libinput := li, libwacom := db }
  { s1 with tablet := tablet_set_status s1.tablet TABLET_TOOL_OUT_OF_PROXIMITY }

/-! ## Definitions used to state the properties -/

/-- The notifications of a button mask: one per set bit, in increasing order of the code. -/
def button_events (time : Nat) (tool : tool_ptr) (axes : libinput_tablet_axis → c_double)
    (buttons : Finset (Fin KEY_CNT)) (state : libinput_button_state) : List notification :=
  ((List.finRange KEY_CNT).filter (fun i => i ∈ buttons)).map
    (fun i => notification.button time tool axes i.val state)

/-- The codes of a button mask in the order of the notification loop. -/
def mask_codes (buttons : Finset (Fin KEY_CNT)) : List (Fin KEY_CNT) :=
  (List.finRange KEY_CNT).filter (fun i => i ∈ buttons)

/-- The axis values after the loop of `tablet_check_notify_axes`: a changed axis
gets the value computed from its raw sample, any other keeps its value. -/
def updated_axes (device : evdev_device) (changed : Finset libinput_tablet_axis)
    (axes : libinput_tablet_axis → c_double) (a : libinput_tablet_axis) : c_double :=
  if a ∈ changed then (axis_value device a).getD 0 else axes a

/-- The raw sample of the code exists and is above its minimum. -/
def raw_above_min (device : evdev_device) (code : Nat) : Bool :=
  match libevdev_get_abs_info device.evdev code with
  | some a => decide (a.value > a.minimum)
  | none => false

/-- The changed-axes set that `sanitize_tablet_axes` leaves. -/
def sanitized_changed_axes (device : evdev_device) (status : Finset tablet_status)
    (axes : libinput_tablet_axis → c_double) (changed : Finset libinput_tablet_axis) :
    Finset libinput_tablet_axis :=
  if DISTANCE ∈ changed ∧ raw_above_min device ABS_DISTANCE = true
      ∧ raw_above_min device ABS_PRESSURE = true then
    changed.erase DISTANCE
  else if PRESSURE ∈ changed ∧ TABLET_STYLUS_IN_CONTACT ∉ status ∧ axes PRESSURE = 0 then
    changed.erase PRESSURE
  else changed

/-- The axis values that `sanitize_tablet_axes` leaves. -/
def sanitized_axes (device : evdev_device) (status : Finset tablet_status)
    (axes : libinput_tablet_axis → c_double) (changed : Finset libinput_tablet_axis) :
    libinput_tablet_axis → c_double :=
  if DISTANCE ∈ changed ∧ raw_above_min device ABS_DISTANCE = true
      ∧ raw_above_min device ABS_PRESSURE = true then
    Function.update axes DISTANCE 0
  else if PRESSURE ∈ changed ∧ TABLET_STYLUS_IN_CONTACT ∉ status ∧ axes PRESSURE ≠ 0 then
    Function.update axes PRESSURE 0
  else axes

/-- The sanitizer reads no sample of an axis the device lacks. -/
def sanitize_reads_ok (s : State) : Prop :=
  DISTANCE ∈ s.tablet.changed_axes →
    (libevdev_get_abs_info s.device.evdev ABS_DISTANCE).isSome = true ∧
    (raw_above_min s.device ABS_DISTANCE = true →
      (libevdev_get_abs_info s.device.evdev ABS_PRESSURE).isSome = true)

/-- The axes the device reports. -/
def device_axes (device : evdev_device) : Finset libinput_tablet_axis :=
  Finset.univ.filter (fun a => tablet_device_has_axis device a = true)

/-- The tool that `tablet_flush` resolves at its start. -/
def flush_tool (s : State) : tool_ptr :=
  (tablet_get_tool s s.tablet.current_tool_type s.tablet.current_tool_id
    s.tablet.current_tool_serial).1

/-- The changed-axes set a flush publishes: what the sanitizer leaves. -/
def flush_changed_axes (s : State) : Finset libinput_tablet_axis :=
  sanitized_changed_axes s.device s.tablet.status s.tablet.axes s.tablet.changed_axes

/-- The axis values a flush publishes: the sanitized values, overwritten for
every axis that is still marked changed by the value computed from its raw sample. -/
def flush_axes_values (s : State) : libinput_tablet_axis → c_double :=
  updated_axes s.device (flush_changed_axes s)
    (sanitized_axes s.device s.tablet.status s.tablet.axes s.tablet.changed_axes)

def example_device : evdev_device :=
  { evdev :=
      { abs := fun c =>
          if c = ABS_DISTANCE then some ⟨50, 0, 100⟩
          else if c = ABS_PRESSURE then some ⟨10, 0, 100⟩
          else none,
        key := fun c => decide (c = BTN_TOUCH ∨ c = BTN_STYLUS) },
    left_handed_enabled := false,
    left_handed_want_enabled := false }

def out_of_proximity_state : State :=
  { tablet :=
      { status := {TABLET_TOOL_OUT_OF_PROXIMITY}, changed_axes := ∅, axes := fun _ => 0,
        axis_caps := {DISTANCE, PRESSURE}, tool_list := [],
        button_state := { stylus_buttons := ∅ }, prev_button_state := { stylus_buttons := ∅ },
        current_tool_type := NONE, current_tool_id := 0, current_tool_serial := 0 },
    device := example_device,
    libinput := { tool_list := [], next_tool := 0, events := [] },
    libwacom := none }

/-- The axis values a notification carries. -/
def notification.axes : notification → libinput_tablet_axis → c_double
  | .proximity _ _ _ _ axes => axes
  | .axis _ _ _ axes => axes
  | .button _ _ axes _ _ => axes

/-- The changed-axes set a notification carries; a button notification has none. -/
def notification.changed_axes : notification → Finset libinput_tablet_axis
  | .proximity _ _ _ changed _ => changed
  | .axis _ _ changed _ => changed
  | .button _ _ _ _ _ => ∅

/-- A tool in proximity and not in contact, stored pressure 1, with a pending
pressure update. -/
def hover_pressure_state : State :=
  { tablet :=
      { status := {TABLET_AXES_UPDATED}, changed_axes := {PRESSURE},
        axes := fun a => if a = PRESSURE then c_double.finite 1 else 0,
        axis_caps := {DISTANCE, PRESSURE}, tool_list := [],
        button_state := { stylus_buttons := ∅ }, prev_button_state := { stylus_buttons := ∅ },
        current_tool_type := PEN, current_tool_id := 0, current_tool_serial := 0 },
    device := example_device,
    libinput := { tool_list := [], next_tool := 0, events := [] },
    libwacom := none }

/-- A tool leaving proximity with the stylus button held. -/
def leaving_state : State :=
  { tablet :=
      { status := {TABLET_TOOL_LEAVING_PROXIMITY}, changed_axes := ∅, axes := fun _ => 0,
        axis_caps := {DISTANCE, PRESSURE}, tool_list := [],
        button_state := { stylus_buttons := {0x14b} },
        prev_button_state := { stylus_buttons := {0x14b} },
        current_tool_type := PEN, current_tool_id := 0, current_tool_serial := 0 },
    device := { example_device with left_handed_want_enabled := true },
    libinput := { tool_list := [], next_tool := 0, events := [] },
    libwacom := none }

/-- The state after the first flush of `out_of_proximity_state`. -/
def flushed_state : State :=
  (tablet_flush out_of_proximity_state 0).getD out_of_proximity_state

/-- The scenario of the spec: distance 50 and pressure 10 on ranges 0..100, both
changed, the stylus not in contact. -/
def scenario_state : State :=
  { tablet :=
      { status := {TABLET_AXES_UPDATED}, changed_axes := {DISTANCE, PRESSURE},
        axes := fun _ => 0,
        axis_caps := {DISTANCE, PRESSURE}, tool_list := [],
        button_state := { stylus_buttons := ∅ }, prev_button_state := { stylus_buttons := ∅ },
        current_tool_type := PEN, current_tool_id := 0, current_tool_serial := 0 },
    device := example_device,
    libinput := { tool_list := [], next_tool := 0, events := [] },
    libwacom := none }

/-- The shape of what `tablet_check_notify_axes` emits at the start of a flush:
nothing, one proximity IN or one axis update. -/
def first_shape (time : Nat) (tool : tool_ptr) (axes : libinput_tablet_axis → c_double)
    (first : List notification) : Prop :=
  first = [] ∨ ∃ changed : Finset libinput_tablet_axis,
    first = [notification.proximity time tool LIBINPUT_TOOL_PROXIMITY_IN changed axes] ∨
    first = [notification.axis time tool changed axes]

/-- The flags of pending button changes agree with the button sets: a button
that differs between the current and the previous set has its flag pending. -/
def button_flags_pending (s : State) : Prop :=
  (tablet_get_released_buttons s.tablet ≠ ∅ → TABLET_BUTTONS_RELEASED ∈ s.tablet.status) ∧
  (tablet_get_pressed_buttons s.tablet ≠ ∅ → TABLET_BUTTONS_PRESSED ∈ s.tablet.status)

/-- The current button set as a flush reports it: emptied when the tool is leaving. -/
def flush_button_set (s : State) : Finset (Fin KEY_CNT) :=
  if TABLET_TOOL_LEAVING_PROXIMITY ∈ s.tablet.status then ∅
  else s.tablet.button_state.stylus_buttons

/-- Rule 1 of the sanitizer applies: distance is marked changed and the raw
distance and the raw pressure are both above their minimum. -/
def rule1_applies (s : State) : Prop :=
  DISTANCE ∈ s.tablet.changed_axes ∧ raw_above_min s.device ABS_DISTANCE = true
    ∧ raw_above_min s.device ABS_PRESSURE = true


/-- A tool in proximity and not in contact, stored pressure 0, with a pending
pressure update. -/
def hover_zero_state : State :=
  { tablet :=
      { status := {TABLET_AXES_UPDATED}, changed_axes := {PRESSURE},
        axes := fun _ => 0,
        axis_caps := {DISTANCE, PRESSURE}, tool_list := [],
        button_state := { stylus_buttons := ∅ }, prev_button_state := { stylus_buttons := ∅ },
        current_tool_type := PEN, current_tool_id := 0, current_tool_serial := 0 },
    device := example_device,
    libinput := { tool_list := [], next_tool := 0, events := [] },
    libwacom := none }

/-- A raw event as the dispatcher receives it.  libevdev records an event before
the device hands it on, so each event comes with the state of libevdev at that
time; `time` is the 64-bit timestamp. -/
structure raw_event where
  evdev : libevdev
  event : input_event
  time : Nat

/-- One raw event: the dispatcher sees the libevdev state that comes with the
event and processes the event. -/
def deliver (s : State) (r : raw_event) : Option State :=
  tablet_process { s with device := { s.device with evdev := r.evdev } } r.event r.time

/-- A sequence of raw events, in order; there is no result as soon as one event
has none. -/
def run_events : State → List raw_event → Option State
  | s, [] => some s
  | s, r :: rs =>
    match deliver s r with
    | none => none
    | some s1 => run_events s1 rs

/-- The eight tool-presence codes: the first case list of `tablet_process_key`. -/
abbrev is_tool_code (c : Nat) : Prop :=
  c = BTN_TOOL_PEN ∨ c = BTN_TOOL_RUBBER ∨ c = BTN_TOOL_BRUSH ∨ c = BTN_TOOL_PENCIL
    ∨ c = BTN_TOOL_AIRBRUSH ∨ c = BTN_TOOL_FINGER ∨ c = BTN_TOOL_MOUSE ∨ c = BTN_TOOL_LENS

/-- The eleven button codes: the allow-list of `tablet_update_button`. -/
abbrev is_button_code (c : Nat) : Prop :=
  c = BTN_LEFT ∨ c = BTN_RIGHT ∨ c = BTN_MIDDLE ∨ c = BTN_SIDE ∨ c = BTN_EXTRA
    ∨ c = BTN_FORWARD ∨ c = BTN_BACK ∨ c = BTN_TASK ∨ c = BTN_TOUCH ∨ c = BTN_STYLUS
    ∨ c = BTN_STYLUS2

/-- The event is a key event with a tool-presence code. -/
abbrev is_tool_event (e : input_event) : Prop := e.type = EV_KEY ∧ is_tool_code e.code

/-- The event is a key event with a button code. -/
abbrev is_button_event (e : input_event) : Prop := e.type = EV_KEY ∧ is_button_code e.code

/-- One event of the scan of the frames of a sequence.  The pair records
whether the frame so far holds a tool-presence key event with a value other
than 0 and whether it holds one with value 0; the scan fails when a frame
holds both, and a synchronization marker starts a new frame. -/
def frame_step (f : Bool × Bool) (e : input_event) : Option (Bool × Bool) :=
  if e.type = EV_SYN then some (false, false)
  else if is_tool_event e then
    if e.value ≠ 0 then (if f.2 = true then none else some (true, false))
    else (if f.1 = true then none else some (false, true))
  else some f

def frame_scan : Bool × Bool → List input_event → Option (Bool × Bool)
  | f, [] => some f
  | f, e :: es =>
    match frame_step f e with
    | none => none
    | some f1 => frame_scan f1 es

/-- No frame of the sequence holds both a tool-presence key event with a value
other than 0 and a tool-presence key event with value 0. -/
def frames_separate (es : List raw_event) : Prop :=
  (frame_scan (false, false) (es.map (fun r => r.event))).isSome = true

/-- The notification is a button notification. -/
def notification.is_button : notification → Bool
  | .button _ _ _ _ _ => true
  | _ => false

/-- The dispatcher of the example device right after `tablet_init`. -/
def initial_state : State :=
  tablet_init example_device { tool_list := [], next_tool := 0, events := [] } none

/-- A raw event of the example device at time 0. -/
def example_event (e : input_event) : raw_event :=
  { evdev := example_device.evdev, event := e, time := 0 }

/-- The pending proximity flags agree with the scan of the current frame: a
flag is pending only when the frame holds its event, and the frame does not
hold both kinds of event. -/
def frame_flags_ok (f : Bool × Bool) (s : State) : Prop :=
  (TABLET_TOOL_ENTERING_PROXIMITY ∈ s.tablet.status → f.1 = true) ∧
  (TABLET_TOOL_LEAVING_PROXIMITY ∈ s.tablet.status → f.2 = true) ∧
  ¬ (f.1 = true ∧ f.2 = true)

/-- No button report is pending: the previous button set equals the current
one, and neither leaving-proximity nor a button flag is set. -/
def buttons_settled (s : State) : Prop :=
  s.tablet.prev_button_state = s.tablet.button_state ∧
  TABLET_TOOL_LEAVING_PROXIMITY ∉ s.tablet.status ∧
  TABLET_BUTTONS_PRESSED ∉ s.tablet.status ∧
  TABLET_BUTTONS_RELEASED ∉ s.tablet.status

/-- A tool in proximity with the stylus button held and nothing pending. -/
def held_state : State :=
  { tablet :=
      { status := ∅, changed_axes := ∅, axes := fun _ => 0,
        axis_caps := {DISTANCE, PRESSURE}, tool_list := [],
        button_state := { stylus_buttons := {0x14b} },
        prev_button_state := { stylus_buttons := {0x14b} },
        current_tool_type := PEN, current_tool_id := 0, current_tool_serial := 0 },
    device := example_device,
    libinput := { tool_list := [], next_tool := 0, events := [] },
    libwacom := none }

/-- The state after a flush of `held_state`. -/
def held_flushed_state : State :=
  (tablet_flush held_state 0).getD held_state

/-- The state after the pen of `held_flushed_state` is reported as gone. -/
def held_leaving_state : State :=
  (deliver held_flushed_state (example_event ⟨EV_KEY, BTN_TOOL_PEN, 0⟩)).getD held_flushed_state

/-- A frame without a button event: a pressure sample and the synchronization marker. -/
def pressure_frame : List raw_event :=
  [example_event ⟨EV_ABS, ABS_PRESSURE, 10⟩, example_event ⟨EV_SYN, 0, 0⟩]

/-- The state after `pressure_frame` is delivered to `held_flushed_state`. -/
def pressure_frame_state : State :=
  (run_events held_flushed_state pressure_frame).getD held_flushed_state

/-- The pen enters proximity in one frame and leaves in the next. -/
def enter_then_leave : List raw_event :=
  [example_event ⟨EV_KEY, BTN_TOOL_PEN, 1⟩, example_event ⟨EV_SYN, 0, 0⟩,
   example_event ⟨EV_KEY, BTN_TOOL_PEN, 0⟩]

/-- The state after `enter_then_leave` is delivered to `initial_state`. -/
def enter_then_leave_state : State :=
  (run_events initial_state enter_then_leave).getD initial_state

/-- The state after the flush of `leaving_state` at time 7. -/
def left_state : State :=
  (tablet_flush leaving_state 7).getD leaving_state

/-- The notification is an axis update. -/
def notification.is_axis : notification → Bool
  | .axis _ _ _ _ => true
  | _ => false

/-- The notification is a proximity IN. -/
def notification.is_proximity_in : notification → Bool
  | .proximity _ _ LIBINPUT_TOOL_PROXIMITY_IN _ _ => true
  | _ => false

/-- A non-empty changed-axes set has axes-updated pending. -/
def axes_flag_ok (s : State) : Prop :=
  s.tablet.changed_axes ≠ ∅ → TABLET_AXES_UPDATED ∈ s.tablet.status

/-- A device whose pressure range is wider than `INT_MAX`: distance 50 on the
range 0..100, pressure 1000000000 on the range -1500000000..1500000000. -/
def wide_pressure_device : evdev_device :=
  { evdev :=
      { abs := fun c =>
          if c = ABS_DISTANCE then some ⟨50, 0, 100⟩
          else if c = ABS_PRESSURE then some ⟨1000000000, -1500000000, 1500000000⟩
          else none,
        key := fun c => decide (c = BTN_TOUCH ∨ c = BTN_STYLUS) },
    left_handed_enabled := false,
    left_handed_want_enabled := false }

/-- The scenario of rule 1 on `wide_pressure_device`: distance and pressure
both changed, the stylus not in contact. -/
def wide_pressure_state : State :=
  { scenario_state with device := wide_pressure_device }

/-! ## C arithmetic -/

theorem wrap_int32_eq (x : Int) (h1 : -2 ^ 31 ≤ x) (h2 : x < 2 ^ 31) : wrap_int32 x = x := by
  unfold wrap_int32
  omega

theorem int_sub_eq (a b : Int) (h1 : -2 ^ 31 ≤ a - b) (h2 : a - b < 2 ^ 31) :
    int_sub a b = a - b :=
  wrap_int32_eq _ h1 h2

/-- The value of `normalize_pressure_or_dist` on a range with
`minimum ≠ maximum` when neither subtraction leaves the range of `int`. -/
theorem normalize_pressure_or_dist_eq (a : input_absinfo) (hne : a.minimum ≠ a.maximum)
    (hw1 : -2 ^ 31 ≤ a.maximum - a.minimum) (hw2 : a.maximum - a.minimum < 2 ^ 31)
    (hlo : -2 ^ 31 ≤ a.value - a.minimum) (hhi : a.value - a.minimum < 2 ^ 31) :
    normalize_pressure_or_dist a =
      c_double.finite
        (((a.value - a.minimum : Int) : ℚ) / ((a.maximum - a.minimum : Int) : ℚ)) := by
  have hz : ((a.maximum - a.minimum : Int) : ℚ) ≠ 0 := by
    have : a.maximum - a.minimum ≠ 0 := fun h => hne (by omega)
    exact_mod_cast this
  unfold normalize_pressure_or_dist
  rw [int_sub_eq _ _ hw1 hw2, int_sub_eq _ _ hlo hhi]
  simp only [c_double.of_int, c_double.div]
  rw [if_pos hz]

/-- The value of `normalize_tilt` under the same conditions. -/
theorem normalize_tilt_eq (a : input_absinfo) (hne : a.minimum ≠ a.maximum)
    (hw1 : -2 ^ 31 ≤ a.maximum - a.minimum) (hw2 : a.maximum - a.minimum < 2 ^ 31)
    (hlo : -2 ^ 31 ≤ a.value - a.minimum) (hhi : a.value - a.minimum < 2 ^ 31) :
    normalize_tilt a =
      c_double.finite
        (((a.value - a.minimum : Int) : ℚ) / ((a.maximum - a.minimum : Int) : ℚ) * 2 - 1) := by
  have hz : ((a.maximum - a.minimum : Int) : ℚ) ≠ 0 := by
    have : a.maximum - a.minimum ≠ 0 := fun h => hne (by omega)
    exact_mod_cast this
  unfold normalize_tilt
  rw [int_sub_eq _ _ hw1 hw2, int_sub_eq _ _ hlo hhi]
  simp only [c_double.of_int, c_double.div, c_double.mul, c_double.sub]
  rw [if_pos hz]
  simp only [c_double.mul, c_double.sub, Int.cast_ofNat, Int.cast_one]

/-! ## Frame lemmas -/

theorem get_tool_frame (s : State) (ty : libinput_tool_type) (id ser : Nat) :
    ∃ tl gl n, (tablet_get_tool s ty id ser).2 =
      { s with tablet := { s.tablet with tool_list := tl },
               libinput := { s.libinput with tool_list := gl, next_tool := n } } := by
  by_cases hs : ser = 0
  · simp only [tablet_get_tool, hs, ne_eq, not_true_eq_false, if_false]
    split <;> exact ⟨_, _, _, rfl⟩
  · simp only [tablet_get_tool, hs, ne_eq, not_false_eq_true, if_true]
    split <;> exact ⟨_, _, _, rfl⟩

@[simp] theorem get_tool_device (s : State) (ty : libinput_tool_type) (id ser : Nat) :
    (tablet_get_tool s ty id ser).2.device = s.device := by
  obtain ⟨tl, gl, n, h⟩ := get_tool_frame s ty id ser
  rw [h]

@[simp] theorem get_tool_events (s : State) (ty : libinput_tool_type) (id ser : Nat) :
    (tablet_get_tool s ty id ser).2.libinput.events = s.libinput.events := by
  obtain ⟨tl, gl, n, h⟩ := get_tool_frame s ty id ser
  rw [h]

@[simp] theorem get_tool_status (s : State) (ty : libinput_tool_type) (id ser : Nat) :
    (tablet_get_tool s ty id ser).2.tablet.status = s.tablet.status := by
  obtain ⟨tl, gl, n, h⟩ := get_tool_frame s ty id ser
  rw [h]

@[simp] theorem get_tool_changed_axes (s : State) (ty : libinput_tool_type) (id ser : Nat) :
    (tablet_get_tool s ty id ser).2.tablet.changed_axes = s.tablet.changed_axes := by
  obtain ⟨tl, gl, n, h⟩ := get_tool_frame s ty id ser
  rw [h]

@[simp] theorem get_tool_axes (s : State) (ty : libinput_tool_type) (id ser : Nat) :
    (tablet_get_tool s ty id ser).2.tablet.axes = s.tablet.axes := by
  obtain ⟨tl, gl, n, h⟩ := get_tool_frame s ty id ser
  rw [h]

@[simp] theorem get_tool_button_state (s : State) (ty : libinput_tool_type) (id ser : Nat) :
    (tablet_get_tool s ty id ser).2.tablet.button_state = s.tablet.button_state := by
  obtain ⟨tl, gl, n, h⟩ := get_tool_frame s ty id ser
  rw [h]

@[simp] theorem get_tool_prev_button_state (s : State) (ty : libinput_tool_type) (id ser : Nat) :
    (tablet_get_tool s ty id ser).2.tablet.prev_button_state = s.tablet.prev_button_state := by
  obtain ⟨tl, gl, n, h⟩ := get_tool_frame s ty id ser
  rw [h]

theorem notify_button_mask_loop (time : Nat) (tool : tool_ptr)
    (buttons : Finset (Fin KEY_CNT)) (state : libinput_button_state)
    (l : List (Fin KEY_CNT)) (s : State) :
    l.foldl (fun st i =>
        if !bit_is_set buttons i then st
        else tablet_notify_button st time tool st.tablet.axes i.val state) s =
      { s with libinput := { s.libinput with events := (s.libinput.events ++ List.map
          (fun i => notification.button time tool s.tablet.axes i.val state)
          (l.filter (fun i => i ∈ buttons))) } } := by
  induction l generalizing s with
  | nil => simp
  | cons a l ih =>
    rw [List.foldl_cons, ih]
    by_cases h : a ∈ buttons
    · simp [bit_is_set, h, tablet_notify_button, post]
    · simp [bit_is_set, h]

theorem notify_button_mask_eq (s : State) (time : Nat) (tool : tool_ptr)
    (buttons : Finset (Fin KEY_CNT)) (state : libinput_button_state) :
    tablet_notify_button_mask s time tool buttons state =
      { s with libinput := { s.libinput with
          events := s.libinput.events ++ button_events time tool s.tablet.axes buttons state } } :=
  notify_button_mask_loop time tool buttons state _ s

@[simp] theorem change_to_left_handed_tablet (s : State) :
    (tablet_change_to_left_handed s).tablet = s.tablet := by
  unfold tablet_change_to_left_handed
  split
  · rfl
  · split <;> rfl

@[simp] theorem change_to_left_handed_libinput (s : State) :
    (tablet_change_to_left_handed s).libinput = s.libinput := by
  unfold tablet_change_to_left_handed
  split
  · rfl
  · split <;> rfl

theorem button_events_empty (time : Nat) (tool : tool_ptr) (axes : libinput_tablet_axis → c_double)
    (state : libinput_button_state) : button_events time tool axes ∅ state = [] := by
  simp [button_events]

theorem mask_codes_pairwise (buttons : Finset (Fin KEY_CNT)) :
    (mask_codes buttons).Pairwise (· < ·) :=
  (List.pairwise_lt_finRange KEY_CNT).filter _

theorem mem_mask_codes (buttons : Finset (Fin KEY_CNT)) (b : Fin KEY_CNT) :
    b ∈ mask_codes buttons ↔ b ∈ buttons := by
  simp [mask_codes, List.mem_finRange]

/-! ## The axis loop -/

theorem check_notify_axes_loop_eq (device : evdev_device)
    (changed : Finset libinput_tablet_axis) (l : List libinput_tablet_axis)
    (acc : (libinput_tablet_axis → c_double) × Bool)
    (h : ∀ a ∈ l, a ∈ changed → (axis_value device a).isSome = true) :
    check_notify_axes_loop device changed l acc =
      some (fun a => if a ∈ l ∧ a ∈ changed then (axis_value device a).getD 0 else acc.1 a,
            acc.2 || l.any (fun a => decide (a ∈ changed))) := by
  induction l generalizing acc with
  | nil => simp [check_notify_axes_loop]
  | cons a l ih =>
    have hl : ∀ b ∈ l, b ∈ changed → (axis_value device b).isSome = true :=
      fun b hb => h b (List.mem_cons_of_mem a hb)
    by_cases ha : a ∈ changed
    · have hv := h a (List.mem_cons_self a l) ha
      obtain ⟨v, hv⟩ := Option.isSome_iff_exists.mp hv
      simp only [check_notify_axes_loop, bit_is_set, ha, decide_True, Bool.not_true,
        Bool.false_eq_true, if_false, hv, ih _ hl]
      congr 1
      refine Prod.ext ?_ ?_
      · funext b
        by_cases hb : b = a
        · subst hb
          simp [ha, hv]
        · simp [hb, Function.update_noteq hb]
      · simp [ha]
    · simp only [check_notify_axes_loop, bit_is_set, ha, decide_False, Bool.not_false, if_true,
        ih _ hl]
      congr 1
      refine Prod.ext ?_ ?_
      · funext b
        by_cases hb : b = a
        · subst hb
          simp [ha]
        · simp [hb]
      · simp [ha]

theorem mem_all_axes (a : libinput_tablet_axis) : a ∈ all_axes := by
  cases a <;> simp [all_axes]

theorem any_all_axes (changed : Finset libinput_tablet_axis) :
    all_axes.any (fun a => decide (a ∈ changed)) = decide (changed ≠ ∅) := by
  by_cases h : changed = ∅
  · subst h
    simp
  · have : ∃ a, a ∈ changed := Finset.nonempty_iff_ne_empty.mpr h
    obtain ⟨a, ha⟩ := this
    simp only [h, ne_eq, not_false_eq_true, decide_True, List.any_eq_true, decide_eq_true_eq]
    exact ⟨a, mem_all_axes a, ha⟩

theorem updated_axes_empty (device : evdev_device) (axes : libinput_tablet_axis → c_double) :
    updated_axes device ∅ axes = axes := by
  funext a
  simp [updated_axes]

theorem updated_axes_fun (device : evdev_device) (changed : Finset libinput_tablet_axis)
    (axes : libinput_tablet_axis → c_double) :
    (fun a => if a ∈ changed then (axis_value device a).getD 0 else axes a) =
      updated_axes device changed axes := by
  funext a
  simp [updated_axes]

theorem check_notify_axes_eq (s : State) (time : Nat) (tool : tool_ptr)
    (h : ∀ a ∈ s.tablet.changed_axes, (axis_value s.device a).isSome = true) :
    tablet_check_notify_axes s time tool =
      some { s with
        tablet := { s.tablet with
          axes := updated_axes s.device s.tablet.changed_axes s.tablet.axes,
          changed_axes := ∅ },
        libinput := { s.libinput with events := (s.libinput.events ++
          if s.tablet.changed_axes ≠ ∅ ∧ TABLET_TOOL_OUT_OF_PROXIMITY ∉ s.tablet.status
              ∧ TABLET_TOOL_LEAVING_PROXIMITY ∉ s.tablet.status then
            if TABLET_TOOL_ENTERING_PROXIMITY ∈ s.tablet.status then
              [notification.proximity time tool LIBINPUT_TOOL_PROXIMITY_IN s.tablet.changed_axes
                (updated_axes s.device s.tablet.changed_axes s.tablet.axes)]
            else
              [notification.axis time tool s.tablet.changed_axes
                (updated_axes s.device s.tablet.changed_axes s.tablet.axes)]
          else []) } } := by
  unfold tablet_check_notify_axes
  rw [check_notify_axes_loop_eq s.device s.tablet.changed_axes all_axes _ (fun a _ ha => h a ha)]
  simp only [mem_all_axes, true_and, Bool.false_or, any_all_axes, updated_axes_fun]
  by_cases hc : s.tablet.changed_axes = ∅ <;>
  by_cases ho : TABLET_TOOL_OUT_OF_PROXIMITY ∈ s.tablet.status <;>
  by_cases hl : TABLET_TOOL_LEAVING_PROXIMITY ∈ s.tablet.status <;>
  by_cases he : TABLET_TOOL_ENTERING_PROXIMITY ∈ s.tablet.status <;>
  simp [hc, ho, hl, he, tablet_has_status, tablet_notify_proximity, tablet_notify_axis, post,
    updated_axes_empty]

/-! ## The sanitizer -/

theorem sanitize_eq (s : State) (h : sanitize_reads_ok s) :
    sanitize_tablet_axes s =
      some { s with tablet := { s.tablet with
        changed_axes := sanitized_changed_axes s.device s.tablet.status s.tablet.axes
          s.tablet.changed_axes,
        axes := sanitized_axes s.device s.tablet.status s.tablet.axes
          s.tablet.changed_axes } } := by
  have second_eq : (if (bit_is_set s.tablet.changed_axes PRESSURE
        && !tablet_has_status s.tablet TABLET_STYLUS_IN_CONTACT) = true then
      if s.tablet.axes PRESSURE = 0 then
        ({ s with tablet := { s.tablet with
            changed_axes := clear_bit s.tablet.changed_axes PRESSURE } } : State)
      else
        { s with tablet := { s.tablet with axes := Function.update s.tablet.axes PRESSURE 0 } }
    else s) =
      { s with tablet := { s.tablet with
        changed_axes :=
          if PRESSURE ∈ s.tablet.changed_axes ∧ TABLET_STYLUS_IN_CONTACT ∉ s.tablet.status
              ∧ s.tablet.axes PRESSURE = 0 then s.tablet.changed_axes.erase PRESSURE
          else s.tablet.changed_axes,
        axes :=
          if PRESSURE ∈ s.tablet.changed_axes ∧ TABLET_STYLUS_IN_CONTACT ∉ s.tablet.status
              ∧ s.tablet.axes PRESSURE ≠ 0 then Function.update s.tablet.axes PRESSURE 0
          else s.tablet.axes } } := by
    by_cases hp : PRESSURE ∈ s.tablet.changed_axes <;>
    by_cases hc : TABLET_STYLUS_IN_CONTACT ∈ s.tablet.status <;>
    by_cases hz : s.tablet.axes PRESSURE = 0 <;>
    simp [bit_is_set, tablet_has_status, clear_bit, hp, hc, hz]
  unfold sanitize_tablet_axes
  simp only [second_eq]
  unfold sanitize_reads_ok at h
  by_cases hd : DISTANCE ∈ s.tablet.changed_axes
  · obtain ⟨h1, h2⟩ := h hd
    obtain ⟨d, hd1⟩ := Option.isSome_iff_exists.mp h1
    by_cases hdv : d.value > d.minimum
    · have hra : raw_above_min s.device ABS_DISTANCE = true := by
        simp [raw_above_min, hd1, hdv]
      obtain ⟨p, hp1⟩ := Option.isSome_iff_exists.mp (h2 hra)
      by_cases hpv : p.value > p.minimum
      · have hrp : raw_above_min s.device ABS_PRESSURE = true := by
          simp [raw_above_min, hp1, hpv]
        simp [bit_is_set, hd, hd1, hp1, hdv, hpv, hra, hrp, sanitized_changed_axes,
          sanitized_axes, clear_bit]
      · have hrp : raw_above_min s.device ABS_PRESSURE = false := by
          simp [raw_above_min, hp1, hpv]
        simp [bit_is_set, hd, hd1, hp1, hdv, hpv, hra, hrp, sanitized_changed_axes,
          sanitized_axes]
    · have hra : raw_above_min s.device ABS_DISTANCE = false := by
        simp [raw_above_min, hd1, hdv]
      simp [bit_is_set, hd, hd1, hdv, hra, sanitized_changed_axes, sanitized_axes]
  · simp [bit_is_set, hd, sanitized_changed_axes, sanitized_axes]

/-! ## The flush -/

theorem axis_value_isSome (device : evdev_device) (a : libinput_tablet_axis) :
    (axis_value device a).isSome = tablet_device_has_axis device a := by
  unfold axis_value tablet_device_has_axis libevdev_has_event_code libevdev_get_abs_info
  cases h : device.evdev.abs (axis_to_evcode a) with
  | none => simp
  | some v =>
    cases a <;> simp <;> split <;> rfl

theorem mem_device_axes (device : evdev_device) (a : libinput_tablet_axis) :
    a ∈ device_axes device ↔ tablet_device_has_axis device a = true := by
  simp [device_axes]

theorem mem_foldl_mark (device : evdev_device) (a : libinput_tablet_axis)
    (l : List libinput_tablet_axis) (c : Finset libinput_tablet_axis) :
    a ∈ l.foldl (mark_axis_changed device) c ↔
      a ∈ c ∨ (a ∈ l ∧ tablet_device_has_axis device a = true) := by
  induction l generalizing c with
  | nil => simp
  | cons b l ih =>
    rw [List.foldl_cons, ih]
    unfold mark_axis_changed set_bit
    by_cases hb : tablet_device_has_axis device b = true
    · simp only [hb, if_true, Finset.mem_insert, List.mem_cons]
      constructor
      · rintro ((h | h) | h)
        · subst h
          exact Or.inr ⟨Or.inl rfl, hb⟩
        · exact Or.inl h
        · exact Or.inr ⟨Or.inr h.1, h.2⟩
      · rintro (h | ⟨h | h, h2⟩)
        · exact Or.inl (Or.inr h)
        · exact Or.inl (Or.inl h)
        · exact Or.inr ⟨h, h2⟩
    · simp only [hb, if_false, List.mem_cons]
      constructor
      · rintro (h | h)
        · exact Or.inl h
        · exact Or.inr ⟨Or.inr h.1, h.2⟩
      · rintro (h | ⟨h | h, h2⟩)
        · exact Or.inl h
        · subst h
          exact absurd h2 hb
        · exact Or.inr ⟨h, h2⟩

theorem foldl_mark_eq (device : evdev_device) (c : Finset libinput_tablet_axis) :
    all_axes.foldl (mark_axis_changed device) c = c ∪ device_axes device := by
  ext a
  simp [mem_foldl_mark, mem_all_axes, mem_device_axes]

theorem flush_released_eq (s : State) (time : Nat) (tool : tool_ptr) :
    tablet_flush_released s time tool =
      { s with
        tablet := { s.tablet with status := s.tablet.status.erase TABLET_BUTTONS_RELEASED },
        libinput := { s.libinput with events := (s.libinput.events ++
          if TABLET_BUTTONS_RELEASED ∈ s.tablet.status then
            button_events time tool s.tablet.axes (tablet_get_released_buttons s.tablet)
              LIBINPUT_BUTTON_STATE_RELEASED
          else []) } } := by
  unfold tablet_flush_released
  by_cases h : TABLET_BUTTONS_RELEASED ∈ s.tablet.status
  · rw [if_pos (by simpa [tablet_has_status] using h), if_pos h]
    simp only [tablet_notify_buttons]
    rw [notify_button_mask_eq]
    rfl
  · rw [if_neg (by simpa [tablet_has_status] using h), if_neg h, List.append_nil,
      Finset.erase_eq_of_not_mem h]

theorem flush_pressed_eq (s : State) (time : Nat) (tool : tool_ptr) :
    tablet_flush_pressed s time tool =
      { s with
        tablet := { s.tablet with status := s.tablet.status.erase TABLET_BUTTONS_PRESSED },
        libinput := { s.libinput with events := (s.libinput.events ++
          if TABLET_BUTTONS_PRESSED ∈ s.tablet.status then
            button_events time tool s.tablet.axes (tablet_get_pressed_buttons s.tablet)
              LIBINPUT_BUTTON_STATE_PRESSED
          else []) } } := by
  unfold tablet_flush_pressed
  by_cases h : TABLET_BUTTONS_PRESSED ∈ s.tablet.status
  · rw [if_pos (by simpa [tablet_has_status] using h), if_pos h]
    simp only [tablet_notify_buttons]
    rw [notify_button_mask_eq]
    rfl
  · rw [if_neg (by simpa [tablet_has_status] using h), if_neg h, List.append_nil,
      Finset.erase_eq_of_not_mem h]

theorem flush_leaving_step_pos (s : State) (time : Nat) (tool : tool_ptr)
    (h : TABLET_TOOL_LEAVING_PROXIMITY ∈ s.tablet.status) :
    tablet_flush_leaving s time tool =
      { s with
        tablet := { s.tablet with
          changed_axes := ∅,
          status := (insert TABLET_TOOL_OUT_OF_PROXIMITY s.tablet.status).erase
            TABLET_TOOL_LEAVING_PROXIMITY },
        device :=
          if s.device.left_handed_enabled = s.device.left_handed_want_enabled then s.device
          else { s.device with left_handed_enabled := s.device.left_handed_want_enabled },
        libinput := { s.libinput with events := (s.libinput.events ++
          [notification.proximity time tool LIBINPUT_TOOL_PROXIMITY_OUT ∅ s.tablet.axes]) } } := by
  unfold tablet_flush_leaving
  rw [if_pos (by simpa [tablet_has_status] using h)]
  by_cases hw : s.device.left_handed_enabled = s.device.left_handed_want_enabled
  · simp [tablet_change_to_left_handed, tablet_notify_proximity, post, tablet_set_status,
      tablet_unset_status, tablet_has_status, hw]
  · simp [tablet_change_to_left_handed, tablet_notify_proximity, post, tablet_set_status,
      tablet_unset_status, tablet_has_status, hw]

theorem flush_leaving_step_neg (s : State) (time : Nat) (tool : tool_ptr)
    (h : TABLET_TOOL_LEAVING_PROXIMITY ∉ s.tablet.status) :
    tablet_flush_leaving s time tool = s := by
  unfold tablet_flush_leaving
  rw [if_neg (by simpa [tablet_has_status] using h)]

theorem flush_buttons_events (s : State) (time : Nat) (tool : tool_ptr) :
    (tablet_flush_buttons s time tool).libinput.events = s.libinput.events ++
      ((if TABLET_BUTTONS_RELEASED ∈ s.tablet.status then
          button_events time tool s.tablet.axes (tablet_get_released_buttons s.tablet)
            LIBINPUT_BUTTON_STATE_RELEASED
        else []) ++
       (if TABLET_BUTTONS_PRESSED ∈ s.tablet.status then
          button_events time tool s.tablet.axes (tablet_get_pressed_buttons s.tablet)
            LIBINPUT_BUTTON_STATE_PRESSED
        else []) ++
       (if TABLET_TOOL_LEAVING_PROXIMITY ∈ s.tablet.status then
          [notification.proximity time tool LIBINPUT_TOOL_PROXIMITY_OUT ∅ s.tablet.axes]
        else [])) := by
  unfold tablet_flush_buttons
  by_cases hl : TABLET_TOOL_LEAVING_PROXIMITY ∈ s.tablet.status
  · rw [flush_leaving_step_pos _ _ _ (by rw [flush_pressed_eq, flush_released_eq]; simp [hl]),
      flush_pressed_eq, flush_released_eq]
    simp [hl, tablet_get_pressed_buttons, List.append_assoc]
  · rw [flush_leaving_step_neg _ _ _ (by rw [flush_pressed_eq, flush_released_eq]; simp [hl]),
      flush_pressed_eq, flush_released_eq]
    simp [hl, tablet_get_pressed_buttons, List.append_assoc]

theorem flush_buttons_axes (s : State) (time : Nat) (tool : tool_ptr) :
    (tablet_flush_buttons s time tool).tablet.axes = s.tablet.axes := by
  unfold tablet_flush_buttons
  by_cases hl : TABLET_TOOL_LEAVING_PROXIMITY ∈ s.tablet.status
  · rw [flush_leaving_step_pos _ _ _ (by rw [flush_pressed_eq, flush_released_eq]; simp [hl]),
      flush_pressed_eq, flush_released_eq]
  · rw [flush_leaving_step_neg _ _ _ (by rw [flush_pressed_eq, flush_released_eq]; simp [hl]),
      flush_pressed_eq, flush_released_eq]

theorem flush_buttons_button_state (s : State) (time : Nat) (tool : tool_ptr) :
    (tablet_flush_buttons s time tool).tablet.button_state = s.tablet.button_state ∧
    (tablet_flush_buttons s time tool).tablet.prev_button_state = s.tablet.button_state := by
  unfold tablet_flush_buttons
  by_cases hl : TABLET_TOOL_LEAVING_PROXIMITY ∈ s.tablet.status
  · rw [flush_leaving_step_pos _ _ _ (by rw [flush_pressed_eq, flush_released_eq]; simp [hl]),
      flush_pressed_eq, flush_released_eq]
    exact ⟨rfl, rfl⟩
  · rw [flush_leaving_step_neg _ _ _ (by rw [flush_pressed_eq, flush_released_eq]; simp [hl]),
      flush_pressed_eq, flush_released_eq]
    exact ⟨rfl, rfl⟩

theorem flush_buttons_status (s : State) (time : Nat) (tool : tool_ptr) :
    (tablet_flush_buttons s time tool).tablet.status =
      if TABLET_TOOL_LEAVING_PROXIMITY ∈ s.tablet.status then
        (insert TABLET_TOOL_OUT_OF_PROXIMITY
          ((s.tablet.status.erase TABLET_BUTTONS_RELEASED).erase TABLET_BUTTONS_PRESSED)).erase
          TABLET_TOOL_LEAVING_PROXIMITY
      else (s.tablet.status.erase TABLET_BUTTONS_RELEASED).erase TABLET_BUTTONS_PRESSED := by
  unfold tablet_flush_buttons
  by_cases hl : TABLET_TOOL_LEAVING_PROXIMITY ∈ s.tablet.status
  · rw [flush_leaving_step_pos _ _ _ (by rw [flush_pressed_eq, flush_released_eq]; simp [hl]),
      flush_pressed_eq, flush_released_eq, if_pos hl]
  · rw [flush_leaving_step_neg _ _ _ (by rw [flush_pressed_eq, flush_released_eq]; simp [hl]),
      flush_pressed_eq, flush_released_eq, if_neg hl]

theorem flush_buttons_changed_axes (s : State) (time : Nat) (tool : tool_ptr) :
    (tablet_flush_buttons s time tool).tablet.changed_axes =
      if TABLET_TOOL_LEAVING_PROXIMITY ∈ s.tablet.status then ∅ else s.tablet.changed_axes := by
  unfold tablet_flush_buttons
  by_cases hl : TABLET_TOOL_LEAVING_PROXIMITY ∈ s.tablet.status
  · rw [flush_leaving_step_pos _ _ _ (by rw [flush_pressed_eq, flush_released_eq]; simp [hl]),
      flush_pressed_eq, flush_released_eq, if_pos hl]
  · rw [flush_leaving_step_neg _ _ _ (by rw [flush_pressed_eq, flush_released_eq]; simp [hl]),
      flush_pressed_eq, flush_released_eq, if_neg hl]

theorem flush_axes_eq (s : State) (time : Nat) (tool : tool_ptr)
    (hl : TABLET_TOOL_LEAVING_PROXIMITY ∉ s.tablet.status)
    (hu : TABLET_AXES_UPDATED ∈ s.tablet.status ∨ TABLET_TOOL_ENTERING_PROXIMITY ∈ s.tablet.status)
    (hr : sanitize_reads_ok s)
    (hw : ∀ a ∈ sanitized_changed_axes s.device s.tablet.status s.tablet.axes
        s.tablet.changed_axes, tablet_device_has_axis s.device a = true) :
    tablet_flush_axes s time tool =
      some { s with
        tablet := { s.tablet with
          status := (s.tablet.status.erase TABLET_TOOL_ENTERING_PROXIMITY).erase
            TABLET_AXES_UPDATED,
          axes := updated_axes s.device
            (sanitized_changed_axes s.device s.tablet.status s.tablet.axes s.tablet.changed_axes)
            (sanitized_axes s.device s.tablet.status s.tablet.axes s.tablet.changed_axes),
          changed_axes := ∅ },
        libinput := { s.libinput with events := (s.libinput.events ++
          if sanitized_changed_axes s.device s.tablet.status s.tablet.axes
                s.tablet.changed_axes ≠ ∅
              ∧ TABLET_TOOL_OUT_OF_PROXIMITY ∉ s.tablet.status then
            if TABLET_TOOL_ENTERING_PROXIMITY ∈ s.tablet.status then
              [notification.proximity time tool LIBINPUT_TOOL_PROXIMITY_IN
                (sanitized_changed_axes s.device s.tablet.status s.tablet.axes
                  s.tablet.changed_axes)
                (updated_axes s.device
                  (sanitized_changed_axes s.device s.tablet.status s.tablet.axes
                    s.tablet.changed_axes)
                  (sanitized_axes s.device s.tablet.status s.tablet.axes
                    s.tablet.changed_axes))]
            else
              [notification.axis time tool
                (sanitized_changed_axes s.device s.tablet.status s.tablet.axes
                  s.tablet.changed_axes)
                (updated_axes s.device
                  (sanitized_changed_axes s.device s.tablet.status s.tablet.axes
                    s.tablet.changed_axes)
                  (sanitized_axes s.device s.tablet.status s.tablet.axes
                    s.tablet.changed_axes))]
          else []) } } := by
  have hu' : (tablet_has_status s.tablet TABLET_AXES_UPDATED
      || tablet_has_status s.tablet TABLET_TOOL_ENTERING_PROXIMITY) = true := by
    simpa [tablet_has_status] using hu
  unfold tablet_flush_axes
  simp only [tablet_has_status, hl, decide_False, Bool.false_eq_true, if_false]
  simp only [tablet_has_status] at hu'
  simp only [hu', if_true, sanitize_eq s hr]
  rw [check_notify_axes_eq]
  · simp [tablet_unset_status, hl]
  · intro a ha
    rw [axis_value_isSome]
    exact hw a ha

/-! ## C1 -/

theorem flush_leaving_eq (s : State) (time : Nat)
    (h : TABLET_TOOL_LEAVING_PROXIMITY ∈ s.tablet.status) :
    tablet_flush s time =
      some (tablet_flush_buttons
        { (tablet_get_tool s s.tablet.current_tool_type s.tablet.current_tool_id
            s.tablet.current_tool_serial).2 with
          tablet := tablet_set_status
            { (tablet_get_tool s s.tablet.current_tool_type s.tablet.current_tool_id
                s.tablet.current_tool_serial).2.tablet with
              button_state := { stylus_buttons := ∅ } }
            TABLET_BUTTONS_RELEASED }
        time
        (tablet_get_tool s s.tablet.current_tool_type s.tablet.current_tool_id
          s.tablet.current_tool_serial).1) := by
  simp only [tablet_flush, tablet_flush_axes, tablet_has_status, get_tool_status, h,
    decide_True, if_true]

/-- C1: when leaving proximity is pending, `tablet_flush` returns and the
notifications it emits are, in increasing order of the code, one button
RELEASED notification for each code of the previous button set, followed by one
proximity OUT notification with an empty changed-axes set, and nothing else. -/
theorem leaving_flush_releases_then_proximity_out (s : State) (time : Nat)
    (h : TABLET_TOOL_LEAVING_PROXIMITY ∈ s.tablet.status) :
    ∃ (s' : State) (codes : List (Fin KEY_CNT)),
      tablet_flush s time = some s' ∧
      codes.Pairwise (· < ·) ∧
      (∀ b, b ∈ codes ↔ b ∈ s.tablet.prev_button_state.stylus_buttons) ∧
      s'.libinput.events = s.libinput.events ++
        codes.map (fun b => notification.button time
          (tablet_get_tool s s.tablet.current_tool_type s.tablet.current_tool_id
            s.tablet.current_tool_serial).1
          s.tablet.axes b.val LIBINPUT_BUTTON_STATE_RELEASED) ++
        [notification.proximity time
          (tablet_get_tool s s.tablet.current_tool_type s.tablet.current_tool_id
            s.tablet.current_tool_serial).1
          LIBINPUT_TOOL_PROXIMITY_OUT ∅ s.tablet.axes] := by
  refine ⟨_, mask_codes s.tablet.prev_button_state.stylus_buttons, flush_leaving_eq s time h,
    mask_codes_pairwise _, mem_mask_codes _, ?_⟩
  · rw [flush_buttons_events]
    simp [tablet_set_status, h, tablet_get_released_buttons, tablet_get_pressed_buttons,
      button_events, mask_codes]

/-! ## C2 -/

theorem process_tool_key_enter (s : State) (e : input_event) (time : Nat)
    (htype : e.type = EV_KEY)
    (hcode : e.code = BTN_TOOL_PEN ∨ e.code = BTN_TOOL_RUBBER ∨ e.code = BTN_TOOL_BRUSH
      ∨ e.code = BTN_TOOL_PENCIL ∨ e.code = BTN_TOOL_AIRBRUSH ∨ e.code = BTN_TOOL_FINGER
      ∨ e.code = BTN_TOOL_MOUSE ∨ e.code = BTN_TOOL_LENS)
    (hval : e.value ≠ 0) :
    ∃ tool, tablet_process s e time =
      some { s with tablet := { s.tablet with
        current_tool_type := tool,
        changed_axes := s.tablet.changed_axes ∪ device_axes s.device,
        status := (insert TABLET_TOOL_ENTERING_PROXIMITY
          (insert TABLET_AXES_UPDATED s.tablet.status)).erase TABLET_TOOL_OUT_OF_PROXIMITY } } := by
  have h1 : tablet_process s e time = tablet_process_key s e := by
    simp [tablet_process, htype, EV_KEY, EV_ABS]
  have key : ∀ tool, tool ≠ NONE → tablet_update_tool s tool (decide (e.value ≠ 0)) =
      some { s with tablet := { s.tablet with
        current_tool_type := tool,
        changed_axes := s.tablet.changed_axes ∪ device_axes s.device,
        status := (insert TABLET_TOOL_ENTERING_PROXIMITY
          (insert TABLET_AXES_UPDATED s.tablet.status)).erase TABLET_TOOL_OUT_OF_PROXIMITY } } := by
    intro tool ht
    simp [tablet_update_tool, ht, hval, tablet_mark_all_axes_changed, tablet_set_status,
      tablet_unset_status, foldl_mark_eq]
  rw [h1]
  unfold tablet_process_key
  rw [if_pos hcode]
  rcases hcode with h | h | h | h | h | h | h | h
  · exact ⟨PEN, by rw [h]; simpa [tablet_evcode_to_tool] using key PEN (by decide)⟩
  · exact ⟨ERASER, by
      rw [h]; simpa [tablet_evcode_to_tool, BTN_TOOL_RUBBER, BTN_TOOL_PEN] using
        key ERASER (by decide)⟩
  · exact ⟨BRUSH, by
      rw [h]; simpa [tablet_evcode_to_tool, BTN_TOOL_RUBBER, BTN_TOOL_PEN, BTN_TOOL_BRUSH] using
        key BRUSH (by decide)⟩
  · exact ⟨PENCIL, by
      rw [h]; simpa [tablet_evcode_to_tool, BTN_TOOL_RUBBER, BTN_TOOL_PEN, BTN_TOOL_BRUSH,
        BTN_TOOL_PENCIL] using key PENCIL (by decide)⟩
  · exact ⟨AIRBRUSH, by
      rw [h]; simpa [tablet_evcode_to_tool, BTN_TOOL_RUBBER, BTN_TOOL_PEN, BTN_TOOL_BRUSH,
        BTN_TOOL_PENCIL, BTN_TOOL_AIRBRUSH] using key AIRBRUSH (by decide)⟩
  · exact ⟨FINGER, by
      rw [h]; simpa [tablet_evcode_to_tool, BTN_TOOL_RUBBER, BTN_TOOL_PEN, BTN_TOOL_BRUSH,
        BTN_TOOL_PENCIL, BTN_TOOL_AIRBRUSH, BTN_TOOL_FINGER] using key FINGER (by decide)⟩
  · exact ⟨MOUSE, by
      rw [h]; simpa [tablet_evcode_to_tool, BTN_TOOL_RUBBER, BTN_TOOL_PEN, BTN_TOOL_BRUSH,
        BTN_TOOL_PENCIL, BTN_TOOL_AIRBRUSH, BTN_TOOL_FINGER, BTN_TOOL_MOUSE] using
        key MOUSE (by decide)⟩
  · exact ⟨LENS, by
      rw [h]; simpa [tablet_evcode_to_tool, BTN_TOOL_RUBBER, BTN_TOOL_PEN, BTN_TOOL_BRUSH,
        BTN_TOOL_PENCIL, BTN_TOOL_AIRBRUSH, BTN_TOOL_FINGER, BTN_TOOL_MOUSE, BTN_TOOL_LENS] using
        key LENS (by decide)⟩

theorem sanitized_changed_subset (device : evdev_device) (status : Finset tablet_status)
    (axes : libinput_tablet_axis → c_double) (changed : Finset libinput_tablet_axis) :
    sanitized_changed_axes device status axes changed ⊆ changed := by
  unfold sanitized_changed_axes
  split
  · exact Finset.erase_subset _ _
  · split
    · exact Finset.erase_subset _ _
    · exact Finset.Subset.refl _

theorem flush_axes_branch (s : State) (time : Nat)
    (hl : TABLET_TOOL_LEAVING_PROXIMITY ∉ s.tablet.status)
    (hu : TABLET_AXES_UPDATED ∈ s.tablet.status ∨ TABLET_TOOL_ENTERING_PROXIMITY ∈ s.tablet.status)
    (hr : sanitize_reads_ok s)
    (hw : ∀ a ∈ flush_changed_axes s, tablet_device_has_axis s.device a = true) :
    ∃ s' : State, tablet_flush s time = some s' ∧
      s'.tablet.axes = flush_axes_values s ∧
      s'.libinput.events = s.libinput.events ++
        ((if flush_changed_axes s ≠ ∅ ∧ TABLET_TOOL_OUT_OF_PROXIMITY ∉ s.tablet.status then
            if TABLET_TOOL_ENTERING_PROXIMITY ∈ s.tablet.status then
              [notification.proximity time (flush_tool s) LIBINPUT_TOOL_PROXIMITY_IN
                (flush_changed_axes s) (flush_axes_values s)]
            else
              [notification.axis time (flush_tool s) (flush_changed_axes s)
                (flush_axes_values s)]
          else []) ++
         ((if TABLET_BUTTONS_RELEASED ∈ s.tablet.status then
            button_events time (flush_tool s) (flush_axes_values s)
              (tablet_get_released_buttons s.tablet) LIBINPUT_BUTTON_STATE_RELEASED
          else []) ++
          (if TABLET_BUTTONS_PRESSED ∈ s.tablet.status then
            button_events time (flush_tool s) (flush_axes_values s)
              (tablet_get_pressed_buttons s.tablet) LIBINPUT_BUTTON_STATE_PRESSED
          else []))) := by
  have hr' : sanitize_reads_ok (tablet_get_tool s s.tablet.current_tool_type
      s.tablet.current_tool_id s.tablet.current_tool_serial).2 := by
    simpa [sanitize_reads_ok] using hr
  have h := flush_axes_eq (tablet_get_tool s s.tablet.current_tool_type
      s.tablet.current_tool_id s.tablet.current_tool_serial).2 time (flush_tool s)
    (by simpa using hl) (by simpa using hu) hr' (by simpa [flush_changed_axes] using hw)
  unfold tablet_flush
  simp only []
  unfold flush_tool at h
  rw [h]
  refine ⟨_, rfl, ?_, ?_⟩
  · rw [flush_buttons_axes]
    simp [flush_axes_values, flush_changed_axes]
  · rw [flush_buttons_events]
    simp [hl, flush_axes_values, flush_changed_axes, flush_tool, tablet_get_released_buttons,
      tablet_get_pressed_buttons, List.append_assoc]

theorem sanitized_changed_congr (device : evdev_device) (st1 st2 : Finset tablet_status)
    (axes : libinput_tablet_axis → c_double) (changed : Finset libinput_tablet_axis)
    (h : TABLET_STYLUS_IN_CONTACT ∈ st1 ↔ TABLET_STYLUS_IN_CONTACT ∈ st2) :
    sanitized_changed_axes device st1 axes changed =
      sanitized_changed_axes device st2 axes changed := by
  unfold sanitized_changed_axes
  simp only [h]

theorem has_axis_iff_abs (device : evdev_device) (a : libinput_tablet_axis) :
    tablet_device_has_axis device a =
      (libevdev_get_abs_info device.evdev (axis_to_evcode a)).isSome := by
  simp [tablet_device_has_axis, libevdev_has_event_code, libevdev_get_abs_info]

/-- C2, amended: in a state with no tool in proximity and leaving-proximity
not pending, whose changed axes are axes of the device, a tool-presence key
event with value 1 followed by a synchronization marker emits, as the first
notification of the flush, a proximity IN whose changed-axes set is what the
sanitizer leaves of the set of all axes of the device (without distance when
the raw distance and the raw pressure are both above their minimum, otherwise
without pressure when the stylus is not in contact and the stored pressure is
0), provided that set is not empty and the device has a pressure axis whenever
its raw distance is above the minimum. -/
theorem entering_proximity_changed_axes (s : State) (e : input_event) (t1 t2 : Nat)
    (_hout : TABLET_TOOL_OUT_OF_PROXIMITY ∈ s.tablet.status)
    (hnl : TABLET_TOOL_LEAVING_PROXIMITY ∉ s.tablet.status)
    (hwf : ∀ a ∈ s.tablet.changed_axes, tablet_device_has_axis s.device a = true)
    (htype : e.type = EV_KEY)
    (hcode : e.code = BTN_TOOL_PEN ∨ e.code = BTN_TOOL_RUBBER ∨ e.code = BTN_TOOL_BRUSH
      ∨ e.code = BTN_TOOL_PENCIL ∨ e.code = BTN_TOOL_AIRBRUSH ∨ e.code = BTN_TOOL_FINGER
      ∨ e.code = BTN_TOOL_MOUSE ∨ e.code = BTN_TOOL_LENS)
    (hval : e.value = 1)
    (hread : tablet_device_has_axis s.device DISTANCE = true →
      raw_above_min s.device ABS_DISTANCE = true →
      tablet_device_has_axis s.device PRESSURE = true)
    (hne : sanitized_changed_axes s.device s.tablet.status s.tablet.axes
      (device_axes s.device) ≠ ∅) :
    ∃ (s1 s2 : State) (tool : tool_ptr) (axes : libinput_tablet_axis → c_double)
      (rest : List notification),
      tablet_process s e t1 = some s1 ∧
      tablet_process s1 ⟨EV_SYN, 0, 0⟩ t2 = some s2 ∧
      s2.libinput.events = s.libinput.events ++
        notification.proximity (t2 % 2 ^ 32) tool LIBINPUT_TOOL_PROXIMITY_IN
          (sanitized_changed_axes s.device s.tablet.status s.tablet.axes (device_axes s.device))
          axes :: rest := by
  obtain ⟨tool, h1⟩ := process_tool_key_enter s e t1 htype hcode (by rw [hval]; decide)
  have hch : s.tablet.changed_axes ∪ device_axes s.device = device_axes s.device := by
    apply Finset.union_eq_right.mpr
    intro a ha
    exact (mem_device_axes _ _).mpr (hwf a ha)
  rw [hch] at h1
  generalize hs1 : ({ s with tablet := { s.tablet with
        current_tool_type := tool,
        changed_axes := device_axes s.device,
        status := (insert TABLET_TOOL_ENTERING_PROXIMITY
          (insert TABLET_AXES_UPDATED s.tablet.status)).erase
            TABLET_TOOL_OUT_OF_PROXIMITY } } : State) = s1 at h1
  have e_dev : s1.device = s.device := by rw [← hs1]
  have e_ch : s1.tablet.changed_axes = device_axes s.device := by rw [← hs1]
  have e_ax : s1.tablet.axes = s.tablet.axes := by rw [← hs1]
  have e_ev : s1.libinput.events = s.libinput.events := by rw [← hs1]
  have e_st : s1.tablet.status = (insert TABLET_TOOL_ENTERING_PROXIMITY
          (insert TABLET_AXES_UPDATED s.tablet.status)).erase TABLET_TOOL_OUT_OF_PROXIMITY := by
    rw [← hs1]
  have e_fc : flush_changed_axes s1 =
      sanitized_changed_axes s.device s.tablet.status s.tablet.axes (device_axes s.device) := by
    unfold flush_changed_axes
    rw [e_dev, e_ch, e_ax, e_st]
    apply sanitized_changed_congr
    simp
  have h2 : tablet_process s1 ⟨EV_SYN, 0, 0⟩ t2 = tablet_flush s1 (t2 % 2 ^ 32) := by
    simp [tablet_process, EV_SYN, EV_ABS, EV_KEY, EV_MSC]
  obtain ⟨s2, hf, -, hev⟩ := flush_axes_branch s1 (t2 % 2 ^ 32)
    (by rw [e_st]; simp [hnl])
    (by rw [e_st]; right; simp)
    (by
      intro hd
      rw [e_ch, mem_device_axes] at hd
      rw [e_dev]
      refine ⟨?_, fun hr => ?_⟩
      · simpa [has_axis_iff_abs, axis_to_evcode] using hd
      · simpa [has_axis_iff_abs, axis_to_evcode] using hread hd hr)
    (by
      intro a ha
      rw [e_fc] at ha
      rw [e_dev]
      exact (mem_device_axes _ _).mp (sanitized_changed_subset _ _ _ _ ha))
  refine ⟨s1, s2, flush_tool s1, flush_axes_values s1,
    ((if TABLET_BUTTONS_RELEASED ∈ s1.tablet.status then
        button_events (t2 % 2 ^ 32) (flush_tool s1) (flush_axes_values s1)
          (tablet_get_released_buttons s1.tablet) LIBINPUT_BUTTON_STATE_RELEASED
      else []) ++
      (if TABLET_BUTTONS_PRESSED ∈ s1.tablet.status then
        button_events (t2 % 2 ^ 32) (flush_tool s1) (flush_axes_values s1)
          (tablet_get_pressed_buttons s1.tablet) LIBINPUT_BUTTON_STATE_PRESSED
      else [])), h1, h2.trans hf, ?_⟩
  rw [hev, e_ev, e_fc]
  have he : TABLET_TOOL_ENTERING_PROXIMITY ∈ s1.tablet.status := by rw [e_st]; simp
  have ho : TABLET_TOOL_OUT_OF_PROXIMITY ∉ s1.tablet.status := by rw [e_st]; simp
  simp [hne, he, ho]

/-! ## C3 -/

theorem check_notify_axes_post (s s' : State) (time : Nat) (tool : tool_ptr)
    (h : tablet_check_notify_axes s time tool = some s') :
    s'.tablet.changed_axes = ∅ ∧ s'.tablet.status = s.tablet.status ∧
    s'.tablet.button_state = s.tablet.button_state ∧
    s'.tablet.prev_button_state = s.tablet.prev_button_state := by
  unfold tablet_check_notify_axes at h
  split at h
  · exact absurd h (by simp)
  · simp only [Option.some.injEq] at h
    subst h
    refine ⟨rfl, ?_, ?_, ?_⟩ <;>
    · dsimp only
      split
      · split <;> rfl
      · rfl

theorem sanitize_post (s s' : State) (h : sanitize_tablet_axes s = some s') :
    s'.tablet.status = s.tablet.status ∧
    s'.tablet.button_state = s.tablet.button_state ∧
    s'.tablet.prev_button_state = s.tablet.prev_button_state := by
  have second : ∀ x : State, x = (if (bit_is_set s.tablet.changed_axes PRESSURE
        && !tablet_has_status s.tablet TABLET_STYLUS_IN_CONTACT) = true then
      if s.tablet.axes PRESSURE = 0 then
        ({ s with tablet := { s.tablet with
            changed_axes := clear_bit s.tablet.changed_axes PRESSURE } } : State)
      else
        { s with tablet := { s.tablet with axes := Function.update s.tablet.axes PRESSURE 0 } }
    else s) → x.tablet.status = s.tablet.status ∧
      x.tablet.button_state = s.tablet.button_state ∧
      x.tablet.prev_button_state = s.tablet.prev_button_state := by
    intro x hx
    subst hx
    split
    · split <;> exact ⟨rfl, rfl, rfl⟩
    · exact ⟨rfl, rfl, rfl⟩
  unfold sanitize_tablet_axes at h
  simp only [] at h
  split at h
  · split at h
    · exact absurd h (by simp)
    · split at h
      · split at h
        · exact absurd h (by simp)
        · split at h
          · simp only [Option.some.injEq] at h
            subst h
            exact ⟨rfl, rfl, rfl⟩
          · simp only [Option.some.injEq] at h
            exact second _ h.symm
      · simp only [Option.some.injEq] at h
        exact second _ h.symm
  · simp only [Option.some.injEq] at h
    exact second _ h.symm

theorem flush_axes_post (s s1 : State) (time : Nat) (tool : tool_ptr)
    (h : tablet_flush_axes s time tool = some s1)
    (hl : TABLET_TOOL_LEAVING_PROXIMITY ∉ s1.tablet.status) :
    s1.tablet.changed_axes = ∅ ∨
      (TABLET_AXES_UPDATED ∉ s1.tablet.status ∧
        TABLET_TOOL_ENTERING_PROXIMITY ∉ s1.tablet.status) := by
  unfold tablet_flush_axes at h
  by_cases hlv : TABLET_TOOL_LEAVING_PROXIMITY ∈ s.tablet.status
  · simp only [tablet_has_status, hlv, decide_True, if_true, Option.some.injEq] at h
    subst h
    simp [tablet_set_status, hlv] at hl
  · simp only [tablet_has_status, hlv, decide_False, Bool.false_eq_true, if_false] at h
    split at h
    · split at h
      · exact absurd h (by simp)
      · split at h
        · exact absurd h (by simp)
        · rename_i s2 hs2 s3 hs3
          simp only [Option.some.injEq] at h
          subst h
          left
          exact (check_notify_axes_post _ _ _ _ hs3).1
    · rename_i hnu
      simp only [Option.some.injEq] at h
      subst h
      right
      simpa [tablet_has_status] using hnu

/-- What holds of the state a flush returns. -/
theorem flush_post (s0 s : State) (time : Nat) (h : tablet_flush s0 time = some s) :
    s.tablet.prev_button_state = s.tablet.button_state ∧
    TABLET_TOOL_LEAVING_PROXIMITY ∉ s.tablet.status ∧
    TABLET_BUTTONS_PRESSED ∉ s.tablet.status ∧
    TABLET_BUTTONS_RELEASED ∉ s.tablet.status ∧
    (s.tablet.changed_axes = ∅ ∨
      (TABLET_AXES_UPDATED ∉ s.tablet.status ∧
        TABLET_TOOL_ENTERING_PROXIMITY ∉ s.tablet.status)) := by
  unfold tablet_flush at h
  simp only [] at h
  split at h
  · exact absurd h (by simp)
  · rename_i s1 h1
    simp only [Option.some.injEq] at h
    subst h
    have hb := flush_buttons_button_state s1 time
      (tablet_get_tool s0 s0.tablet.current_tool_type s0.tablet.current_tool_id
        s0.tablet.current_tool_serial).1
    refine ⟨by rw [hb.1, hb.2], ?_, ?_, ?_, ?_⟩
    · rw [flush_buttons_status]
      split <;> simp [*]
    · rw [flush_buttons_status]
      split <;> simp
    · rw [flush_buttons_status]
      split <;> simp
    · rw [flush_buttons_status, flush_buttons_changed_axes]
      by_cases hl : TABLET_TOOL_LEAVING_PROXIMITY ∈ s1.tablet.status
      · left
        simp [hl]
      · simp only [hl, if_false]
        rcases flush_axes_post _ _ _ _ h1 hl with hc | ⟨hu, he⟩
        · exact Or.inl hc
        · right
          simp [hu, he]

theorem allowed_lt (c : Nat)
    (hc : c = BTN_LEFT ∨ c = BTN_RIGHT ∨ c = BTN_MIDDLE ∨ c = BTN_SIDE ∨ c = BTN_EXTRA
      ∨ c = BTN_FORWARD ∨ c = BTN_BACK ∨ c = BTN_TASK ∨ c = BTN_TOUCH ∨ c = BTN_STYLUS
      ∨ c = BTN_STYLUS2) : c < KEY_CNT := by
  rcases hc with h | h | h | h | h | h | h | h | h | h | h <;> subst h <;> decide

theorem allowed_not_tool (c : Nat)
    (hc : c = BTN_LEFT ∨ c = BTN_RIGHT ∨ c = BTN_MIDDLE ∨ c = BTN_SIDE ∨ c = BTN_EXTRA
      ∨ c = BTN_FORWARD ∨ c = BTN_BACK ∨ c = BTN_TASK ∨ c = BTN_TOUCH ∨ c = BTN_STYLUS
      ∨ c = BTN_STYLUS2) :
    ¬ (c = BTN_TOOL_PEN ∨ c = BTN_TOOL_RUBBER ∨ c = BTN_TOOL_BRUSH
      ∨ c = BTN_TOOL_PENCIL ∨ c = BTN_TOOL_AIRBRUSH ∨ c = BTN_TOOL_FINGER
      ∨ c = BTN_TOOL_MOUSE ∨ c = BTN_TOOL_LENS) := by
  rcases hc with h | h | h | h | h | h | h | h | h | h | h <;> subst h <;> decide

theorem process_press (s : State) (c : Nat) (time : Nat)
    (hc : c = BTN_LEFT ∨ c = BTN_RIGHT ∨ c = BTN_MIDDLE ∨ c = BTN_SIDE ∨ c = BTN_EXTRA
      ∨ c = BTN_FORWARD ∨ c = BTN_BACK ∨ c = BTN_TASK ∨ c = BTN_TOUCH ∨ c = BTN_STYLUS
      ∨ c = BTN_STYLUS2) :
    tablet_process s ⟨EV_KEY, c, 1⟩ time =
      some { s with tablet := { s.tablet with
        status := (insert TABLET_BUTTONS_PRESSED
          (if c = BTN_TOUCH then insert TABLET_STYLUS_IN_CONTACT s.tablet.status
           else s.tablet.status)),
        button_state := { stylus_buttons :=
          (insert ⟨c, allowed_lt c hc⟩ s.tablet.button_state.stylus_buttons) } } } := by
  have h1 : tablet_process s ⟨EV_KEY, c, 1⟩ time = tablet_process_key s ⟨EV_KEY, c, 1⟩ := by
    simp [tablet_process, EV_KEY, EV_ABS]
  rw [h1]
  unfold tablet_process_key
  simp only [allowed_not_tool c hc, if_false]
  unfold tablet_update_button
  simp only [hc, if_true, allowed_lt c hc, dite_true]
  by_cases ht : c = BTN_TOUCH <;>
  simp [ht, tablet_set_status, set_bit]



theorem mask_codes_singleton (b : Fin KEY_CNT) : mask_codes {b} = [b] := by
  unfold mask_codes
  have h : (List.finRange KEY_CNT).filter (fun i => decide (i ∈ ({b} : Finset (Fin KEY_CNT)))) =
      (List.finRange KEY_CNT).filter (fun i => decide (i = b)) := by
    congr 1
    funext i
    simp
  rw [h, List.filter_eq, List.count_eq_one_of_mem (List.nodup_finRange _) (List.mem_finRange b)]
  rfl

theorem button_events_singleton (time : Nat) (tool : tool_ptr)
    (axes : libinput_tablet_axis → c_double) (b : Fin KEY_CNT) (state : libinput_button_state) :
    button_events time tool axes {b} state = [notification.button time tool axes b.val state] := by
  have h : button_events time tool axes {b} state =
      (mask_codes {b}).map (fun i => notification.button time tool axes i.val state) := rfl
  rw [h, mask_codes_singleton]
  rfl

theorem flush_no_axes (s : State) (time : Nat)
    (hl : TABLET_TOOL_LEAVING_PROXIMITY ∉ s.tablet.status)
    (hu : TABLET_AXES_UPDATED ∉ s.tablet.status)
    (he : TABLET_TOOL_ENTERING_PROXIMITY ∉ s.tablet.status) :
    tablet_flush s time =
      some (tablet_flush_buttons
        (tablet_get_tool s s.tablet.current_tool_type s.tablet.current_tool_id
          s.tablet.current_tool_serial).2 time (flush_tool s)) := by
  simp [tablet_flush, tablet_flush_axes, tablet_has_status, hl, hu, he, flush_tool]

theorem sanitized_changed_empty (device : evdev_device) (status : Finset tablet_status)
    (axes : libinput_tablet_axis → c_double) :
    sanitized_changed_axes device status axes ∅ = ∅ := by
  simp [sanitized_changed_axes]

theorem sanitized_axes_empty (device : evdev_device) (status : Finset tablet_status)
    (axes : libinput_tablet_axis → c_double) :
    sanitized_axes device status axes ∅ = axes := by
  simp [sanitized_axes]

/-- C3: in a state returned by a flush in which the allow-listed button `c` is
not pressed, a press event for `c` followed by a synchronization marker emits
exactly one notification: button `c` PRESSED. -/
theorem press_then_sync_emits_one_pressed (s0 s : State) (t0 t1 t2 : Nat) (c : Nat)
    (e2 : input_event)
    (hflush : tablet_flush s0 t0 = some s)
    (hc : c = BTN_LEFT ∨ c = BTN_RIGHT ∨ c = BTN_MIDDLE ∨ c = BTN_SIDE ∨ c = BTN_EXTRA
      ∨ c = BTN_FORWARD ∨ c = BTN_BACK ∨ c = BTN_TASK ∨ c = BTN_TOUCH ∨ c = BTN_STYLUS
      ∨ c = BTN_STYLUS2)
    (hnp : ∀ h : c < KEY_CNT, (⟨c, h⟩ : Fin KEY_CNT) ∉ s.tablet.button_state.stylus_buttons)
    (he2 : e2.type = EV_SYN) :
    ∃ s1 s2 : State,
      tablet_process s ⟨EV_KEY, c, 1⟩ t1 = some s1 ∧
      tablet_process s1 e2 t2 = some s2 ∧
      s2.libinput.events = s.libinput.events ++
        [notification.button (t2 % 2 ^ 32) (flush_tool s1) s.tablet.axes c
          LIBINPUT_BUTTON_STATE_PRESSED] := by
  obtain ⟨hprev, hnl, hnpr, hnr, hax⟩ := flush_post s0 s t0 hflush
  have h1 := process_press s c t1 hc
  generalize hs1 : ({ s with tablet := { s.tablet with
        status := (insert TABLET_BUTTONS_PRESSED
          (if c = BTN_TOUCH then insert TABLET_STYLUS_IN_CONTACT s.tablet.status
           else s.tablet.status)),
        button_state := { stylus_buttons :=
          (insert ⟨c, allowed_lt c hc⟩ s.tablet.button_state.stylus_buttons) } } } : State)
      = s1 at h1
  have e_dev : s1.device = s.device := by rw [← hs1]
  have e_ch : s1.tablet.changed_axes = s.tablet.changed_axes := by rw [← hs1]
  have e_ax : s1.tablet.axes = s.tablet.axes := by rw [← hs1]
  have e_ev : s1.libinput.events = s.libinput.events := by rw [← hs1]
  have e_st : s1.tablet.status = insert TABLET_BUTTONS_PRESSED
          (if c = BTN_TOUCH then insert TABLET_STYLUS_IN_CONTACT s.tablet.status
           else s.tablet.status) := by rw [← hs1]
  have e_pr : tablet_get_pressed_buttons s1.tablet = {⟨c, allowed_lt c hc⟩} := by
    rw [← hs1]
    simp only [tablet_get_pressed_buttons, hprev]
    ext b
    simp only [Finset.mem_sdiff, Finset.mem_insert, Finset.mem_singleton]
    constructor
    · rintro ⟨h | h, h'⟩
      · exact h
      · exact absurd h h'
    · intro h
      subst h
      exact ⟨Or.inl rfl, hnp _⟩
  have m_l : TABLET_TOOL_LEAVING_PROXIMITY ∉ s1.tablet.status := by
    rw [e_st]; split <;> simp [hnl]
  have m_r : TABLET_BUTTONS_RELEASED ∉ s1.tablet.status := by
    rw [e_st]; split <;> simp [hnr]
  have m_p : TABLET_BUTTONS_PRESSED ∈ s1.tablet.status := by
    rw [e_st]; simp
  have m_u : TABLET_AXES_UPDATED ∈ s1.tablet.status ↔ TABLET_AXES_UPDATED ∈ s.tablet.status := by
    rw [e_st]; split <;> simp
  have m_e : TABLET_TOOL_ENTERING_PROXIMITY ∈ s1.tablet.status ↔
      TABLET_TOOL_ENTERING_PROXIMITY ∈ s.tablet.status := by
    rw [e_st]; split <;> simp
  have h2 : tablet_process s1 e2 t2 = tablet_flush s1 (t2 % 2 ^ 32) := by
    simp [tablet_process, he2, EV_SYN, EV_ABS, EV_KEY, EV_MSC]
  have hbe : button_events (t2 % 2 ^ 32) (flush_tool s1) s.tablet.axes
      {⟨c, allowed_lt c hc⟩} LIBINPUT_BUTTON_STATE_PRESSED =
      [notification.button (t2 % 2 ^ 32) (flush_tool s1) s.tablet.axes c
        LIBINPUT_BUTTON_STATE_PRESSED] := by
    exact button_events_singleton _ _ _ _ _
  by_cases hu : TABLET_AXES_UPDATED ∈ s.tablet.status ∨
      TABLET_TOOL_ENTERING_PROXIMITY ∈ s.tablet.status
  · have hce : s1.tablet.changed_axes = ∅ := by
      rw [e_ch]
      rcases hax with h | ⟨h, h'⟩
      · exact h
      · rcases hu with hu | hu
        · exact absurd hu h
        · exact absurd hu h'
    have hfc : flush_changed_axes s1 = ∅ := by
      unfold flush_changed_axes
      rw [hce, sanitized_changed_empty]
    have hfv : flush_axes_values s1 = s.tablet.axes := by
      unfold flush_axes_values
      rw [hfc, hce, sanitized_axes_empty, updated_axes_empty, e_ax]
    obtain ⟨s2, hf, -, hev⟩ := flush_axes_branch s1 (t2 % 2 ^ 32) m_l
      (by rw [m_u, m_e]; exact hu)
      (by intro hd; rw [hce] at hd; simp at hd)
      (by intro a ha; rw [hfc] at ha; simp at ha)
    refine ⟨s1, s2, h1, h2.trans hf, ?_⟩
    rw [hev, hfc, hfv, e_pr, hbe, e_ev]
    simp [m_r, m_p]
  · simp only [not_or] at hu
    have hf := flush_no_axes s1 (t2 % 2 ^ 32) m_l (by rw [m_u]; exact hu.1)
      (by rw [m_e]; exact hu.2)
    refine ⟨s1, _, h1, h2.trans hf, ?_⟩
    rw [flush_buttons_events]
    have a1 : TABLET_BUTTONS_RELEASED ∉ (tablet_get_tool s1 s1.tablet.current_tool_type
        s1.tablet.current_tool_id s1.tablet.current_tool_serial).2.tablet.status := by
      rw [get_tool_status]; exact m_r
    have a2 : TABLET_BUTTONS_PRESSED ∈ (tablet_get_tool s1 s1.tablet.current_tool_type
        s1.tablet.current_tool_id s1.tablet.current_tool_serial).2.tablet.status := by
      rw [get_tool_status]; exact m_p
    have a3 : TABLET_TOOL_LEAVING_PROXIMITY ∉ (tablet_get_tool s1 s1.tablet.current_tool_type
        s1.tablet.current_tool_id s1.tablet.current_tool_serial).2.tablet.status := by
      rw [get_tool_status]; exact m_l
    have a4 : tablet_get_pressed_buttons (tablet_get_tool s1 s1.tablet.current_tool_type
        s1.tablet.current_tool_id s1.tablet.current_tool_serial).2.tablet =
        tablet_get_pressed_buttons s1.tablet := by
      unfold tablet_get_pressed_buttons
      rw [get_tool_button_state, get_tool_prev_button_state]
    rw [if_neg a1, if_pos a2, if_neg a3, get_tool_events, get_tool_axes, a4, e_pr, e_ax, hbe,
      e_ev]
    rfl

theorem button_events_axes (time : Nat) (tool : tool_ptr) (axes : libinput_tablet_axis → c_double)
    (buttons : Finset (Fin KEY_CNT)) (state : libinput_button_state) (n : notification)
    (h : n ∈ button_events time tool axes buttons state) :
    n.axes = axes ∧ n.changed_axes = ∅ := by
  unfold button_events at h
  obtain ⟨i, -, rfl⟩ := List.mem_map.mp h
  exact ⟨rfl, rfl⟩

theorem sanitized_rule1 (s : State) (d p : input_absinfo)
    (hc : DISTANCE ∈ s.tablet.changed_axes)
    (hd : libevdev_get_abs_info s.device.evdev ABS_DISTANCE = some d)
    (hp : libevdev_get_abs_info s.device.evdev ABS_PRESSURE = some p)
    (hdv : d.value > d.minimum) (hpv : p.value > p.minimum) :
    sanitized_changed_axes s.device s.tablet.status s.tablet.axes s.tablet.changed_axes =
      s.tablet.changed_axes.erase DISTANCE ∧
    sanitized_axes s.device s.tablet.status s.tablet.axes s.tablet.changed_axes =
      Function.update s.tablet.axes DISTANCE 0 := by
  have h1 : raw_above_min s.device ABS_DISTANCE = true := by simp [raw_above_min, hd, hdv]
  have h2 : raw_above_min s.device ABS_PRESSURE = true := by simp [raw_above_min, hp, hpv]
  simp [sanitized_changed_axes, sanitized_axes, hc, h1, h2]

theorem reads_ok_of_some (s : State) (d p : input_absinfo)
    (hd : libevdev_get_abs_info s.device.evdev ABS_DISTANCE = some d)
    (hp : libevdev_get_abs_info s.device.evdev ABS_PRESSURE = some p) :
    sanitize_reads_ok s := by
  intro _
  simp [hd, hp]

/-- C4, amended: sanitizer rule 1.  When the raw distance and the raw pressure
are both above their minimum, distance is not marked changed after
`sanitize_tablet_axes`; and a flush with a tool in proximity in which distance
is marked changed returns, stores 0 for distance, emits only notifications that
carry distance 0 and do not list distance as changed, while a changed pressure
is listed as changed by the first notification and published as the value of
`normalize_pressure_or_dist` on the raw sample, whatever the contact state.
That value is `(raw - min) / (max - min)` when `min ≠ max` and `max - min` and
`raw - min` fit in `int`. -/
theorem sanitizer_rule1_suppresses_distance (s : State) (time : Nat) (d p : input_absinfo)
    (hd : libevdev_get_abs_info s.device.evdev ABS_DISTANCE = some d)
    (hp : libevdev_get_abs_info s.device.evdev ABS_PRESSURE = some p)
    (hdv : d.value > d.minimum) (hpv : p.value > p.minimum) :
    (∃ s1 : State, sanitize_tablet_axes s = some s1 ∧ DISTANCE ∉ s1.tablet.changed_axes) ∧
    (DISTANCE ∈ s.tablet.changed_axes →
      TABLET_TOOL_OUT_OF_PROXIMITY ∉ s.tablet.status →
      TABLET_TOOL_LEAVING_PROXIMITY ∉ s.tablet.status →
      (TABLET_AXES_UPDATED ∈ s.tablet.status ∨
        TABLET_TOOL_ENTERING_PROXIMITY ∈ s.tablet.status) →
      (∀ a ∈ s.tablet.changed_axes, tablet_device_has_axis s.device a = true) →
      ∃ (s' : State) (out : List notification),
        tablet_flush s time = some s' ∧
        s'.libinput.events = s.libinput.events ++ out ∧
        s'.tablet.axes DISTANCE = 0 ∧
        (∀ n ∈ out, n.axes DISTANCE = 0 ∧ DISTANCE ∉ n.changed_axes) ∧
        (PRESSURE ∈ s.tablet.changed_axes →
          (s'.tablet.axes PRESSURE = normalize_pressure_or_dist p ∧
            ∃ (n : notification) (rest : List notification),
              out = n :: rest ∧ PRESSURE ∈ n.changed_axes ∧
              n.axes PRESSURE = normalize_pressure_or_dist p) ∧
          (p.minimum ≠ p.maximum → -2 ^ 31 ≤ p.maximum - p.minimum →
            p.maximum - p.minimum < 2 ^ 31 → p.value - p.minimum < 2 ^ 31 →
            s'.tablet.axes PRESSURE =
              c_double.finite (((p.value : ℚ) - p.minimum) / ((p.maximum : ℚ) - p.minimum)) ∧
            ∃ (n : notification) (rest : List notification),
              out = n :: rest ∧ PRESSURE ∈ n.changed_axes ∧
              n.axes PRESSURE =
                c_double.finite
                  (((p.value : ℚ) - p.minimum) / ((p.maximum : ℚ) - p.minimum))))) := by
  have hro := reads_ok_of_some s d p hd hp
  constructor
  · refine ⟨_, sanitize_eq s hro, ?_⟩
    by_cases hc : DISTANCE ∈ s.tablet.changed_axes
    · simp [(sanitized_rule1 s d p hc hd hp hdv hpv).1]
    · exact fun h => hc (sanitized_changed_subset _ _ _ _ h)
  · intro hc ho hl hu hw
    obtain ⟨e1, e2⟩ := sanitized_rule1 s d p hc hd hp hdv hpv
    have hfc : flush_changed_axes s = s.tablet.changed_axes.erase DISTANCE := e1
    have hvd : flush_axes_values s DISTANCE = 0 := by
      simp [flush_axes_values, updated_axes, hfc, e2]
    have hvp : PRESSURE ∈ s.tablet.changed_axes → flush_axes_values s PRESSURE =
        normalize_pressure_or_dist p := by
      intro hpc
      have hav : axis_value s.device PRESSURE = some (normalize_pressure_or_dist p) := by
        simp [axis_value, axis_to_evcode, hp]
      simp [flush_axes_values, updated_axes, hfc, hpc, hav]
    obtain ⟨s', hf, hax, hev⟩ := flush_axes_branch s time hl hu hro
      (by intro a ha; rw [hfc] at ha; exact hw a (Finset.mem_of_mem_erase ha))
    obtain ⟨btns, hbt⟩ : ∃ btns : List notification, btns =
        (if TABLET_BUTTONS_RELEASED ∈ s.tablet.status then
            button_events time (flush_tool s) (flush_axes_values s)
              (tablet_get_released_buttons s.tablet) LIBINPUT_BUTTON_STATE_RELEASED
          else []) ++
          (if TABLET_BUTTONS_PRESSED ∈ s.tablet.status then
            button_events time (flush_tool s) (flush_axes_values s)
              (tablet_get_pressed_buttons s.tablet) LIBINPUT_BUTTON_STATE_PRESSED
          else []) := ⟨_, rfl⟩
    rw [← hbt] at hev
    have hbtn : ∀ n ∈ btns, n.axes = flush_axes_values s ∧ n.changed_axes = ∅ := by
      intro n hn
      rw [hbt, List.mem_append] at hn
      rcases hn with hn | hn
      · split at hn
        · exact button_events_axes _ _ _ _ _ _ hn
        · simp at hn
      · split at hn
        · exact button_events_axes _ _ _ _ _ _ hn
        · simp at hn
    refine ⟨s', _, hf, hev, by rw [hax, hvd], ?_, ?_⟩
    · intro n hn
      simp only [List.mem_append] at hn
      rcases hn with hn | hn
      · split at hn
        · split at hn
          · simp only [List.mem_singleton] at hn
            subst hn
            simp [notification.axes, notification.changed_axes, hvd, hfc]
          · simp only [List.mem_singleton] at hn
            subst hn
            simp [notification.axes, notification.changed_axes, hvd, hfc]
        · simp at hn
      · obtain ⟨h1, h2⟩ := hbtn n hn
        simp [h1, h2, hvd]
    · intro hpc
      have hne : flush_changed_axes s ≠ ∅ := by
        rw [hfc]
        exact Finset.ne_empty_of_mem (Finset.mem_erase.mpr ⟨by decide, hpc⟩)
      have hpm : PRESSURE ∈ flush_changed_axes s := by
        rw [hfc]
        exact Finset.mem_erase.mpr ⟨by decide, hpc⟩
      have hfirst : ∃ (n : notification) (rest : List notification),
          ((if flush_changed_axes s ≠ ∅ ∧ TABLET_TOOL_OUT_OF_PROXIMITY ∉ s.tablet.status then
              if TABLET_TOOL_ENTERING_PROXIMITY ∈ s.tablet.status then
                [notification.proximity time (flush_tool s) LIBINPUT_TOOL_PROXIMITY_IN
                  (flush_changed_axes s) (flush_axes_values s)]
              else
                [notification.axis time (flush_tool s) (flush_changed_axes s)
                  (flush_axes_values s)]
            else []) ++ btns) = n :: rest ∧ PRESSURE ∈ n.changed_axes ∧
          n.axes PRESSURE = normalize_pressure_or_dist p := by
        by_cases he : TABLET_TOOL_ENTERING_PROXIMITY ∈ s.tablet.status
        · refine ⟨notification.proximity time (flush_tool s) LIBINPUT_TOOL_PROXIMITY_IN
            (flush_changed_axes s) (flush_axes_values s), btns, ?_, hpm, hvp hpc⟩
          simp [hne, ho, he]
        · refine ⟨notification.axis time (flush_tool s) (flush_changed_axes s)
            (flush_axes_values s), btns, ?_, hpm, hvp hpc⟩
          simp [hne, ho, he]
      obtain ⟨n, rest, hn1, hn2, hn3⟩ := hfirst
      refine ⟨⟨by rw [hax, hvp hpc], n, rest, hn1, hn2, hn3⟩, fun hr hw1 hw2 hv => ?_⟩
      have hq : normalize_pressure_or_dist p =
          c_double.finite (((p.value : ℚ) - p.minimum) / ((p.maximum : ℚ) - p.minimum)) := by
        rw [normalize_pressure_or_dist_eq p hr hw1 hw2 (by omega) hv]
        push_cast
        rfl
      exact ⟨by rw [hax, hvp hpc, hq], n, rest, hn1, hn2, by rw [hn3, hq]⟩

/-! ## The tool registry -/

theorem foldl_copy_button_cap_induct (device : evdev_device) (P : libinput_tool → Prop)
    (hb : ∀ t b, P t → P (copy_button_cap device t b)) (f : Nat → Nat) (l : List Nat)
    (tool : libinput_tool) (h : P tool) :
    P (l.foldl (fun t i => copy_button_cap device t (f i)) tool) := by
  induction l generalizing tool with
  | nil => exact h
  | cons i l ih => exact ih _ (hb _ _ h)

theorem from_libwacom_induct (s : State) (P : libinput_tool → Prop)
    (ha : ∀ t a, P t → P (copy_axis_cap s.tablet t a))
    (hb : ∀ t b, P t → P (copy_button_cap s.device t b))
    (tool : libinput_tool) (h : P tool) :
    P (tool_set_bits_from_libwacom s tool).2 := by
  unfold tool_set_bits_from_libwacom
  split
  · exact h
  · split
    · exact h
    · rename_i db st hst
      have h1 : P (if st.type = WSTYLUS_PUCK then
          (List.range st.num_buttons.toNat).foldl
            (fun t i => copy_button_cap s.device t (BTN_LEFT + i)) tool
        else
          copy_button_cap s.device
            (if st.num_buttons ≥ 1 then
              copy_button_cap s.device
                (if st.num_buttons ≥ 2 then copy_button_cap s.device tool BTN_STYLUS2 else tool)
                BTN_STYLUS
             else (if st.num_buttons ≥ 2 then copy_button_cap s.device tool BTN_STYLUS2 else tool))
            BTN_TOUCH) := by
        split
        · exact foldl_copy_button_cap_induct s.device P hb _ _ tool h
        · apply hb
          have h2 : P (if st.num_buttons ≥ 2 then copy_button_cap s.device tool BTN_STYLUS2
              else tool) := by
            split
            · exact hb _ _ h
            · exact h
          split
          · exact hb _ _ h2
          · exact h2
      dsimp only
      split
      all_goals first
        | exact ha _ _ (ha _ _ (ha _ _ (ha _ _ h1)))
        | exact h1

theorem fallback_induct (s : State) (P : libinput_tool → Prop)
    (ha : ∀ t a, P t → P (copy_axis_cap s.tablet t a))
    (hb : ∀ t b, P t → P (copy_button_cap s.device t b))
    (tool : libinput_tool) (h : P tool) :
    P (tool_set_bits_fallback s tool) := by
  unfold tool_set_bits_fallback
  have h4 := ha _ TILT_Y (ha _ TILT_X (ha _ DISTANCE (ha _ PRESSURE h)))
  cases tool.type <;> dsimp only <;>
  first
    | exact h
    | exact hb _ _ (hb _ _ (hb _ _ h4))
    | exact hb _ _ (hb _ _ (hb _ _ (hb _ _ (hb _ _ h))))

/-- Whatever the two copy operations preserve, `tool_set_bits` preserves. -/
theorem tool_set_bits_induct (s : State) (P : libinput_tool → Prop)
    (ha : ∀ t a, P t → P (copy_axis_cap s.tablet t a))
    (hb : ∀ t b, P t → P (copy_button_cap s.device t b))
    (tool : libinput_tool) (h : P tool) :
    P (tool_set_bits s tool) := by
  unfold tool_set_bits
  dsimp only
  split
  · exact from_libwacom_induct s P ha hb tool h
  · exact fallback_induct s P ha hb tool h

theorem tool_set_bits_type (s : State) (tool : libinput_tool) :
    (tool_set_bits s tool).type = tool.type ∧ (tool_set_bits s tool).serial = tool.serial := by
  refine tool_set_bits_induct s (fun t => t.type = tool.type ∧ t.serial = tool.serial)
    ?_ ?_ tool ⟨rfl, rfl⟩
  · intro t a h
    unfold copy_axis_cap
    split <;> exact h
  · intro t b h
    unfold copy_button_cap
    split <;> exact h

theorem get_tool_local_found (s : State) (ty : libinput_tool_type) (id : Nat)
    (x : tool_ptr × libinput_tool)
    (h : list_find (fun t => decide (ty = t.type)) s.tablet.tool_list = some x) :
    tablet_get_tool s ty id 0 = (x.1, s) := by
  simp [tablet_get_tool, h]

theorem get_tool_global_found (s : State) (ty : libinput_tool_type) (id ser : Nat)
    (hs : ser ≠ 0) (x : tool_ptr × libinput_tool)
    (h : list_find (fun t => decide (ty = t.type) && decide (ser = t.serial))
      s.libinput.tool_list = some x) :
    tablet_get_tool s ty id ser = (x.1, s) := by
  simp [tablet_get_tool, h, hs]

/-- After a resolve without serial the tool it returned is the first of its
type in the list of the dispatcher. -/
theorem get_tool_local_find (s : State) (ty : libinput_tool_type) (id : Nat) :
    ∃ tool, list_find (fun t => decide (ty = t.type))
      (tablet_get_tool s ty id 0).2.tablet.tool_list =
        some ((tablet_get_tool s ty id 0).1, tool) := by
  cases h : list_find (fun t => decide (ty = t.type)) s.tablet.tool_list with
  | some x =>
    rw [get_tool_local_found s ty id x h]
    exact ⟨x.2, h⟩
  | none =>
    refine ⟨tool_set_bits s ⟨ty, 0, id, 1, ∅, ∅⟩, ?_⟩
    simp [tablet_get_tool, h, list_insert, list_find, (tool_set_bits_type s _).1]

/-- After a resolve with a serial the tool it returned is the first of its type
and serial in the global list. -/
theorem get_tool_global_find (s : State) (ty : libinput_tool_type) (id ser : Nat)
    (hs : ser ≠ 0) :
    ∃ tool, list_find (fun t => decide (ty = t.type) && decide (ser = t.serial))
      (tablet_get_tool s ty id ser).2.libinput.tool_list =
        some ((tablet_get_tool s ty id ser).1, tool) := by
  cases h : list_find (fun t => decide (ty = t.type) && decide (ser = t.serial))
      s.libinput.tool_list with
  | some x =>
    rw [get_tool_global_found s ty id ser hs x h]
    exact ⟨x.2, h⟩
  | none =>
    refine ⟨tool_set_bits s ⟨ty, ser, id, 1, ∅, ∅⟩, ?_⟩
    simp [tablet_get_tool, h, hs, list_insert, list_find, (tool_set_bits_type s _).1,
      (tool_set_bits_type s _).2]

/-- A resolve never changes which tool is the first of a type in the list of
the dispatcher. -/
theorem get_tool_keeps_local_find (s : State) (t ty : libinput_tool_type) (id ser : Nat)
    (y : tool_ptr × libinput_tool)
    (h : list_find (fun x => decide (t = x.type)) s.tablet.tool_list = some y) :
    list_find (fun x => decide (t = x.type))
      (tablet_get_tool s ty id ser).2.tablet.tool_list = some y := by
  by_cases hs : ser = 0
  · subst hs
    cases hf : list_find (fun x => decide (ty = x.type)) s.tablet.tool_list with
    | some x => rw [get_tool_local_found s ty id x hf]; exact h
    | none =>
      have hne : t ≠ ty := by
        intro e
        subst e
        rw [h] at hf
        exact absurd hf (by simp)
      simp [tablet_get_tool, hf, list_insert, list_find, (tool_set_bits_type s _).1, hne, h]
  · cases hf : list_find (fun x => decide (ty = x.type) && decide (ser = x.serial))
        s.libinput.tool_list with
    | some x => rw [get_tool_global_found s ty id ser hs x hf]; exact h
    | none => simp [tablet_get_tool, hf, hs, h]

theorem resolves_keep_local_find (t : libinput_tool_type) (y : tool_ptr × libinput_tool)
    (reqs : List (libinput_tool_type × Nat × Nat)) (s : State)
    (h : list_find (fun x => decide (t = x.type)) s.tablet.tool_list = some y) :
    list_find (fun x => decide (t = x.type))
      (reqs.foldl (fun st q => (tablet_get_tool st q.1 q.2.1 q.2.2).2) s).tablet.tool_list =
        some y := by
  induction reqs generalizing s with
  | nil => exact h
  | cons q reqs ih =>
    rw [List.foldl_cons]
    exact ih _ (get_tool_keeps_local_find s t q.1 q.2.1 q.2.2 y h)

/-- C6: a resolve of `(t, id1, 0)`, any resolves on the same dispatcher, then a
resolve of `(t, id2, 0)`: the last resolve returns the address the first
returned and leaves the whole state as it was (nothing is created, both lists
and every reference count are unchanged); the tool at that address is the same
record in both lists. -/
theorem same_local_tool_without_serial (s : State) (t : libinput_tool_type) (id1 id2 : Nat)
    (reqs : List (libinput_tool_type × Nat × Nat)) :
    let r1 := tablet_get_tool s t id1 0
    let mid := reqs.foldl (fun st q => (tablet_get_tool st q.1 q.2.1 q.2.2).2) r1.2
    let r2 := tablet_get_tool mid t id2 0
    r2.1 = r1.1 ∧ r2.2 = mid ∧
    ∃ tool : libinput_tool,
      list_find (fun x => decide (t = x.type)) r1.2.tablet.tool_list = some (r1.1, tool) ∧
      list_find (fun x => decide (t = x.type)) r2.2.tablet.tool_list = some (r1.1, tool) := by
  intro r1 mid r2
  obtain ⟨tool, h1⟩ := get_tool_local_find s t id1
  have h2 := resolves_keep_local_find t _ reqs _ h1
  have h3 : r2 = (r1.1, mid) := get_tool_local_found mid t id2 _ h2
  refine ⟨by rw [h3], by rw [h3], tool, h1, ?_⟩
  rw [h3]
  exact h2

/-- C7: a resolve of `(t, id1, serial)` with a non-zero serial on one
dispatcher and then a resolve of `(t, id2, serial)` on another dispatcher that
shares the libinput context: the second returns the address the first returned,
leaves the context (the global list, the reference counts, the allocator)
unchanged and adds nothing to the list of either dispatcher. -/
theorem same_global_tool_with_serial (s1 : State) (tablet2 : tablet_dispatch)
    (device2 : evdev_device) (db2 : Option WacomDeviceDatabase)
    (t : libinput_tool_type) (id1 id2 serial : Nat) (hs : serial ≠ 0) :
    let r1 := tablet_get_tool s1 t id1 serial
    let s2 : State :=
      { tablet := tablet2, device := device2, libinput := r1.2.libinput, libwacom := db2 }
    let r2 := tablet_get_tool s2 t id2 serial
    r2.1 = r1.1 ∧ r2.2.libinput = r1.2.libinput ∧
    r2.2.tablet.tool_list = tablet2.tool_list ∧ r1.2.tablet.tool_list = s1.tablet.tool_list ∧
    ∃ tool : libinput_tool,
      list_find (fun x => decide (t = x.type) && decide (serial = x.serial))
        r1.2.libinput.tool_list = some (r1.1, tool) ∧
      list_find (fun x => decide (t = x.type) && decide (serial = x.serial))
        r2.2.libinput.tool_list = some (r1.1, tool) := by
  intro r1 s2 r2
  obtain ⟨tool, h1⟩ := get_tool_global_find s1 t id1 serial hs
  have h3 : r2 = (r1.1, s2) := get_tool_global_found s2 t id2 serial hs _ h1
  have e2 : r2.2 = s2 := by rw [h3]
  refine ⟨by rw [h3], by rw [e2], by rw [e2], ?_, tool, h1, by rw [e2]; exact h1⟩
  show (tablet_get_tool s1 t id1 serial).2.tablet.tool_list = s1.tablet.tool_list
  cases hf : list_find (fun x => decide (t = x.type) && decide (serial = x.serial))
      s1.libinput.tool_list with
  | some x => rw [get_tool_global_found s1 t id1 serial hs x hf]
  | none => simp [tablet_get_tool, hf, hs]

/-- C5, at the failing input: the stylus is not in contact, rule 1 does not
apply, the stored pressure is 1 and the raw pressure is 10 on the range 0..100.
`sanitize_tablet_axes` stores 0 for pressure and leaves pressure marked
changed; the flush then emits an axis notification whose pressure is 1/10. -/
theorem sanitizer_rule2_value_overwritten :
    TABLET_STYLUS_IN_CONTACT ∉ hover_pressure_state.tablet.status ∧
    DISTANCE ∉ hover_pressure_state.tablet.changed_axes ∧
    hover_pressure_state.tablet.axes PRESSURE ≠ 0 ∧
    (∃ s1 : State, sanitize_tablet_axes hover_pressure_state = some s1 ∧
      s1.tablet.axes PRESSURE = 0 ∧ PRESSURE ∈ s1.tablet.changed_axes) ∧
    (∃ (s' : State) (axes : libinput_tablet_axis → c_double),
      tablet_flush hover_pressure_state 0 = some s' ∧
      s'.libinput.events = [notification.axis 0 0 {PRESSURE} axes] ∧
      axes PRESSURE = c_double.finite (1 / 10)) := by
  refine ⟨by decide, by decide, ?_, ⟨_, rfl, ?_, ?_⟩, ⟨_, _, rfl, rfl, ?_⟩⟩
  · decide
  · rfl
  · decide
  · simp [axis_value, libevdev_get_abs_info, hover_pressure_state, example_device,
      axis_to_evcode, ABS_PRESSURE, ABS_DISTANCE, normalize_pressure_or_dist, int_sub,
      wrap_int32, c_double.of_int, c_double.div]
    norm_num

theorem mem_copy_axis_cap (tablet : tablet_dispatch) (t : libinput_tool)
    (a x : libinput_tablet_axis) :
    x ∈ (copy_axis_cap tablet t a).axis_caps ↔
      x ∈ t.axis_caps ∨ (x = a ∧ a ∈ tablet.axis_caps) := by
  unfold copy_axis_cap bit_is_set set_bit
  by_cases h : a ∈ tablet.axis_caps
  · simp [h, or_comm]
  · simp [h]

theorem copy_axis_cap_buttons (tablet : tablet_dispatch) (t : libinput_tool)
    (a : libinput_tablet_axis) : (copy_axis_cap tablet t a).buttons = t.buttons := by
  unfold copy_axis_cap
  split <;> rfl

theorem mem_copy_button_cap (device : evdev_device) (t : libinput_tool) (b y : Nat) :
    y ∈ (copy_button_cap device t b).buttons ↔
      y ∈ t.buttons ∨ (y = b ∧ libevdev_has_event_code device.evdev EV_KEY b = true) := by
  unfold copy_button_cap set_bit
  by_cases h : libevdev_has_event_code device.evdev EV_KEY b = true
  · simp [h, or_comm]
  · simp [h]

theorem copy_button_cap_axis_caps (device : evdev_device) (t : libinput_tool) (b : Nat) :
    (copy_button_cap device t b).axis_caps = t.axis_caps := by
  unfold copy_button_cap
  split <;> rfl

theorem tablet_init_axis_caps (device : evdev_device) (li : libinput)
    (db : Option WacomDeviceDatabase) :
    (tablet_init device li db).tablet.axis_caps = device_axes device := by
  have h : all_axes.foldl (init_axis_cap device) ∅ = ∅ ∪ device_axes device :=
    foldl_mark_eq device ∅
  simpa [tablet_init, tablet_mark_all_axes_changed, tablet_set_status] using h

/-- C8: the capabilities `tool_set_bits` gives a new tool, on the database path
and on the fallback path: its axes are axes of the dispatcher (and axes the
device reports, when the dispatcher was initialised for the device), and its
buttons are key codes the device reports. -/
theorem new_tool_capabilities_within_device (s : State) (type : libinput_tool_type)
    (tool_id serial : Nat) :
    (tool_set_bits s ⟨type, serial, tool_id, 1, ∅, ∅⟩).axis_caps ⊆ s.tablet.axis_caps ∧
    (∀ b ∈ (tool_set_bits s ⟨type, serial, tool_id, 1, ∅, ∅⟩).buttons,
      libevdev_has_event_code s.device.evdev EV_KEY b = true) ∧
    (s.tablet.axis_caps = (tablet_init s.device s.libinput s.libwacom).tablet.axis_caps →
      ∀ a ∈ (tool_set_bits s ⟨type, serial, tool_id, 1, ∅, ∅⟩).axis_caps,
        tablet_device_has_axis s.device a = true) := by
  have key := tool_set_bits_induct s
    (fun t => t.axis_caps ⊆ s.tablet.axis_caps ∧
      ∀ b ∈ t.buttons, libevdev_has_event_code s.device.evdev EV_KEY b = true)
    (by
      intro t a ⟨h1, h2⟩
      refine ⟨fun x hx => ?_, by rw [copy_axis_cap_buttons]; exact h2⟩
      rcases (mem_copy_axis_cap _ _ _ _).mp hx with h | ⟨rfl, h⟩
      · exact h1 h
      · exact h)
    (by
      intro t b ⟨h1, h2⟩
      refine ⟨by rw [copy_button_cap_axis_caps]; exact h1, fun y hy => ?_⟩
      rcases (mem_copy_button_cap _ _ _ _).mp hy with h | ⟨rfl, h⟩
      · exact h2 y h
      · exact h)
    ⟨type, serial, tool_id, 1, ∅, ∅⟩ ⟨by simp, by simp⟩
  refine ⟨key.1, key.2, fun hinit a ha => ?_⟩
  have hm := key.1 ha
  rw [hinit] at hm
  have hcaps : ∀ (l : List libinput_tablet_axis) (c : Finset libinput_tablet_axis),
      a ∈ l.foldl (init_axis_cap s.device) c →
      a ∈ c ∨ tablet_device_has_axis s.device a = true := by
    intro l
    induction l with
    | nil => intro c h; exact Or.inl h
    | cons b l ih =>
      intro c h
      rw [List.foldl_cons] at h
      rcases ih _ h with h' | h'
      · unfold init_axis_cap set_bit at h'
        split at h'
        · rcases Finset.mem_insert.mp h' with rfl | h''
          · right; assumption
          · exact Or.inl h''
        · exact Or.inl h'
      · exact Or.inr h'
  have : a ∈ all_axes.foldl (init_axis_cap s.device) ∅ := by
    simpa [tablet_init, tablet_mark_all_axes_changed, tablet_set_status] using hm
  rcases hcaps _ _ this with h | h
  · simp at h
  · exact h

theorem tool_set_bits_fallback_eq (s : State) (tool : libinput_tool)
    (h : s.libwacom = none ∨
      ∃ db, s.libwacom = some db ∧ db.stylus_get_for_id tool.tool_id = none) :
    tool_set_bits s tool = tool_set_bits_fallback s tool := by
  unfold tool_set_bits tool_set_bits_from_libwacom
  rcases h with h | ⟨db, h1, h2⟩
  · simp [h]
  · simp [h1, h2]

/-- C9: on the fallback path of `tool_set_bits` a new tool of a pen-family type
gets the axes pressure, distance, tilt-x, tilt-y the dispatcher has (those the
device reports, when the dispatcher was initialised for the device) and the
buttons stylus, stylus2, touch the device reports; a tool of a mouse-family
type gets no axis and the buttons left, middle, right, side, extra the device
reports; a tool of any other type gets nothing. -/
theorem fallback_capabilities_by_type (s : State) (type : libinput_tool_type)
    (tool_id serial : Nat)
    (hfb : s.libwacom = none ∨
      ∃ db, s.libwacom = some db ∧ db.stylus_get_for_id tool_id = none) :
    ((type = PEN ∨ type = ERASER ∨ type = PENCIL ∨ type = BRUSH ∨ type = AIRBRUSH) →
      (tool_set_bits s ⟨type, serial, tool_id, 1, ∅, ∅⟩).axis_caps =
        {PRESSURE, DISTANCE, TILT_X, TILT_Y} ∩ s.tablet.axis_caps ∧
      (s.tablet.axis_caps = (tablet_init s.device s.libinput s.libwacom).tablet.axis_caps →
        (tool_set_bits s ⟨type, serial, tool_id, 1, ∅, ∅⟩).axis_caps =
          {PRESSURE, DISTANCE, TILT_X, TILT_Y} ∩ device_axes s.device) ∧
      (tool_set_bits s ⟨type, serial, tool_id, 1, ∅, ∅⟩).buttons =
        ({BTN_STYLUS, BTN_STYLUS2, BTN_TOUCH} : Finset Nat).filter
          (fun b => libevdev_has_event_code s.device.evdev EV_KEY b = true)) ∧
    ((type = MOUSE ∨ type = LENS) →
      (tool_set_bits s ⟨type, serial, tool_id, 1, ∅, ∅⟩).axis_caps = ∅ ∧
      (tool_set_bits s ⟨type, serial, tool_id, 1, ∅, ∅⟩).buttons =
        ({BTN_LEFT, BTN_MIDDLE, BTN_RIGHT, BTN_SIDE, BTN_EXTRA} : Finset Nat).filter
          (fun b => libevdev_has_event_code s.device.evdev EV_KEY b = true)) ∧
    ((type = FINGER ∨ type = NONE) →
      (tool_set_bits s ⟨type, serial, tool_id, 1, ∅, ∅⟩).axis_caps = ∅ ∧
      (tool_set_bits s ⟨type, serial, tool_id, 1, ∅, ∅⟩).buttons = ∅) := by
  rw [tool_set_bits_fallback_eq s _ hfb]
  have pen : ∀ ty, (ty = PEN ∨ ty = ERASER ∨ ty = PENCIL ∨ ty = BRUSH ∨ ty = AIRBRUSH) →
      (tool_set_bits_fallback s ⟨ty, serial, tool_id, 1, ∅, ∅⟩).axis_caps =
        {PRESSURE, DISTANCE, TILT_X, TILT_Y} ∩ s.tablet.axis_caps ∧
      (tool_set_bits_fallback s ⟨ty, serial, tool_id, 1, ∅, ∅⟩).buttons =
        ({BTN_STYLUS, BTN_STYLUS2, BTN_TOUCH} : Finset Nat).filter
          (fun b => libevdev_has_event_code s.device.evdev EV_KEY b = true) := by
    intro ty hty
    constructor
    · ext a
      rcases hty with h | h | h | h | h <;> subst h <;>
      · simp only [tool_set_bits_fallback, copy_button_cap_axis_caps, mem_copy_axis_cap,
          Finset.mem_inter, Finset.mem_insert, Finset.mem_singleton, Finset.not_mem_empty]
        constructor
        · rintro ((((h | ⟨rfl, h⟩) | ⟨rfl, h⟩) | ⟨rfl, h⟩) | ⟨rfl, h⟩)
          · exact absurd h id
          · exact ⟨Or.inl rfl, h⟩
          · exact ⟨Or.inr (Or.inl rfl), h⟩
          · exact ⟨Or.inr (Or.inr (Or.inl rfl)), h⟩
          · exact ⟨Or.inr (Or.inr (Or.inr rfl)), h⟩
        · rintro ⟨rfl | rfl | rfl | rfl, h⟩
          · exact Or.inl (Or.inl (Or.inl (Or.inr ⟨rfl, h⟩)))
          · exact Or.inl (Or.inl (Or.inr ⟨rfl, h⟩))
          · exact Or.inl (Or.inr ⟨rfl, h⟩)
          · exact Or.inr ⟨rfl, h⟩
    · ext b
      rcases hty with h | h | h | h | h <;> subst h <;>
      · simp only [tool_set_bits_fallback, mem_copy_button_cap, copy_axis_cap_buttons,
          Finset.mem_filter, Finset.mem_insert, Finset.mem_singleton, Finset.not_mem_empty]
        constructor
        · rintro (((h | ⟨rfl, h⟩) | ⟨rfl, h⟩) | ⟨rfl, h⟩)
          · exact absurd h id
          · exact ⟨Or.inl rfl, h⟩
          · exact ⟨Or.inr (Or.inl rfl), h⟩
          · exact ⟨Or.inr (Or.inr rfl), h⟩
        · rintro ⟨rfl | rfl | rfl, h⟩
          · exact Or.inl (Or.inl (Or.inr ⟨rfl, h⟩))
          · exact Or.inl (Or.inr ⟨rfl, h⟩)
          · exact Or.inr ⟨rfl, h⟩
  have mouse : ∀ ty, (ty = MOUSE ∨ ty = LENS) →
      (tool_set_bits_fallback s ⟨ty, serial, tool_id, 1, ∅, ∅⟩).axis_caps = ∅ ∧
      (tool_set_bits_fallback s ⟨ty, serial, tool_id, 1, ∅, ∅⟩).buttons =
        ({BTN_LEFT, BTN_MIDDLE, BTN_RIGHT, BTN_SIDE, BTN_EXTRA} : Finset Nat).filter
          (fun b => libevdev_has_event_code s.device.evdev EV_KEY b = true) := by
    intro ty hty
    constructor
    · rcases hty with h | h <;> subst h <;>
      simp only [tool_set_bits_fallback, copy_button_cap_axis_caps]
    · ext b
      rcases hty with h | h <;> subst h <;>
      · simp only [tool_set_bits_fallback, mem_copy_button_cap,
          Finset.mem_filter, Finset.mem_insert, Finset.mem_singleton, Finset.not_mem_empty]
        constructor
        · rintro (((((h | ⟨rfl, h⟩) | ⟨rfl, h⟩) | ⟨rfl, h⟩) | ⟨rfl, h⟩) | ⟨rfl, h⟩)
          · exact absurd h id
          · exact ⟨Or.inl rfl, h⟩
          · exact ⟨Or.inr (Or.inl rfl), h⟩
          · exact ⟨Or.inr (Or.inr (Or.inl rfl)), h⟩
          · exact ⟨Or.inr (Or.inr (Or.inr (Or.inl rfl))), h⟩
          · exact ⟨Or.inr (Or.inr (Or.inr (Or.inr rfl))), h⟩
        · rintro ⟨rfl | rfl | rfl | rfl | rfl, h⟩
          · exact Or.inl (Or.inl (Or.inl (Or.inl (Or.inr ⟨rfl, h⟩))))
          · exact Or.inl (Or.inl (Or.inl (Or.inr ⟨rfl, h⟩)))
          · exact Or.inl (Or.inl (Or.inr ⟨rfl, h⟩))
          · exact Or.inl (Or.inr ⟨rfl, h⟩)
          · exact Or.inr ⟨rfl, h⟩
  refine ⟨fun h => ⟨(pen type h).1, fun hinit => ?_, (pen type h).2⟩, mouse type, ?_⟩
  · rw [(pen type h).1, hinit, tablet_init_axis_caps]
  · rintro (h | h) <;> subst h <;> exact ⟨rfl, rfl⟩

/-! ## The left-handed orientation -/

theorem check_notify_axes_frame (s s' : State) (time : Nat) (tool : tool_ptr)
    (h : tablet_check_notify_axes s time tool = some s') :
    s'.device = s.device ∧ ∃ pre, s'.libinput.events = s.libinput.events ++ pre := by
  unfold tablet_check_notify_axes at h
  split at h
  · exact absurd h (by simp)
  · simp only [Option.some.injEq] at h
    subst h
    dsimp only
    split
    · split
      · exact ⟨rfl, _, rfl⟩
      · exact ⟨rfl, _, rfl⟩
    · exact ⟨rfl, [], by simp⟩

theorem sanitize_frame (s s' : State) (h : sanitize_tablet_axes s = some s') :
    s'.device = s.device ∧ s'.libinput = s.libinput := by
  have second : ∀ x : State, x = (if (bit_is_set s.tablet.changed_axes PRESSURE
        && !tablet_has_status s.tablet TABLET_STYLUS_IN_CONTACT) = true then
      if s.tablet.axes PRESSURE = 0 then
        ({ s with tablet := { s.tablet with
            changed_axes := clear_bit s.tablet.changed_axes PRESSURE } } : State)
      else
        { s with tablet := { s.tablet with axes := Function.update s.tablet.axes PRESSURE 0 } }
    else s) → x.device = s.device ∧ x.libinput = s.libinput := by
    intro x hx
    subst hx
    split
    · split <;> exact ⟨rfl, rfl⟩
    · exact ⟨rfl, rfl⟩
  unfold sanitize_tablet_axes at h
  simp only [] at h
  split at h
  · split at h
    · exact absurd h (by simp)
    · split at h
      · split at h
        · exact absurd h (by simp)
        · split at h
          · simp only [Option.some.injEq] at h
            subst h
            exact ⟨rfl, rfl⟩
          · simp only [Option.some.injEq] at h
            exact second _ h.symm
      · simp only [Option.some.injEq] at h
        exact second _ h.symm
  · simp only [Option.some.injEq] at h
    exact second _ h.symm

theorem flush_axes_frame (s s1 : State) (time : Nat) (tool : tool_ptr)
    (h : tablet_flush_axes s time tool = some s1) :
    s1.device = s.device ∧ ∃ pre, s1.libinput.events = s.libinput.events ++ pre := by
  unfold tablet_flush_axes at h
  split at h
  · simp only [Option.some.injEq] at h
    subst h
    exact ⟨rfl, [], by simp⟩
  · split at h
    · cases hs2 : sanitize_tablet_axes s with
      | none => rw [hs2] at h; exact absurd h (by simp)
      | some s2 =>
        rw [hs2] at h
        dsimp only at h
        cases hs3 : tablet_check_notify_axes s2 time tool with
        | none => rw [hs3] at h; exact absurd h (by simp)
        | some s3 =>
          rw [hs3] at h
          simp only [Option.some.injEq] at h
          subst h
          obtain ⟨d2, l2⟩ := sanitize_frame _ _ hs2
          obtain ⟨d3, pre, l3⟩ := check_notify_axes_frame _ _ _ _ hs3
          refine ⟨d3.trans d2, pre, ?_⟩
          show s3.libinput.events = _
          rw [l3, l2]
    · simp only [Option.some.injEq] at h
      subst h
      exact ⟨rfl, [], by simp⟩

theorem flush_buttons_device (s : State) (time : Nat) (tool : tool_ptr) :
    (tablet_flush_buttons s time tool).device =
      if TABLET_TOOL_LEAVING_PROXIMITY ∈ s.tablet.status
          ∧ s.device.left_handed_enabled ≠ s.device.left_handed_want_enabled then
        { s.device with left_handed_enabled := s.device.left_handed_want_enabled }
      else s.device := by
  unfold tablet_flush_buttons
  by_cases hl : TABLET_TOOL_LEAVING_PROXIMITY ∈ s.tablet.status
  · rw [flush_leaving_step_pos _ _ _ (by rw [flush_pressed_eq, flush_released_eq]; simp [hl]),
      flush_pressed_eq, flush_released_eq]
    by_cases hw : s.device.left_handed_enabled = s.device.left_handed_want_enabled
    · simp [hl, hw]
    · simp [hl, hw]
  · rw [flush_leaving_step_neg _ _ _ (by rw [flush_pressed_eq, flush_released_eq]; simp [hl]),
      flush_pressed_eq, flush_released_eq]
    simp [hl]

theorem process_key_device (s s' : State) (e : input_event)
    (h : tablet_process_key s e = some s') : s'.device = s.device := by
  unfold tablet_process_key at h
  split at h
  · split at h
    · exact absurd h (by simp)
    · unfold tablet_update_tool at h
      split at h
      · exact absurd h (by simp)
      · split at h <;>
        · simp only [Option.some.injEq] at h
          subst h
          rfl
  · simp only [Option.some.injEq] at h
    subst h
    rfl

theorem process_absolute_device (s : State) (e : input_event) :
    (tablet_process_absolute s e).device = s.device := by
  unfold tablet_process_absolute
  split
  · split <;> rfl
  · split <;> rfl

theorem process_misc_device (s : State) (e : input_event) :
    (tablet_process_misc s e).device = s.device := by
  unfold tablet_process_misc
  split
  · split <;> rfl
  · rfl

/-- C10: `tablet_change_to_left_handed` leaves `left_handed.enabled` as it is
when out-of-proximity is not set; and whenever `tablet_process` changes
`left_handed.enabled`, the event is a synchronization marker, the last
notification emitted is a proximity OUT, out-of-proximity is set afterwards and
`left_handed.enabled` equals `left_handed.want_enabled`. -/
theorem left_handed_changes_only_at_proximity_out (s : State) (e : input_event) (time : Nat) :
    (TABLET_TOOL_OUT_OF_PROXIMITY ∉ s.tablet.status →
      (tablet_change_to_left_handed s).device.left_handed_enabled =
        s.device.left_handed_enabled) ∧
    (∀ s' : State, tablet_process s e time = some s' →
      s'.device.left_handed_enabled ≠ s.device.left_handed_enabled →
      e.type = EV_SYN ∧
      (∃ (pre : List notification) (tool : tool_ptr) (axes : libinput_tablet_axis → c_double),
        s'.libinput.events = s.libinput.events ++ pre ++
          [notification.proximity (time % 2 ^ 32) tool LIBINPUT_TOOL_PROXIMITY_OUT ∅ axes]) ∧
      TABLET_TOOL_OUT_OF_PROXIMITY ∈ s'.tablet.status ∧
      s'.device.left_handed_enabled = s'.device.left_handed_want_enabled) := by
  constructor
  · intro ho
    unfold tablet_change_to_left_handed
    split
    · rfl
    · simp [tablet_has_status, ho]
  · intro s' hp hne
    unfold tablet_process at hp
    split at hp
    · simp only [Option.some.injEq] at hp
      subst hp
      exact absurd (by rw [process_absolute_device]) hne
    · split at hp
      · exact absurd (by rw [process_key_device _ _ _ hp]) hne
      · split at hp
        · simp only [Option.some.injEq] at hp
          subst hp
          exact absurd (by rw [process_misc_device]) hne
        · split at hp
          · rename_i hsyn
            refine ⟨hsyn, ?_⟩
            unfold tablet_flush at hp
            dsimp only at hp
            cases h1 : tablet_flush_axes (tablet_get_tool s s.tablet.current_tool_type
                s.tablet.current_tool_id s.tablet.current_tool_serial).2 (time % 2 ^ 32)
                (tablet_get_tool s s.tablet.current_tool_type
                s.tablet.current_tool_id s.tablet.current_tool_serial).1 with
            | none => rw [h1] at hp; exact absurd hp (by simp)
            | some s1 =>
              rw [h1] at hp
              simp only [Option.some.injEq] at hp
              subst hp
              obtain ⟨hd, pre, hev⟩ := flush_axes_frame _ _ _ _ h1
              rw [get_tool_device] at hd
              rw [get_tool_events] at hev
              rw [flush_buttons_device, hd] at hne ⊢
              by_cases hl : TABLET_TOOL_LEAVING_PROXIMITY ∈ s1.tablet.status
              · by_cases hw : s.device.left_handed_enabled = s.device.left_handed_want_enabled
                · simp [hl, hw] at hne
                · refine ⟨⟨pre ++
                      ((if TABLET_BUTTONS_RELEASED ∈ s1.tablet.status then
                          button_events (time % 2 ^ 32) (flush_tool s) s1.tablet.axes
                            (tablet_get_released_buttons s1.tablet)
                            LIBINPUT_BUTTON_STATE_RELEASED
                        else []) ++
                       (if TABLET_BUTTONS_PRESSED ∈ s1.tablet.status then
                          button_events (time % 2 ^ 32) (flush_tool s) s1.tablet.axes
                            (tablet_get_pressed_buttons s1.tablet)
                            LIBINPUT_BUTTON_STATE_PRESSED
                        else [])), flush_tool s, s1.tablet.axes, ?_⟩, ?_, ?_⟩
                  · rw [flush_buttons_events, hev]
                    simp only [hl, if_true, List.append_assoc, flush_tool]
                  · rw [flush_buttons_status]
                    simp [hl]
                  · simp [hl, hw]
              · simp [hl] at hne
          · simp only [Option.some.injEq] at hp
            subst hp
            exact absurd rfl hne

/-! ## Events other than the synchronization marker -/

theorem evcode_to_tool_some (code : Nat)
    (h : code = BTN_TOOL_PEN ∨ code = BTN_TOOL_RUBBER ∨ code = BTN_TOOL_BRUSH
      ∨ code = BTN_TOOL_PENCIL ∨ code = BTN_TOOL_AIRBRUSH ∨ code = BTN_TOOL_FINGER
      ∨ code = BTN_TOOL_MOUSE ∨ code = BTN_TOOL_LENS) :
    ∃ t, tablet_evcode_to_tool code = some t ∧ t ≠ NONE := by
  rcases h with h | h | h | h | h | h | h | h <;> subst h
  · exact ⟨PEN, by decide, by decide⟩
  · exact ⟨ERASER, by decide, by decide⟩
  · exact ⟨BRUSH, by decide, by decide⟩
  · exact ⟨PENCIL, by decide, by decide⟩
  · exact ⟨AIRBRUSH, by decide, by decide⟩
  · exact ⟨FINGER, by decide, by decide⟩
  · exact ⟨MOUSE, by decide, by decide⟩
  · exact ⟨LENS, by decide, by decide⟩

theorem update_tool_frame (s s' : State) (t : libinput_tool_type) (b : Bool)
    (h : tablet_update_tool s t b = some s') :
    s'.libinput = s.libinput ∧ s'.tablet.axes = s.tablet.axes ∧
    s'.tablet.prev_button_state = s.tablet.prev_button_state ∧
    s'.tablet.button_state = s.tablet.button_state ∧
    s'.tablet.tool_list = s.tablet.tool_list := by
  unfold tablet_update_tool at h
  split at h
  · exact absurd h (by simp)
  · split at h <;>
    · simp only [Option.some.injEq] at h
      subst h
      exact ⟨rfl, rfl, rfl, rfl, rfl⟩

theorem update_button_frame (tablet : tablet_dispatch) (evcode enable : Nat) :
    (tablet_update_button tablet evcode enable).axes = tablet.axes ∧
    (tablet_update_button tablet evcode enable).prev_button_state = tablet.prev_button_state ∧
    (tablet_update_button tablet evcode enable).tool_list = tablet.tool_list ∧
    (tablet_update_button tablet evcode enable).changed_axes = tablet.changed_axes := by
  unfold tablet_update_button
  split
  · split
    · split <;> exact ⟨rfl, rfl, rfl, rfl⟩
    · exact ⟨rfl, rfl, rfl, rfl⟩
  · exact ⟨rfl, rfl, rfl, rfl⟩

theorem process_key_total (s : State) (e : input_event) :
    ∃ s', tablet_process_key s e = some s' := by
  unfold tablet_process_key
  split
  · rename_i hc
    obtain ⟨t, ht, hne⟩ := evcode_to_tool_some e.code hc
    rw [ht]
    simp only [tablet_update_tool, hne, if_false]
    split <;> exact ⟨_, rfl⟩
  · exact ⟨_, rfl⟩

theorem process_key_frame (s s' : State) (e : input_event)
    (h : tablet_process_key s e = some s') :
    s'.libinput = s.libinput ∧ s'.tablet.axes = s.tablet.axes ∧
    s'.tablet.prev_button_state = s.tablet.prev_button_state ∧
    s'.tablet.tool_list = s.tablet.tool_list := by
  unfold tablet_process_key at h
  split at h
  · split at h
    · exact absurd h (by simp)
    · obtain ⟨h1, h2, h3, -, h5⟩ := update_tool_frame _ _ _ _ h
      exact ⟨h1, h2, h3, h5⟩
  · simp only [Option.some.injEq] at h
    subst h
    obtain ⟨h1, h2, h3, -⟩ := update_button_frame
      (if e.code = BTN_TOUCH then
        if e.value ≠ 0 then tablet_set_status s.tablet TABLET_STYLUS_IN_CONTACT
        else tablet_unset_status s.tablet TABLET_STYLUS_IN_CONTACT
      else s.tablet) e.code (e.value % 2 ^ 32).toNat
    refine ⟨rfl, ?_, ?_, ?_⟩
    · rw [h1]; split
      · split <;> rfl
      · rfl
    · rw [h2]; split
      · split <;> rfl
      · rfl
    · rw [h3]; split
      · split <;> rfl
      · rfl

theorem process_absolute_frame (s : State) (e : input_event) :
    (tablet_process_absolute s e).libinput = s.libinput ∧
    (tablet_process_absolute s e).tablet.axes = s.tablet.axes ∧
    (tablet_process_absolute s e).tablet.prev_button_state = s.tablet.prev_button_state ∧
    (tablet_process_absolute s e).tablet.tool_list = s.tablet.tool_list ∧
    (tablet_process_absolute s e).tablet.button_state = s.tablet.button_state := by
  unfold tablet_process_absolute
  split
  · split <;> exact ⟨rfl, rfl, rfl, rfl, rfl⟩
  · split <;> exact ⟨rfl, rfl, rfl, rfl, rfl⟩

theorem process_misc_frame (s : State) (e : input_event) :
    (tablet_process_misc s e).libinput = s.libinput ∧
    (tablet_process_misc s e).tablet.axes = s.tablet.axes ∧
    (tablet_process_misc s e).tablet.prev_button_state = s.tablet.prev_button_state ∧
    (tablet_process_misc s e).tablet.tool_list = s.tablet.tool_list ∧
    (tablet_process_misc s e).tablet.button_state = s.tablet.button_state := by
  unfold tablet_process_misc
  split
  · split <;> exact ⟨rfl, rfl, rfl, rfl, rfl⟩
  · exact ⟨rfl, rfl, rfl, rfl, rfl⟩

theorem process_non_syn_total (s : State) (e : input_event) (time : Nat)
    (h : e.type ≠ EV_SYN) : ∃ s' : State, tablet_process s e time = some s' := by
  unfold tablet_process
  split
  · exact ⟨_, rfl⟩
  · split
    · exact process_key_total s e
    · split
      · exact ⟨_, rfl⟩
      · exact ⟨s, rfl⟩

/-- C11: an event whose type is not the synchronization marker is always
processed, emits no notification and leaves the published axis values and the
previous button set as they were. -/
theorem only_flush_emits (s : State) (e : input_event) (time : Nat)
    (h : e.type ≠ EV_SYN) :
    ∃ s' : State, tablet_process s e time = some s' ∧
      s'.libinput.events = s.libinput.events ∧
      s'.tablet.axes = s.tablet.axes ∧
      s'.tablet.prev_button_state = s.tablet.prev_button_state := by
  unfold tablet_process
  split
  · obtain ⟨h1, h2, h3, -⟩ := process_absolute_frame s e
    exact ⟨_, rfl, by rw [h1], h2, h3⟩
  · split
    · obtain ⟨s', hs'⟩ := process_key_total s e
      obtain ⟨h1, h2, h3, -⟩ := process_key_frame s s' e hs'
      exact ⟨s', hs', by rw [h1], h2, h3⟩
    · split
      · obtain ⟨h1, h2, h3, -⟩ := process_misc_frame s e
        exact ⟨_, rfl, by rw [h1], h2, h3⟩
      · exact ⟨s, rfl, rfl, rfl, rfl⟩

/-! ## The normalizers -/

/-- C12, amended: for a raw sample inside a non-empty range whose width
`maximum - minimum` fits in `int`, `normalize_pressure_or_dist` is a finite
value in `[0, 1]` and `normalize_tilt` a finite value in `[-1, 1]`. -/
theorem normalize_bounds (a : input_absinfo) (hr : a.minimum < a.maximum)
    (hlo : a.minimum ≤ a.value) (hhi : a.value ≤ a.maximum)
    (hw : a.maximum - a.minimum < 2 ^ 31) :
    (∃ q : ℚ, normalize_pressure_or_dist a = c_double.finite q ∧ 0 ≤ q ∧ q ≤ 1) ∧
    (∃ q : ℚ, normalize_tilt a = c_double.finite q ∧ -1 ≤ q ∧ q ≤ 1) := by
  have hpos : (0 : ℚ) < ((a.maximum - a.minimum : Int) : ℚ) := by
    exact_mod_cast sub_pos.mpr hr
  have h0 : (0 : ℚ) ≤ ((a.value - a.minimum : Int) : ℚ) := by
    exact_mod_cast sub_nonneg.mpr hlo
  have h1 : ((a.value - a.minimum : Int) : ℚ) ≤ ((a.maximum - a.minimum : Int) : ℚ) := by
    exact_mod_cast sub_le_sub_right hhi a.minimum
  have v0 : 0 ≤ ((a.value - a.minimum : Int) : ℚ) / ((a.maximum - a.minimum : Int) : ℚ) :=
    div_nonneg h0 hpos.le
  have v1 : ((a.value - a.minimum : Int) : ℚ) / ((a.maximum - a.minimum : Int) : ℚ) ≤ 1 :=
    (div_le_one hpos).mpr h1
  refine ⟨⟨_, normalize_pressure_or_dist_eq a (ne_of_lt hr) (by omega) hw (by omega)
      (by omega), v0, v1⟩,
    ⟨_, normalize_tilt_eq a (ne_of_lt hr) (by omega) hw (by omega) (by omega), ?_, ?_⟩⟩
  · linarith
  · linarith

/-- C13, amended: on a non-empty range whose width fits in `int`, both
normalizers are finite and monotonic in the raw value, for raw values whose
difference from the minimum fits in `int`. -/
theorem normalize_monotone (lo hi v1 v2 : Int) (hr : lo < hi) (hv : v1 ≤ v2)
    (hw : hi - lo < 2 ^ 31) (h1 : -2 ^ 31 ≤ v1 - lo) (h2 : v2 - lo < 2 ^ 31) :
    (∃ q1 q2 : ℚ, normalize_pressure_or_dist ⟨v1, lo, hi⟩ = c_double.finite q1 ∧
      normalize_pressure_or_dist ⟨v2, lo, hi⟩ = c_double.finite q2 ∧ q1 ≤ q2) ∧
    (∃ q1 q2 : ℚ, normalize_tilt ⟨v1, lo, hi⟩ = c_double.finite q1 ∧
      normalize_tilt ⟨v2, lo, hi⟩ = c_double.finite q2 ∧ q1 ≤ q2) := by
  have hpos : (0 : ℚ) < ((hi - lo : Int) : ℚ) := by
    exact_mod_cast sub_pos.mpr hr
  have hle : ((v1 - lo : Int) : ℚ) ≤ ((v2 - lo : Int) : ℚ) := by
    exact_mod_cast sub_le_sub_right hv lo
  have hp : ((v1 - lo : Int) : ℚ) / ((hi - lo : Int) : ℚ) ≤
      ((v2 - lo : Int) : ℚ) / ((hi - lo : Int) : ℚ) :=
    div_le_div_of_nonneg_right hle hpos.le
  have hne : lo ≠ hi := ne_of_lt hr
  have hw0 : -2 ^ 31 ≤ hi - lo := by omega
  refine ⟨⟨_, _,
      normalize_pressure_or_dist_eq ⟨v1, lo, hi⟩ hne hw0 hw h1 (by simp only; omega),
      normalize_pressure_or_dist_eq ⟨v2, lo, hi⟩ hne hw0 hw (by simp only; omega) h2, hp⟩,
    ⟨_, _, normalize_tilt_eq ⟨v1, lo, hi⟩ hne hw0 hw h1 (by simp only; omega),
      normalize_tilt_eq ⟨v2, lo, hi⟩ hne hw0 hw (by simp only; omega) h2, ?_⟩⟩
  simp only
  linarith

/-- C15: a serial-number report with the raw value -1 leaves the whole state as
it is; with any other raw value `v` it stores `v`, converted to `uint32_t`, as
the serial of the current tool and changes nothing else.  The stored number is
`v` itself when `v` is not negative. -/
theorem serial_report_sets_only_the_serial (s : State) (v : Int) (time : Nat) :
    tablet_process s ⟨EV_MSC, MSC_SERIAL, -1⟩ time = some s ∧
    (v ≠ -1 →
      tablet_process s ⟨EV_MSC, MSC_SERIAL, v⟩ time =
        some { s with tablet := { s.tablet with
          current_tool_serial := (v % 2 ^ 32).toNat } }) ∧
    (((v % 2 ^ 32).toNat : Nat) : Int) = v % 2 ^ 32 ∧
    (0 ≤ v → v < 2 ^ 32 → (((v % 2 ^ 32).toNat : Nat) : Int) = v) := by
  have hcast : (((v % 2 ^ 32).toNat : Nat) : Int) = v % 2 ^ 32 :=
    Int.toNat_of_nonneg (Int.emod_nonneg v (by norm_num))
  refine ⟨?_, ?_, hcast, ?_⟩
  · simp [tablet_process, tablet_process_misc, EV_MSC, EV_ABS, EV_KEY, MSC_SERIAL]
  · intro hv
    simp [tablet_process, tablet_process_misc, EV_MSC, EV_ABS, EV_KEY, MSC_SERIAL, hv]
  · intro h0 h1
    rw [hcast]
    exact Int.emod_eq_of_lt h0 h1

theorem flush_none_reads (s : State) (time : Nat) (h : tablet_flush s time = none) :
    ¬ sanitize_reads_ok s ∨
      ∃ a ∈ flush_changed_axes s, tablet_device_has_axis s.device a = false := by
  by_contra hc
  simp only [not_or, not_not, not_exists, not_and, Bool.not_eq_false] at hc
  obtain ⟨hr, hw⟩ := hc
  by_cases hl : TABLET_TOOL_LEAVING_PROXIMITY ∈ s.tablet.status
  · rw [flush_leaving_eq s time hl] at h
    exact absurd h (by simp)
  · by_cases hu : TABLET_AXES_UPDATED ∈ s.tablet.status ∨
        TABLET_TOOL_ENTERING_PROXIMITY ∈ s.tablet.status
    · obtain ⟨s', hs', -⟩ := flush_axes_branch s time hl hu hr hw
      rw [hs'] at h
      exact absurd h (by simp)
    · simp only [not_or] at hu
      rw [flush_no_axes s time hl hu.1 hu.2] at h
      exact absurd h (by simp)

/-- C17: `tablet_process_key` passes to `tablet_evcode_to_tool` only the eight
tool-presence codes, each of which is converted to a type other than "none", so
neither the `abort` nor the assertion of `tablet_update_tool` is reached: every
key event is processed, and the only runs of `tablet_process` without a result
are flushes that read the calibration of an axis the device lacks. -/
theorem tool_conversion_never_aborts (s : State) (e : input_event) (time : Nat) :
    ((e.code = BTN_TOOL_PEN ∨ e.code = BTN_TOOL_RUBBER ∨ e.code = BTN_TOOL_BRUSH
        ∨ e.code = BTN_TOOL_PENCIL ∨ e.code = BTN_TOOL_AIRBRUSH ∨ e.code = BTN_TOOL_FINGER
        ∨ e.code = BTN_TOOL_MOUSE ∨ e.code = BTN_TOOL_LENS) →
      ∃ t, tablet_evcode_to_tool e.code = some t ∧ t ≠ NONE ∧
        tablet_process_key s e = tablet_update_tool s t (decide (e.value ≠ 0)) ∧
        ∃ s', tablet_update_tool s t (decide (e.value ≠ 0)) = some s') ∧
    (¬ (e.code = BTN_TOOL_PEN ∨ e.code = BTN_TOOL_RUBBER ∨ e.code = BTN_TOOL_BRUSH
        ∨ e.code = BTN_TOOL_PENCIL ∨ e.code = BTN_TOOL_AIRBRUSH ∨ e.code = BTN_TOOL_FINGER
        ∨ e.code = BTN_TOOL_MOUSE ∨ e.code = BTN_TOOL_LENS) →
      ∃ tablet, tablet_process_key s e =
        some { s with tablet := tablet_update_button tablet e.code (e.value % 2 ^ 32).toNat }) ∧
    (e.type = EV_KEY → ∃ s', tablet_process s e time = some s') ∧
    (tablet_process s e time = none →
      e.type = EV_SYN ∧
      (¬ sanitize_reads_ok s ∨
        ∃ a ∈ flush_changed_axes s, tablet_device_has_axis s.device a = false)) := by
  refine ⟨fun hc => ?_, fun hc => ?_, fun hk => ?_, fun hn => ?_⟩
  · obtain ⟨t, ht, hne⟩ := evcode_to_tool_some e.code hc
    refine ⟨t, ht, hne, ?_, ?_⟩
    · unfold tablet_process_key
      rw [if_pos hc, ht]
    · unfold tablet_update_tool
      rw [if_neg hne]
      split <;> exact ⟨_, rfl⟩
  · unfold tablet_process_key
    rw [if_neg hc]
    exact ⟨_, rfl⟩
  · exact process_non_syn_total s e time (by rw [hk]; decide)
  · by_cases hs : e.type = EV_SYN
    · refine ⟨hs, ?_⟩
      have : tablet_process s e time = tablet_flush s (time % 2 ^ 32) := by
        simp [tablet_process, hs, EV_SYN, EV_ABS, EV_KEY, EV_MSC]
      rw [this] at hn
      exact flush_none_reads s _ hn
    · obtain ⟨s', h'⟩ := process_non_syn_total s e time hs
      rw [h'] at hn
      exact absurd hn (by simp)

/-! ## The shape of the notifications of a flush -/

theorem check_notify_axes_shape (s s' : State) (time : Nat) (tool : tool_ptr)
    (h : tablet_check_notify_axes s time tool = some s') :
    ∃ first, s'.libinput.events = s.libinput.events ++ first ∧
      first_shape time tool s'.tablet.axes first := by
  unfold tablet_check_notify_axes at h
  split at h
  · exact absurd h (by simp)
  · simp only [Option.some.injEq] at h
    subst h
    dsimp only
    split
    · split
      · exact ⟨_, rfl, Or.inr ⟨_, Or.inl rfl⟩⟩
      · exact ⟨_, rfl, Or.inr ⟨_, Or.inr rfl⟩⟩
    · exact ⟨[], by simp, Or.inl rfl⟩

/-- What the first part of a flush does when the tool is not leaving. -/
theorem flush_axes_shape (s s1 : State) (time : Nat) (tool : tool_ptr)
    (hl : TABLET_TOOL_LEAVING_PROXIMITY ∉ s.tablet.status)
    (h : tablet_flush_axes s time tool = some s1) :
    s1.tablet.button_state = s.tablet.button_state ∧
    s1.tablet.prev_button_state = s.tablet.prev_button_state ∧
    (TABLET_BUTTONS_RELEASED ∈ s1.tablet.status ↔ TABLET_BUTTONS_RELEASED ∈ s.tablet.status) ∧
    (TABLET_BUTTONS_PRESSED ∈ s1.tablet.status ↔ TABLET_BUTTONS_PRESSED ∈ s.tablet.status) ∧
    TABLET_TOOL_LEAVING_PROXIMITY ∉ s1.tablet.status ∧
    ∃ first, s1.libinput.events = s.libinput.events ++ first ∧
      first_shape time tool s1.tablet.axes first := by
  unfold tablet_flush_axes at h
  rw [if_neg (by simpa [tablet_has_status] using hl)] at h
  split at h
  · cases hs2 : sanitize_tablet_axes s with
    | none => rw [hs2] at h; exact absurd h (by simp)
    | some s2 =>
      rw [hs2] at h
      dsimp only at h
      cases hs3 : tablet_check_notify_axes s2 time tool with
      | none => rw [hs3] at h; exact absurd h (by simp)
      | some s3 =>
        rw [hs3] at h
        simp only [Option.some.injEq] at h
        subst h
        obtain ⟨a1, a2, a3⟩ := sanitize_post _ _ hs2
        obtain ⟨-, b1, b2, b3⟩ := check_notify_axes_post _ _ _ _ hs3
        obtain ⟨first, c1, c2⟩ := check_notify_axes_shape _ _ _ _ hs3
        have hst : s3.tablet.status = s.tablet.status := b1.trans a1
        refine ⟨b2.trans a2, b3.trans a3, ?_, ?_, ?_, first, ?_, c2⟩
        · simp [tablet_unset_status, hst]
        · simp [tablet_unset_status, hst]
        · simp [tablet_unset_status, hst, hl]
        · show s3.libinput.events = _
          rw [c1, (sanitize_frame _ _ hs2).2]
  · simp only [Option.some.injEq] at h
    subst h
    exact ⟨rfl, rfl, Iff.rfl, Iff.rfl, hl, [], by simp, Or.inl rfl⟩

/-! ## A stored pressure of 0 is not reported again -/

theorem sanitize_some_reads_ok (s s1 : State) (h : sanitize_tablet_axes s = some s1) :
    sanitize_reads_ok s := by
  intro hd
  unfold sanitize_tablet_axes at h
  simp only [] at h
  rw [if_pos (by simpa [bit_is_set] using hd)] at h
  cases hdi : libevdev_get_abs_info s.device.evdev ABS_DISTANCE with
  | none => rw [hdi] at h; exact absurd h (by simp)
  | some d =>
    rw [hdi] at h
    refine ⟨rfl, fun hra => ?_⟩
    have hdv : d.value > d.minimum := by simpa [raw_above_min, hdi] using hra
    simp only [] at h
    rw [if_pos hdv] at h
    cases hpi : libevdev_get_abs_info s.device.evdev ABS_PRESSURE with
    | none => rw [hpi] at h; exact absurd h (by simp)
    | some p => rfl

theorem check_notify_axes_loop_keeps (device : evdev_device)
    (changed : Finset libinput_tablet_axis) (l : List libinput_tablet_axis)
    (acc r : (libinput_tablet_axis → c_double) × Bool)
    (h : check_notify_axes_loop device changed l acc = some r)
    (a : libinput_tablet_axis) (ha : a ∉ changed) : r.1 a = acc.1 a := by
  induction l generalizing acc with
  | nil =>
    simp only [check_notify_axes_loop, Option.some.injEq] at h
    rw [h]
  | cons b l ih =>
    unfold check_notify_axes_loop at h
    by_cases hb : b ∈ changed
    · rw [if_neg (by simp [bit_is_set, hb])] at h
      cases hv : axis_value device b with
      | none => rw [hv] at h; exact absurd h (by simp)
      | some v =>
        rw [hv] at h
        rw [ih _ h]
        have hne : a ≠ b := fun e => ha (by rw [e]; exact hb)
        exact Function.update_noteq hne _ _
    · rw [if_pos (by simp [bit_is_set, hb])] at h
      exact ih _ h

/-- What `tablet_check_notify_axes` publishes: an axis that is not marked
changed keeps its value, and the notification lists the changed axes. -/
theorem check_notify_axes_keeps (s s' : State) (time : Nat) (tool : tool_ptr)
    (h : tablet_check_notify_axes s time tool = some s') :
    (∀ a, a ∉ s.tablet.changed_axes → s'.tablet.axes a = s.tablet.axes a) ∧
    ∃ first, s'.libinput.events = s.libinput.events ++ first ∧
      ∀ n ∈ first, n.changed_axes = s.tablet.changed_axes ∧ n.axes = s'.tablet.axes := by
  unfold tablet_check_notify_axes at h
  split at h
  · exact absurd h (by simp)
  · rename_i axes upd hloop
    simp only [Option.some.injEq] at h
    subst h
    dsimp only
    constructor
    · intro a ha
      have := check_notify_axes_loop_keeps _ _ _ _ _ hloop a ha
      split
      · split <;> exact this
      · exact this
    · split
      · split
        · refine ⟨_, rfl, fun n hn => ?_⟩
          simp only [List.mem_singleton] at hn
          subst hn
          exact ⟨rfl, rfl⟩
        · refine ⟨_, rfl, fun n hn => ?_⟩
          simp only [List.mem_singleton] at hn
          subst hn
          exact ⟨rfl, rfl⟩
      · exact ⟨[], by simp, fun n hn => absurd hn (by simp)⟩

theorem sanitized_rule2_zero (s : State)
    (hp : PRESSURE ∈ s.tablet.changed_axes)
    (hc : TABLET_STYLUS_IN_CONTACT ∉ s.tablet.status)
    (h1 : ¬ rule1_applies s)
    (hz : s.tablet.axes PRESSURE = 0) :
    sanitized_changed_axes s.device s.tablet.status s.tablet.axes s.tablet.changed_axes =
      s.tablet.changed_axes.erase PRESSURE ∧
    sanitized_axes s.device s.tablet.status s.tablet.axes s.tablet.changed_axes =
      s.tablet.axes := by
  unfold rule1_applies at h1
  unfold sanitized_changed_axes sanitized_axes
  rw [if_neg h1, if_neg h1, if_pos ⟨hp, hc, hz⟩, if_neg (fun h => h.2.2 hz)]
  exact ⟨rfl, rfl⟩

theorem flush_buttons_out (s : State) (time : Nat) (tool : tool_ptr) :
    ∃ out, (tablet_flush_buttons s time tool).libinput.events = s.libinput.events ++ out ∧
      ∀ n ∈ out, n.axes = s.tablet.axes ∧ n.changed_axes = ∅ := by
  refine ⟨_, flush_buttons_events s time tool, fun n hn => ?_⟩
  simp only [List.mem_append] at hn
  rcases hn with (hn | hn) | hn
  · split at hn
    · exact button_events_axes _ _ _ _ _ _ hn
    · simp at hn
  · split at hn
    · exact button_events_axes _ _ _ _ _ _ hn
    · simp at hn
  · split at hn
    · simp only [List.mem_singleton] at hn
      subst hn
      exact ⟨rfl, rfl⟩
    · simp at hn

/-- The first part of a flush under rule 2 with a stored pressure of 0. -/
theorem flush_axes_zero_pressure (s s1 : State) (time : Nat) (tool : tool_ptr)
    (hp : PRESSURE ∈ s.tablet.changed_axes)
    (hc : TABLET_STYLUS_IN_CONTACT ∉ s.tablet.status)
    (h1 : ¬ rule1_applies s)
    (hz : s.tablet.axes PRESSURE = 0)
    (h : tablet_flush_axes s time tool = some s1) :
    s1.tablet.axes PRESSURE = 0 ∧
    ∃ first, s1.libinput.events = s.libinput.events ++ first ∧
      ∀ n ∈ first, PRESSURE ∉ n.changed_axes ∧ n.axes PRESSURE = 0 := by
  unfold tablet_flush_axes at h
  split at h
  · simp only [Option.some.injEq] at h
    subst h
    exact ⟨hz, [], by simp [tablet_set_status], fun n hn => absurd hn (by simp)⟩
  · split at h
    · cases hs2 : sanitize_tablet_axes s with
      | none => rw [hs2] at h; exact absurd h (by simp)
      | some s2 =>
        rw [hs2] at h
        dsimp only at h
        cases hs3 : tablet_check_notify_axes s2 time tool with
        | none => rw [hs3] at h; exact absurd h (by simp)
        | some s3 =>
          rw [hs3] at h
          simp only [Option.some.injEq] at h
          subst h
          have heq := sanitize_eq s (sanitize_some_reads_ok s s2 hs2)
          rw [hs2, (sanitized_rule2_zero s hp hc h1 hz).1,
            (sanitized_rule2_zero s hp hc h1 hz).2] at heq
          simp only [Option.some.injEq] at heq
          have hch : s2.tablet.changed_axes = s.tablet.changed_axes.erase PRESSURE := by
            rw [heq]
          have hax : s2.tablet.axes = s.tablet.axes := by rw [heq]
          have hev : s2.libinput.events = s.libinput.events := by rw [heq]
          have hnot : PRESSURE ∉ s2.tablet.changed_axes := by
            rw [hch]
            exact Finset.not_mem_erase _ _
          obtain ⟨k1, first, k2, k3⟩ := check_notify_axes_keeps _ _ _ _ hs3
          have hz3 : s3.tablet.axes PRESSURE = 0 := by
            rw [k1 _ hnot, hax, hz]
          refine ⟨hz3, first, ?_, fun n hn => ?_⟩
          · show s3.libinput.events = _
            rw [k2, hev]
          · obtain ⟨m1, m2⟩ := k3 n hn
            rw [m1, m2]
            exact ⟨hnot, hz3⟩
    · simp only [Option.some.injEq] at h
      subst h
      exact ⟨hz, [], by simp, fun n hn => absurd hn (by simp)⟩

/-- C19: in a state in which pressure is marked changed, the stylus is not in
contact, rule 1 does not apply and the stored pressure is 0,
`sanitize_tablet_axes` (which returns when it reads only samples the device
has) removes pressure from the changed-axes set and keeps the stored values;
and a flush of such a state leaves the stored pressure at 0 and emits only
notifications that carry pressure 0 and do not list pressure as changed. -/
theorem zero_pressure_update_suppressed (s : State) (time : Nat)
    (hp : PRESSURE ∈ s.tablet.changed_axes)
    (hc : TABLET_STYLUS_IN_CONTACT ∉ s.tablet.status)
    (h1 : ¬ rule1_applies s)
    (hz : s.tablet.axes PRESSURE = 0) :
    (sanitize_reads_ok s → ∃ s1, sanitize_tablet_axes s = some s1) ∧
    (∀ s1, sanitize_tablet_axes s = some s1 →
      s1.tablet.changed_axes = s.tablet.changed_axes.erase PRESSURE ∧
      PRESSURE ∉ s1.tablet.changed_axes ∧ s1.tablet.axes = s.tablet.axes) ∧
    (sanitize_reads_ok s →
      (∀ a ∈ s.tablet.changed_axes.erase PRESSURE, tablet_device_has_axis s.device a = true) →
      ∃ s', tablet_flush s time = some s') ∧
    (∀ s', tablet_flush s time = some s' →
      s'.tablet.axes PRESSURE = 0 ∧
      ∃ out, s'.libinput.events = s.libinput.events ++ out ∧
        ∀ n ∈ out, PRESSURE ∉ n.changed_axes ∧ n.axes PRESSURE = 0) := by
  obtain ⟨e1, e2⟩ := sanitized_rule2_zero s hp hc h1 hz
  refine ⟨fun hr => ⟨_, sanitize_eq s hr⟩, fun s1 hs1 => ?_, fun hr hw => ?_, fun s' h => ?_⟩
  · have heq := sanitize_eq s (sanitize_some_reads_ok s s1 hs1)
    rw [hs1, e1, e2] at heq
    simp only [Option.some.injEq] at heq
    rw [heq]
    exact ⟨rfl, Finset.not_mem_erase _ _, rfl⟩
  · cases hf : tablet_flush s time with
    | some s' => exact ⟨s', rfl⟩
    | none =>
      rcases flush_none_reads s time hf with hn | ⟨a, ha, hna⟩
      · exact absurd hr hn
      · have hfc : flush_changed_axes s = s.tablet.changed_axes.erase PRESSURE := e1
        rw [hfc] at ha
        rw [hw a ha] at hna
        exact absurd hna (by simp)
  · unfold tablet_flush at h
    dsimp only at h
    cases hf : tablet_flush_axes (tablet_get_tool s s.tablet.current_tool_type
        s.tablet.current_tool_id s.tablet.current_tool_serial).2 time
        (tablet_get_tool s s.tablet.current_tool_type
        s.tablet.current_tool_id s.tablet.current_tool_serial).1 with
    | none => rw [hf] at h; exact absurd h (by simp)
    | some s1 =>
      rw [hf] at h
      simp only [Option.some.injEq] at h
      subst h
      obtain ⟨z1, first, f1, f2⟩ := flush_axes_zero_pressure _ _ _ _
        (by rw [get_tool_changed_axes]; exact hp) (by rw [get_tool_status]; exact hc)
        (by simpa [rule1_applies] using h1) (by rw [get_tool_axes]; exact hz) hf
      rw [get_tool_events] at f1
      obtain ⟨out, o1, o2⟩ := flush_buttons_out s1 time
        (tablet_get_tool s s.tablet.current_tool_type
          s.tablet.current_tool_id s.tablet.current_tool_serial).1
      refine ⟨by rw [flush_buttons_axes]; exact z1, first ++ out, ?_, fun n hn => ?_⟩
      · rw [o1, f1, List.append_assoc]
      · rcases List.mem_append.mp hn with hn | hn
        · exact f2 n hn
        · obtain ⟨m1, m2⟩ := o2 n hn
          rw [m1, m2]
          exact ⟨by simp, z1⟩

/-! ## The status flags along a sequence of events -/

theorem update_button_status (tablet : tablet_dispatch) (c en : Nat) :
    (∀ f ∈ (tablet_update_button tablet c en).status,
      f ∈ tablet.status ∨
        (is_button_code c ∧ (f = TABLET_BUTTONS_PRESSED ∨ f = TABLET_BUTTONS_RELEASED))) ∧
    (¬ is_button_code c →
      (tablet_update_button tablet c en).button_state = tablet.button_state) := by
  unfold tablet_update_button
  split
  · rename_i hc
    split
    · split
      · refine ⟨fun f hf => ?_, fun h => absurd hc h⟩
        simp only [tablet_set_status, Finset.mem_insert] at hf
        rcases hf with hf | hf
        · exact Or.inr ⟨hc, Or.inl hf⟩
        · exact Or.inl hf
      · refine ⟨fun f hf => ?_, fun h => absurd hc h⟩
        simp only [tablet_set_status, Finset.mem_insert] at hf
        rcases hf with hf | hf
        · exact Or.inr ⟨hc, Or.inr hf⟩
        · exact Or.inl hf
    · exact ⟨fun f hf => Or.inl hf, fun _ => rfl⟩
  · exact ⟨fun f hf => Or.inl hf, fun _ => rfl⟩

/-- How a key event changes the status flags and the button set. -/
theorem process_key_status (s s' : State) (e : input_event)
    (h : tablet_process_key s e = some s') :
    (∀ f ∈ s'.tablet.status,
      f ∈ s.tablet.status ∨ f = TABLET_AXES_UPDATED ∨ f = TABLET_STYLUS_IN_CONTACT
        ∨ (is_tool_code e.code ∧ e.value ≠ 0 ∧ f = TABLET_TOOL_ENTERING_PROXIMITY)
        ∨ (is_tool_code e.code ∧ e.value = 0 ∧ f = TABLET_TOOL_LEAVING_PROXIMITY)
        ∨ (is_button_code e.code ∧
            (f = TABLET_BUTTONS_PRESSED ∨ f = TABLET_BUTTONS_RELEASED))) ∧
    (¬ is_button_code e.code → s'.tablet.button_state = s.tablet.button_state) := by
  unfold tablet_process_key at h
  split at h
  · rename_i hc
    split at h
    · exact absurd h (by simp)
    · rename_i tool htool
      refine ⟨fun f hf => ?_, fun _ => (update_tool_frame _ _ _ _ h).2.2.2.1⟩
      unfold tablet_update_tool at h
      split at h
      · exact absurd h (by simp)
      · by_cases hv : e.value ≠ 0
        · rw [if_pos (by simpa using hv)] at h
          simp only [Option.some.injEq] at h
          subst h
          simp only [tablet_unset_status, tablet_set_status, tablet_mark_all_axes_changed,
            Finset.mem_erase, Finset.mem_insert] at hf
          rcases hf.2 with hf | hf | hf
          · exact Or.inr (Or.inr (Or.inr (Or.inl ⟨hc, hv, hf⟩)))
          · exact Or.inr (Or.inl hf)
          · exact Or.inl hf
        · rw [if_neg (by simpa using hv)] at h
          simp only [Option.some.injEq] at h
          subst h
          simp only [tablet_set_status, Finset.mem_insert] at hf
          rcases hf with hf | hf
          · exact Or.inr (Or.inr (Or.inr (Or.inr (Or.inl ⟨hc, not_not.mp hv, hf⟩))))
          · exact Or.inl hf
  · simp only [Option.some.injEq] at h
    subst h
    obtain ⟨u1, u2⟩ := update_button_status
      (if e.code = BTN_TOUCH then
        if e.value ≠ 0 then tablet_set_status s.tablet TABLET_STYLUS_IN_CONTACT
        else tablet_unset_status s.tablet TABLET_STYLUS_IN_CONTACT
      else s.tablet) e.code (e.value % 2 ^ 32).toNat
    constructor
    · intro f hf
      rcases u1 f hf with hf1 | hf1
      · split at hf1
        · split at hf1
          · simp only [tablet_set_status, Finset.mem_insert] at hf1
            rcases hf1 with hf1 | hf1
            · exact Or.inr (Or.inr (Or.inl hf1))
            · exact Or.inl hf1
          · simp only [tablet_unset_status, Finset.mem_erase] at hf1
            exact Or.inl hf1.2
        · exact Or.inl hf1
      · exact Or.inr (Or.inr (Or.inr (Or.inr (Or.inr hf1))))
    · intro hb
      show (tablet_update_button _ _ _).button_state = _
      rw [u2 hb]
      split
      · split <;> rfl
      · rfl

theorem process_absolute_status (s : State) (e : input_event) :
    ∀ f ∈ (tablet_process_absolute s e).tablet.status,
      f ∈ s.tablet.status ∨ f = TABLET_AXES_UPDATED := by
  intro f hf
  unfold tablet_process_absolute at hf
  split at hf
  · split at hf
    · exact Or.inl hf
    · simp only [tablet_set_status, Finset.mem_insert] at hf
      rcases hf with hf | hf
      · exact Or.inr hf
      · exact Or.inl hf
  · split at hf <;> exact Or.inl hf

theorem process_misc_status (s : State) (e : input_event) :
    (tablet_process_misc s e).tablet.status = s.tablet.status := by
  unfold tablet_process_misc
  split
  · split <;> rfl
  · rfl

/-- How an event other than the synchronization marker changes the dispatcher:
which status flags it can set, and that it emits nothing and keeps the axis
values, the previous button set and, unless it is a button event, the button
set. -/
theorem process_non_syn_status (s s' : State) (e : input_event) (time : Nat)
    (hs : e.type ≠ EV_SYN) (h : tablet_process s e time = some s') :
    (∀ f ∈ s'.tablet.status,
      f ∈ s.tablet.status ∨ f = TABLET_AXES_UPDATED ∨ f = TABLET_STYLUS_IN_CONTACT
        ∨ (is_tool_event e ∧ e.value ≠ 0 ∧ f = TABLET_TOOL_ENTERING_PROXIMITY)
        ∨ (is_tool_event e ∧ e.value = 0 ∧ f = TABLET_TOOL_LEAVING_PROXIMITY)
        ∨ (is_button_event e ∧
            (f = TABLET_BUTTONS_PRESSED ∨ f = TABLET_BUTTONS_RELEASED))) ∧
    (¬ is_button_event e → s'.tablet.button_state = s.tablet.button_state) ∧
    s'.tablet.prev_button_state = s.tablet.prev_button_state ∧
    s'.libinput = s.libinput := by
  unfold tablet_process at h
  split at h
  · simp only [Option.some.injEq] at h
    subst h
    obtain ⟨f1, -, f3, -, f5⟩ := process_absolute_frame s e
    refine ⟨fun f hf => ?_, fun _ => f5, f3, f1⟩
    rcases process_absolute_status s e f hf with hf | hf
    · exact Or.inl hf
    · exact Or.inr (Or.inl hf)
  · split at h
    · rename_i hk
      obtain ⟨k1, k2⟩ := process_key_status s s' e h
      obtain ⟨f1, -, f3, -⟩ := process_key_frame s s' e h
      refine ⟨fun f hf => ?_, fun hb => k2 (fun hc => hb ⟨hk, hc⟩), f3, f1⟩
      rcases k1 f hf with hf | hf | hf | hf | hf | hf
      · exact Or.inl hf
      · exact Or.inr (Or.inl hf)
      · exact Or.inr (Or.inr (Or.inl hf))
      · exact Or.inr (Or.inr (Or.inr (Or.inl ⟨⟨hk, hf.1⟩, hf.2⟩)))
      · exact Or.inr (Or.inr (Or.inr (Or.inr (Or.inl ⟨⟨hk, hf.1⟩, hf.2⟩))))
      · exact Or.inr (Or.inr (Or.inr (Or.inr (Or.inr ⟨⟨hk, hf.1⟩, hf.2⟩))))
    · split at h
      · simp only [Option.some.injEq] at h
        subst h
        obtain ⟨f1, -, f3, -, f5⟩ := process_misc_frame s e
        refine ⟨fun f hf => Or.inl ?_, fun _ => f5, f3, f1⟩
        rw [process_misc_status] at hf
        exact hf
      · simp only [Option.some.injEq] at h
        subst h
        exact ⟨fun f hf => Or.inl hf, fun _ => rfl, rfl, rfl⟩

/-- The status flags after the first part of a flush when the tool is not leaving. -/
theorem flush_axes_status (s s1 : State) (time : Nat) (tool : tool_ptr)
    (hl : TABLET_TOOL_LEAVING_PROXIMITY ∉ s.tablet.status)
    (h : tablet_flush_axes s time tool = some s1) :
    s1.tablet.status =
      (s.tablet.status.erase TABLET_TOOL_ENTERING_PROXIMITY).erase TABLET_AXES_UPDATED := by
  unfold tablet_flush_axes at h
  rw [if_neg (by simpa [tablet_has_status] using hl)] at h
  split at h
  · cases hs2 : sanitize_tablet_axes s with
    | none => rw [hs2] at h; exact absurd h (by simp)
    | some s2 =>
      rw [hs2] at h
      dsimp only at h
      cases hs3 : tablet_check_notify_axes s2 time tool with
      | none => rw [hs3] at h; exact absurd h (by simp)
      | some s3 =>
        rw [hs3] at h
        simp only [Option.some.injEq] at h
        subst h
        have hst : s3.tablet.status = s.tablet.status :=
          (check_notify_axes_post _ _ _ _ hs3).2.1.trans (sanitize_post _ _ hs2).1
        simp only [tablet_unset_status, hst]
  · rename_i hnu
    simp only [Option.some.injEq] at h
    subst h
    simp only [tablet_has_status, Bool.or_eq_true, decide_eq_true_eq, not_or] at hnu
    rw [Finset.erase_eq_of_not_mem hnu.2, Finset.erase_eq_of_not_mem hnu.1]

/-- The status flags after a flush. -/
theorem flush_status (s s' : State) (time : Nat) (h : tablet_flush s time = some s') :
    s'.tablet.status =
      if TABLET_TOOL_LEAVING_PROXIMITY ∈ s.tablet.status then
        (insert TABLET_TOOL_OUT_OF_PROXIMITY
          ((s.tablet.status.erase TABLET_BUTTONS_RELEASED).erase TABLET_BUTTONS_PRESSED)).erase
          TABLET_TOOL_LEAVING_PROXIMITY
      else
        (((s.tablet.status.erase TABLET_TOOL_ENTERING_PROXIMITY).erase
          TABLET_AXES_UPDATED).erase TABLET_BUTTONS_RELEASED).erase TABLET_BUTTONS_PRESSED := by
  by_cases hl : TABLET_TOOL_LEAVING_PROXIMITY ∈ s.tablet.status
  · rw [flush_leaving_eq s time hl] at h
    simp only [Option.some.injEq] at h
    subst h
    have hl2 : TABLET_TOOL_LEAVING_PROXIMITY ∈ insert TABLET_BUTTONS_RELEASED s.tablet.status :=
      Finset.mem_insert_of_mem hl
    rw [flush_buttons_status, if_pos hl]
    simp only [tablet_set_status, get_tool_status]
    rw [if_pos hl2, Finset.erase_insert_eq_erase]
  · unfold tablet_flush at h
    dsimp only at h
    cases h1 : tablet_flush_axes (tablet_get_tool s s.tablet.current_tool_type
        s.tablet.current_tool_id s.tablet.current_tool_serial).2 time
        (tablet_get_tool s s.tablet.current_tool_type
        s.tablet.current_tool_id s.tablet.current_tool_serial).1 with
    | none => rw [h1] at h; exact absurd h (by simp)
    | some s1 =>
      rw [h1] at h
      simp only [Option.some.injEq] at h
      subst h
      have hst := flush_axes_status _ _ _ _ (by rw [get_tool_status]; exact hl) h1
      rw [get_tool_status] at hst
      have hl1 : TABLET_TOOL_LEAVING_PROXIMITY ∉ s1.tablet.status := by
        rw [hst]
        exact fun hm => hl (Finset.mem_of_mem_erase (Finset.mem_of_mem_erase hm))
      rw [flush_buttons_status, if_neg hl1, if_neg hl, hst]

/-! ## Entering and leaving proximity -/

theorem process_syn (s : State) (e : input_event) (time : Nat) (h : e.type = EV_SYN) :
    tablet_process s e time = tablet_flush s (time % 2 ^ 32) := by
  unfold tablet_process
  rw [if_neg (by rw [h]; decide), if_neg (by rw [h]; decide), if_neg (by rw [h]; decide),
    if_pos h]

theorem tablet_init_status (device : evdev_device) (li : libinput)
    (db : Option WacomDeviceDatabase) :
    (tablet_init device li db).tablet.status =
      {TABLET_TOOL_OUT_OF_PROXIMITY, TABLET_AXES_UPDATED} := rfl

theorem process_tool_key_leave (s : State) (e : input_event) (time : Nat)
    (ht : is_tool_event e) (hv : e.value = 0) :
    tablet_process s e time =
      some { s with tablet := tablet_set_status s.tablet TABLET_TOOL_LEAVING_PROXIMITY } := by
  obtain ⟨hk, hc⟩ := ht
  obtain ⟨t, h1, h2⟩ := evcode_to_tool_some e.code hc
  unfold tablet_process
  rw [if_neg (by rw [hk]; decide), if_pos hk]
  unfold tablet_process_key
  rw [if_pos hc, h1]
  simp only []
  unfold tablet_update_tool
  rw [if_neg h2, if_neg (by simp [hv])]

theorem deliver_frame_flags (f f' : Bool × Bool) (s s' : State) (r : raw_event)
    (hi : frame_flags_ok f s) (hf : frame_step f r.event = some f')
    (hd : deliver s r = some s') : frame_flags_ok f' s' := by
  obtain ⟨i1, i2, i3⟩ := hi
  unfold deliver at hd
  unfold frame_step at hf
  by_cases hsyn : r.event.type = EV_SYN
  · rw [if_pos hsyn] at hf
    simp only [Option.some.injEq] at hf
    subst hf
    rw [process_syn _ _ _ hsyn] at hd
    have hst := flush_status _ _ _ hd
    have hst2 : s'.tablet.status =
        if TABLET_TOOL_LEAVING_PROXIMITY ∈ s.tablet.status then
          (insert TABLET_TOOL_OUT_OF_PROXIMITY
            ((s.tablet.status.erase TABLET_BUTTONS_RELEASED).erase
              TABLET_BUTTONS_PRESSED)).erase TABLET_TOOL_LEAVING_PROXIMITY
        else
          (((s.tablet.status.erase TABLET_TOOL_ENTERING_PROXIMITY).erase
            TABLET_AXES_UPDATED).erase TABLET_BUTTONS_RELEASED).erase
            TABLET_BUTTONS_PRESSED := hst
    refine ⟨fun he => ?_, fun hl => ?_, by simp⟩
    · exfalso
      rw [hst2] at he
      by_cases hl : TABLET_TOOL_LEAVING_PROXIMITY ∈ s.tablet.status
      · rw [if_pos hl] at he
        simp only [Finset.mem_erase, Finset.mem_insert, reduceCtorEq, false_or, ne_eq,
          not_false_eq_true, true_and] at he
        exact i3 ⟨i1 he, i2 hl⟩
      · rw [if_neg hl] at he
        simp only [Finset.mem_erase, ne_eq, not_true_eq_false, false_and, and_false] at he
    · exfalso
      rw [hst2] at hl
      by_cases hl0 : TABLET_TOOL_LEAVING_PROXIMITY ∈ s.tablet.status
      · rw [if_pos hl0] at hl
        simp only [Finset.mem_erase, ne_eq, not_true_eq_false, false_and] at hl
      · rw [if_neg hl0] at hl
        simp only [Finset.mem_erase, ne_eq, reduceCtorEq, not_false_eq_true, true_and] at hl
        exact hl0 hl
  · rw [if_neg hsyn] at hf
    obtain ⟨p1, -, -, -⟩ := process_non_syn_status _ _ _ _ hsyn hd
    have p1 : ∀ f ∈ s'.tablet.status,
      f ∈ s.tablet.status ∨ f = TABLET_AXES_UPDATED ∨ f = TABLET_STYLUS_IN_CONTACT
        ∨ (is_tool_event r.event ∧ r.event.value ≠ 0 ∧ f = TABLET_TOOL_ENTERING_PROXIMITY)
        ∨ (is_tool_event r.event ∧ r.event.value = 0 ∧ f = TABLET_TOOL_LEAVING_PROXIMITY)
        ∨ (is_button_event r.event ∧
            (f = TABLET_BUTTONS_PRESSED ∨ f = TABLET_BUTTONS_RELEASED)) := p1
    have he : TABLET_TOOL_ENTERING_PROXIMITY ∈ s'.tablet.status →
        TABLET_TOOL_ENTERING_PROXIMITY ∈ s.tablet.status ∨
          (is_tool_event r.event ∧ r.event.value ≠ 0) := by
      intro hm
      rcases p1 _ hm with h | h | h | h | h | h
      · exact Or.inl h
      · exact absurd h (by decide)
      · exact absurd h (by decide)
      · exact Or.inr ⟨h.1, h.2.1⟩
      · exact absurd h.2.2 (by decide)
      · rcases h.2 with h | h <;> exact absurd h (by decide)
    have hl : TABLET_TOOL_LEAVING_PROXIMITY ∈ s'.tablet.status →
        TABLET_TOOL_LEAVING_PROXIMITY ∈ s.tablet.status ∨
          (is_tool_event r.event ∧ r.event.value = 0) := by
      intro hm
      rcases p1 _ hm with h | h | h | h | h | h
      · exact Or.inl h
      · exact absurd h (by decide)
      · exact absurd h (by decide)
      · exact absurd h.2.2 (by decide)
      · exact Or.inr ⟨h.1, h.2.1⟩
      · rcases h.2 with h | h <;> exact absurd h (by decide)
    by_cases ht : is_tool_event r.event
    · rw [if_pos ht] at hf
      by_cases hv : r.event.value ≠ 0
      · rw [if_pos hv] at hf
        by_cases h2 : f.2 = true
        · rw [if_pos h2] at hf
          exact absurd hf (by simp)
        · rw [if_neg h2] at hf
          simp only [Option.some.injEq] at hf
          subst hf
          refine ⟨fun _ => rfl, fun hm => ?_, by simp⟩
          rcases hl hm with h | h
          · exact absurd (i2 h) h2
          · exact absurd h.2 hv
      · rw [if_neg hv] at hf
        by_cases h1 : f.1 = true
        · rw [if_pos h1] at hf
          exact absurd hf (by simp)
        · rw [if_neg h1] at hf
          simp only [Option.some.injEq] at hf
          subst hf
          refine ⟨fun hm => ?_, fun _ => rfl, by simp⟩
          rcases he hm with h | h
          · exact absurd (i1 h) h1
          · exact absurd h.2 hv
    · rw [if_neg ht] at hf
      simp only [Option.some.injEq] at hf
      subst hf
      refine ⟨fun hm => ?_, fun hm => ?_, i3⟩
      · rcases he hm with h | h
        · exact i1 h
        · exact absurd h.1 ht
      · rcases hl hm with h | h
        · exact i2 h
        · exact absurd h.1 ht

theorem run_frame_flags (es : List raw_event) (f f' : Bool × Bool) (s s' : State)
    (hi : frame_flags_ok f s)
    (hscan : frame_scan f (es.map (fun r => r.event)) = some f')
    (hrun : run_events s es = some s') : frame_flags_ok f' s' := by
  induction es generalizing f s with
  | nil =>
    simp only [List.map_nil, frame_scan, Option.some.injEq] at hscan
    simp only [run_events, Option.some.injEq] at hrun
    subst hscan
    subst hrun
    exact hi
  | cons r rs ih =>
    simp only [List.map_cons, frame_scan] at hscan
    simp only [run_events] at hrun
    cases h1 : frame_step f r.event with
    | none => rw [h1] at hscan; exact absurd hscan (by simp)
    | some f1 =>
      rw [h1] at hscan
      cases h2 : deliver s r with
      | none => rw [h2] at hrun; exact absurd hrun (by simp)
      | some s1 =>
        rw [h2] at hrun
        exact ih f1 s1 (deliver_frame_flags f f1 s s1 r hi h1 h2) hscan hrun

theorem frame_scan_append (f : Bool × Bool) (es : List input_event) (e : input_event) :
    frame_scan f (es ++ [e]) = (frame_scan f es).bind (fun f1 => frame_step f1 e) := by
  induction es generalizing f with
  | nil =>
    simp only [List.nil_append, frame_scan, Option.some_bind]
    cases frame_step f e <;> rfl
  | cons x xs ih =>
    simp only [List.cons_append, frame_scan]
    cases frame_step f x with
    | none => rfl
    | some f1 => exact ih f1

/-- C20, amended: in every state reached from a freshly initialised dispatcher
by a sequence of raw events of which no frame holds both a tool-presence key
event with a value other than 0 and one with value 0, entering-proximity and
leaving-proximity are not both pending; and when the next event of such a
sequence is a tool-presence key event with value 0, entering-proximity is clear
before the event, and the event is processed, sets leaving-proximity and leaves
entering-proximity clear. -/
theorem entering_and_leaving_not_both (device : evdev_device) (li : libinput)
    (db : Option WacomDeviceDatabase) (es : List raw_event) (s : State)
    (hsep : frames_separate es)
    (hrun : run_events (tablet_init device li db) es = some s) :
    ¬ (TABLET_TOOL_ENTERING_PROXIMITY ∈ s.tablet.status ∧
        TABLET_TOOL_LEAVING_PROXIMITY ∈ s.tablet.status) ∧
    ∀ r : raw_event, is_tool_event r.event → r.event.value = 0 →
      frames_separate (es ++ [r]) →
      TABLET_TOOL_ENTERING_PROXIMITY ∉ s.tablet.status ∧
      ∃ s' : State, deliver s r = some s' ∧
        TABLET_TOOL_LEAVING_PROXIMITY ∈ s'.tablet.status ∧
        TABLET_TOOL_ENTERING_PROXIMITY ∉ s'.tablet.status := by
  have h0 : frame_flags_ok (false, false) (tablet_init device li db) := by
    refine ⟨fun h => ?_, fun h => ?_, by simp⟩
    · rw [tablet_init_status] at h
      exact absurd h (by decide)
    · rw [tablet_init_status] at h
      exact absurd h (by decide)
  unfold frames_separate at hsep
  obtain ⟨f, hf⟩ := Option.isSome_iff_exists.mp hsep
  obtain ⟨j1, j2, j3⟩ := run_frame_flags es _ f _ s h0 hf hrun
  refine ⟨fun hb => j3 ⟨j1 hb.1, j2 hb.2⟩, fun r ht hv hsep2 => ?_⟩
  unfold frames_separate at hsep2
  rw [List.map_append, List.map_singleton, frame_scan_append, hf, Option.some_bind] at hsep2
  have hf1 : f.1 ≠ true := by
    intro h1
    unfold frame_step at hsep2
    rw [if_neg (by rw [ht.1]; decide), if_pos ht, if_neg (by simp [hv]), if_pos h1] at hsep2
    exact absurd hsep2 (by simp)
  have hne : TABLET_TOOL_ENTERING_PROXIMITY ∉ s.tablet.status := fun h => hf1 (j1 h)
  refine ⟨hne, _, process_tool_key_leave _ r.event r.time ht hv, ?_, ?_⟩
  · simp [tablet_set_status]
  · simpa [tablet_set_status] using hne

/-! ## Frames without a button event -/

theorem first_shape_not_button (time : Nat) (tool : tool_ptr)
    (axes : libinput_tablet_axis → c_double) (first : List notification)
    (h : first_shape time tool axes first) : ∀ n ∈ first, n.is_button = false := by
  intro n hn
  rcases h with h | ⟨c, h | h⟩
  · rw [h] at hn
    exact absurd hn (by simp)
  · rw [h, List.mem_singleton] at hn
    rw [hn]
    rfl
  · rw [h, List.mem_singleton] at hn
    rw [hn]
    rfl

theorem flush_settled (s s' : State) (time : Nat) (hq : buttons_settled s)
    (h : tablet_flush s time = some s') :
    ∃ out, s'.libinput.events = s.libinput.events ++ out ∧ ∀ n ∈ out, n.is_button = false := by
  obtain ⟨-, hl, hp, hr⟩ := hq
  unfold tablet_flush at h
  dsimp only at h
  cases h1 : tablet_flush_axes (tablet_get_tool s s.tablet.current_tool_type
      s.tablet.current_tool_id s.tablet.current_tool_serial).2 time
      (tablet_get_tool s s.tablet.current_tool_type
      s.tablet.current_tool_id s.tablet.current_tool_serial).1 with
  | none => rw [h1] at h; exact absurd h (by simp)
  | some s1 =>
    rw [h1] at h
    simp only [Option.some.injEq] at h
    subst h
    obtain ⟨-, -, f1, f2, f3, first, e1, e2⟩ := flush_axes_shape _ _ _ _
      (by rw [get_tool_status]; exact hl) h1
    rw [get_tool_status] at f1 f2
    rw [get_tool_events] at e1
    refine ⟨first, ?_, first_shape_not_button _ _ _ _ e2⟩
    rw [flush_buttons_events, if_neg (fun hm => hr (f1.mp hm)), if_neg (fun hm => hp (f2.mp hm)),
      if_neg f3, e1]
    simp only [List.append_nil]

theorem deliver_settled (s s' : State) (r : raw_event) (hq : buttons_settled s)
    (hb : ¬ is_button_event r.event)
    (ht : ¬ (is_tool_event r.event ∧ r.event.value = 0))
    (h : deliver s r = some s') :
    buttons_settled s' ∧
    ∃ out, s'.libinput.events = s.libinput.events ++ out ∧ ∀ n ∈ out, n.is_button = false := by
  unfold deliver at h
  by_cases hsyn : r.event.type = EV_SYN
  · rw [process_syn _ _ _ hsyn] at h
    obtain ⟨p1, p2, p3, p4, -⟩ := flush_post _ _ _ h
    obtain ⟨out, o1, o2⟩ := flush_settled _ _ _
      (show buttons_settled { s with device := { s.device with evdev := r.evdev } } from hq) h
    exact ⟨⟨p1, p2, p3, p4⟩, out, o1, o2⟩
  · obtain ⟨q1, q2, q3, q4⟩ := hq
    obtain ⟨p1, p2, p3, p4⟩ := process_non_syn_status _ _ _ _ hsyn h
    have p1 : ∀ f ∈ s'.tablet.status,
      f ∈ s.tablet.status ∨ f = TABLET_AXES_UPDATED ∨ f = TABLET_STYLUS_IN_CONTACT
        ∨ (is_tool_event r.event ∧ r.event.value ≠ 0 ∧ f = TABLET_TOOL_ENTERING_PROXIMITY)
        ∨ (is_tool_event r.event ∧ r.event.value = 0 ∧ f = TABLET_TOOL_LEAVING_PROXIMITY)
        ∨ (is_button_event r.event ∧
            (f = TABLET_BUTTONS_PRESSED ∨ f = TABLET_BUTTONS_RELEASED)) := p1
    have p2 : s'.tablet.button_state = s.tablet.button_state := p2 hb
    have p3 : s'.tablet.prev_button_state = s.tablet.prev_button_state := p3
    have p4 : s'.libinput = s.libinput := p4
    refine ⟨⟨by rw [p2, p3]; exact q1, fun hm => ?_, fun hm => ?_, fun hm => ?_⟩,
      [], by rw [p4, List.append_nil], fun n hn => absurd hn (by simp)⟩
    · rcases p1 _ hm with h | h | h | h | h | h
      · exact q2 h
      · exact absurd h (by decide)
      · exact absurd h (by decide)
      · exact absurd h.2.2 (by decide)
      · exact ht ⟨h.1, h.2.1⟩
      · exact hb h.1
    · rcases p1 _ hm with h | h | h | h | h | h
      · exact q3 h
      · exact absurd h (by decide)
      · exact absurd h (by decide)
      · exact absurd h.2.2 (by decide)
      · exact absurd h.2.2 (by decide)
      · exact hb h.1
    · rcases p1 _ hm with h | h | h | h | h | h
      · exact q4 h
      · exact absurd h (by decide)
      · exact absurd h (by decide)
      · exact absurd h.2.2 (by decide)
      · exact absurd h.2.2 (by decide)
      · exact hb h.1

theorem run_settled (es : List raw_event) (s s' : State) (hq : buttons_settled s)
    (he : ∀ r ∈ es, ¬ is_button_event r.event ∧ ¬ (is_tool_event r.event ∧ r.event.value = 0))
    (h : run_events s es = some s') :
    ∃ out, s'.libinput.events = s.libinput.events ++ out ∧ ∀ n ∈ out, n.is_button = false := by
  induction es generalizing s with
  | nil =>
    simp only [run_events, Option.some.injEq] at h
    subst h
    exact ⟨[], by simp, fun n hn => absurd hn (by simp)⟩
  | cons r rs ih =>
    simp only [run_events] at h
    cases h1 : deliver s r with
    | none => rw [h1] at h; exact absurd h (by simp)
    | some s1 =>
      rw [h1] at h
      obtain ⟨hr1, hr2⟩ := he r (List.mem_cons_self r rs)
      obtain ⟨q1, out1, o1, o2⟩ := deliver_settled s s1 r hq hr1 hr2 h1
      obtain ⟨out2, o3, o4⟩ := ih s1 q1 (fun x hx => he x (List.mem_cons_of_mem r hx)) h
      refine ⟨out1 ++ out2, by rw [o3, o1, List.append_assoc], fun n hn => ?_⟩
      rcases List.mem_append.mp hn with hn | hn
      · exact o2 n hn
      · exact o4 n hn

/-- C14, amended: after a flush the previous button set equals the current one,
so the pressed and the released buttons are both the empty set; and the events
that follow emit no button notification as long as none of them is a button
event or a tool-presence key event with value 0. -/
theorem no_button_report_after_flush (s0 s1 s2 : State) (t0 : Nat) (es : List raw_event)
    (hflush : tablet_flush s0 t0 = some s1)
    (he : ∀ r ∈ es, ¬ is_button_event r.event ∧ ¬ (is_tool_event r.event ∧ r.event.value = 0))
    (hrun : run_events s1 es = some s2) :
    s1.tablet.prev_button_state = s1.tablet.button_state ∧
    tablet_get_pressed_buttons s1.tablet = ∅ ∧
    tablet_get_released_buttons s1.tablet = ∅ ∧
    ∃ out, s2.libinput.events = s1.libinput.events ++ out ∧
      ∀ n ∈ out, n.is_button = false := by
  obtain ⟨p1, p2, p3, p4, -⟩ := flush_post _ _ _ hflush
  refine ⟨p1, ?_, ?_, run_settled es s1 s2 ⟨p1, p2, p3, p4⟩ he hrun⟩
  · unfold tablet_get_pressed_buttons
    rw [p1]
    exact Finset.sdiff_self _
  · unfold tablet_get_released_buttons
    rw [p1]
    exact Finset.sdiff_self _

/-! ## The button flags along a sequence of events -/

/-- A step that keeps the two button sets and the two button flags keeps the
agreement of the flags with the sets. -/
theorem button_flags_pending_of_same (s s' : State)
    (hb : s'.tablet.button_state = s.tablet.button_state)
    (hp : s'.tablet.prev_button_state = s.tablet.prev_button_state)
    (hr : TABLET_BUTTONS_RELEASED ∈ s.tablet.status → TABLET_BUTTONS_RELEASED ∈ s'.tablet.status)
    (hq : TABLET_BUTTONS_PRESSED ∈ s.tablet.status → TABLET_BUTTONS_PRESSED ∈ s'.tablet.status)
    (h : button_flags_pending s) : button_flags_pending s' := by
  unfold button_flags_pending tablet_get_released_buttons tablet_get_pressed_buttons at *
  rw [hb, hp]
  exact ⟨fun hne => hr (h.1 hne), fun hne => hq (h.2 hne)⟩

theorem update_button_pending (s : State) (tablet1 : tablet_dispatch) (c en : Nat)
    (hb : tablet1.button_state = s.tablet.button_state)
    (hp : tablet1.prev_button_state = s.tablet.prev_button_state)
    (hr : TABLET_BUTTONS_RELEASED ∈ s.tablet.status → TABLET_BUTTONS_RELEASED ∈ tablet1.status)
    (hq : TABLET_BUTTONS_PRESSED ∈ s.tablet.status → TABLET_BUTTONS_PRESSED ∈ tablet1.status)
    (h : button_flags_pending s) :
    button_flags_pending { s with tablet := tablet_update_button tablet1 c en } := by
  unfold tablet_update_button
  split
  · split
    · rename_i hlt
      split
      · unfold button_flags_pending tablet_get_released_buttons tablet_get_pressed_buttons at *
        simp only [tablet_set_status, set_bit, Finset.mem_insert, true_or, implies_true,
          and_true, reduceCtorEq, false_or]
        intro hne
        refine hr (h.1 ?_)
        obtain ⟨x, hx⟩ := Finset.nonempty_iff_ne_empty.mpr hne
        refine Finset.nonempty_iff_ne_empty.mp ⟨x, ?_⟩
        rw [hp] at hx
        rw [Finset.mem_sdiff] at hx ⊢
        refine ⟨hx.1, fun hm => hx.2 ?_⟩
        rw [hb]
        exact Finset.mem_insert_of_mem hm
      · unfold button_flags_pending tablet_get_released_buttons tablet_get_pressed_buttons at *
        simp only [tablet_set_status, clear_bit, Finset.mem_insert, true_or, implies_true,
          true_and, reduceCtorEq, false_or]
        intro hne
        refine hq (h.2 ?_)
        obtain ⟨x, hx⟩ := Finset.nonempty_iff_ne_empty.mpr hne
        refine Finset.nonempty_iff_ne_empty.mp ⟨x, ?_⟩
        rw [hp, hb] at hx
        rw [Finset.mem_sdiff] at hx ⊢
        exact ⟨Finset.mem_of_mem_erase hx.1, hx.2⟩
    · exact button_flags_pending_of_same s _ hb hp hr hq h
  · exact button_flags_pending_of_same s _ hb hp hr hq h

theorem process_key_pending (s s' : State) (e : input_event)
    (hk : tablet_process_key s e = some s') (h : button_flags_pending s) :
    button_flags_pending s' := by
  unfold tablet_process_key at hk
  split at hk
  · split at hk
    · exact absurd hk (by simp)
    · obtain ⟨-, -, f3, f4, -⟩ := update_tool_frame _ _ _ _ hk
      refine button_flags_pending_of_same s s' f4 f3 ?_ ?_ h
      all_goals
        intro hm
        unfold tablet_update_tool at hk
        split at hk
        · exact absurd hk (by simp)
        · split at hk
          · simp only [Option.some.injEq] at hk
            subst hk
            simp only [tablet_unset_status, tablet_set_status, tablet_mark_all_axes_changed,
              Finset.mem_erase, Finset.mem_insert]
            exact ⟨by decide, Or.inr (Or.inr hm)⟩
          · simp only [Option.some.injEq] at hk
            subst hk
            simp only [tablet_set_status, Finset.mem_insert]
            exact Or.inr hm
  · simp only [Option.some.injEq] at hk
    subst hk
    refine update_button_pending s _ _ _ ?_ ?_ ?_ ?_ h
    · split
      · split <;> rfl
      · rfl
    · split
      · split <;> rfl
      · rfl
    · intro hm
      split
      · split
        · exact Finset.mem_insert_of_mem hm
        · exact Finset.mem_erase.mpr ⟨by decide, hm⟩
      · exact hm
    · intro hm
      split
      · split
        · exact Finset.mem_insert_of_mem hm
        · exact Finset.mem_erase.mpr ⟨by decide, hm⟩
      · exact hm

theorem process_pending (s s' : State) (e : input_event) (time : Nat)
    (hp : tablet_process s e time = some s') (h : button_flags_pending s) :
    button_flags_pending s' := by
  by_cases hsyn : e.type = EV_SYN
  · rw [process_syn _ _ _ hsyn] at hp
    obtain ⟨p1, -⟩ := flush_post _ _ _ hp
    unfold button_flags_pending tablet_get_released_buttons tablet_get_pressed_buttons
    rw [p1]
    simp
  · unfold tablet_process at hp
    split at hp
    · simp only [Option.some.injEq] at hp
      subst hp
      obtain ⟨-, -, f3, -, f5⟩ := process_absolute_frame s e
      refine button_flags_pending_of_same s _ f5 f3 ?_ ?_ h
      all_goals
        intro hm
        unfold tablet_process_absolute
        split
        · split
          · exact hm
          · exact Finset.mem_insert_of_mem hm
        · split <;> exact hm
    · split at hp
      · exact process_key_pending s s' e hp h
      · split at hp
        · simp only [Option.some.injEq] at hp
          subst hp
          obtain ⟨-, -, f3, -, f5⟩ := process_misc_frame s e
          refine button_flags_pending_of_same s _ f5 f3 ?_ ?_ h
          all_goals
            intro hm
            rw [process_misc_status]
            exact hm
        · simp only [hsyn, if_false, Option.some.injEq] at hp
          subst hp
          exact h

/-- In every state reached from a freshly initialised dispatcher the button
flags agree with the button sets. -/
theorem run_button_flags_pending (es : List raw_event) (s s' : State)
    (h : button_flags_pending s) (hrun : run_events s es = some s') :
    button_flags_pending s' := by
  induction es generalizing s with
  | nil =>
    simp only [run_events, Option.some.injEq] at hrun
    subst hrun
    exact h
  | cons r rs ih =>
    simp only [run_events] at hrun
    cases h1 : deliver s r with
    | none => rw [h1] at hrun; exact absurd hrun (by simp)
    | some s1 =>
      rw [h1] at hrun
      exact ih s1 (process_pending _ s1 r.event r.time h1 h) hrun

theorem tablet_init_button_flags_pending (device : evdev_device) (li : libinput)
    (db : Option WacomDeviceDatabase) : button_flags_pending (tablet_init device li db) := by
  have h1 : (tablet_init device li db).tablet.button_state = { stylus_buttons := ∅ } := rfl
  have h2 : (tablet_init device li db).tablet.prev_button_state = { stylus_buttons := ∅ } := rfl
  unfold button_flags_pending tablet_get_released_buttons tablet_get_pressed_buttons
  rw [h1, h2]
  simp

/-- C18: the notifications of one flush are, in this order, at most one
proximity IN or axis update, the RELEASED notifications (for the codes of the
previous set that are not in the current set, when a release is pending), the
PRESSED notifications (for the codes of the current set that are not in the
previous set, when a press is pending) and at most one proximity OUT; the two
sets of codes are disjoint, and when the pending flags agree with the button
sets, as they do in every state reached from a freshly initialised dispatcher,
every such code is reported. -/
theorem flush_notification_shape (s s' : State) (time : Nat)
    (h : tablet_flush s time = some s') :
    ∃ first rel prs last : List notification,
      s'.libinput.events = s.libinput.events ++ first ++ rel ++ prs ++ last ∧
      first_shape time (flush_tool s) s'.tablet.axes first ∧
      (TABLET_TOOL_LEAVING_PROXIMITY ∈ s.tablet.status → first = []) ∧
      rel = (if TABLET_TOOL_LEAVING_PROXIMITY ∈ s.tablet.status
            ∨ TABLET_BUTTONS_RELEASED ∈ s.tablet.status then
          button_events time (flush_tool s) s'.tablet.axes
            (s.tablet.prev_button_state.stylus_buttons \ flush_button_set s)
            LIBINPUT_BUTTON_STATE_RELEASED
        else []) ∧
      prs = (if TABLET_BUTTONS_PRESSED ∈ s.tablet.status then
          button_events time (flush_tool s) s'.tablet.axes
            (flush_button_set s \ s.tablet.prev_button_state.stylus_buttons)
            LIBINPUT_BUTTON_STATE_PRESSED
        else []) ∧
      last = (if TABLET_TOOL_LEAVING_PROXIMITY ∈ s.tablet.status then
          [notification.proximity time (flush_tool s) LIBINPUT_TOOL_PROXIMITY_OUT ∅
            s'.tablet.axes]
        else []) ∧
      Disjoint (s.tablet.prev_button_state.stylus_buttons \ flush_button_set s)
        (flush_button_set s \ s.tablet.prev_button_state.stylus_buttons) ∧
      (button_flags_pending s →
        rel = button_events time (flush_tool s) s'.tablet.axes
          (s.tablet.prev_button_state.stylus_buttons \ flush_button_set s)
          LIBINPUT_BUTTON_STATE_RELEASED ∧
        prs = button_events time (flush_tool s) s'.tablet.axes
          (flush_button_set s \ s.tablet.prev_button_state.stylus_buttons)
          LIBINPUT_BUTTON_STATE_PRESSED) ∧
      (∀ (device : evdev_device) (li : libinput) (db : Option WacomDeviceDatabase)
          (es : List raw_event),
        run_events (tablet_init device li db) es = some s → button_flags_pending s) := by
  have hreach : ∀ (device : evdev_device) (li : libinput) (db : Option WacomDeviceDatabase)
      (es : List raw_event),
      run_events (tablet_init device li db) es = some s → button_flags_pending s :=
    fun device li db es hrun =>
      run_button_flags_pending es _ s (tablet_init_button_flags_pending device li db) hrun
  have hdisj : Disjoint (s.tablet.prev_button_state.stylus_buttons \ flush_button_set s)
      (flush_button_set s \ s.tablet.prev_button_state.stylus_buttons) :=
    disjoint_sdiff_sdiff
  by_cases hl : TABLET_TOOL_LEAVING_PROXIMITY ∈ s.tablet.status
  · rw [flush_leaving_eq s time hl] at h
    simp only [Option.some.injEq] at h
    subst h
    have hfb : flush_button_set s = ∅ := by simp [flush_button_set, hl]
    refine ⟨[], _, _, _, ?_, Or.inl rfl, fun _ => rfl, rfl, rfl, rfl, hdisj, fun _ => ?_,
      hreach⟩
    · rw [flush_buttons_events, flush_buttons_axes, if_pos (Or.inl hl), if_pos hl, hfb,
        if_pos (by simp [tablet_set_status])]
      simp only [tablet_set_status, get_tool_status, get_tool_axes, get_tool_events,
        get_tool_prev_button_state, tablet_get_released_buttons, tablet_get_pressed_buttons,
        Finset.mem_insert, List.append_nil, List.append_assoc, flush_tool, reduceCtorEq,
        false_or]
      rw [if_pos hl, Finset.empty_sdiff, button_events_empty]
    · rw [hfb, if_pos (Or.inl hl)]
      refine ⟨rfl, ?_⟩
      rw [Finset.empty_sdiff, button_events_empty]
      split <;> rfl
  · have hfb : flush_button_set s = s.tablet.button_state.stylus_buttons := by
      simp [flush_button_set, hl]
    unfold flush_tool
    unfold tablet_flush at h
    dsimp only at h
    cases h1 : tablet_flush_axes (tablet_get_tool s s.tablet.current_tool_type
        s.tablet.current_tool_id s.tablet.current_tool_serial).2 time
        (tablet_get_tool s s.tablet.current_tool_type
        s.tablet.current_tool_id s.tablet.current_tool_serial).1 with
    | none => rw [h1] at h; exact absurd h (by simp)
    | some s1 =>
      rw [h1] at h
      simp only [Option.some.injEq] at h
      subst h
      obtain ⟨b1, b2, f1, f2, f3, first, e1, e2⟩ := flush_axes_shape _ _ _ _
        (by rw [get_tool_status]; exact hl) h1
      rw [get_tool_button_state] at b1
      rw [get_tool_prev_button_state] at b2
      rw [get_tool_status] at f1 f2
      rw [get_tool_events] at e1
      have hrel : tablet_get_released_buttons s1.tablet =
          s.tablet.prev_button_state.stylus_buttons \ flush_button_set s := by
        rw [hfb]; unfold tablet_get_released_buttons; rw [b1, b2]
      have hprs : tablet_get_pressed_buttons s1.tablet =
          flush_button_set s \ s.tablet.prev_button_state.stylus_buttons := by
        rw [hfb]; unfold tablet_get_pressed_buttons; rw [b1, b2]
      have hax := flush_buttons_axes s1 time (tablet_get_tool s s.tablet.current_tool_type
        s.tablet.current_tool_id s.tablet.current_tool_serial).1
      refine ⟨first, _, _, _, ?_, ?_, fun h' => absurd h' hl, rfl, rfl, rfl, hdisj,
        fun hwf => ?_, hreach⟩
      · rw [flush_buttons_events, hax, e1, hrel, hprs, if_neg f3, if_neg hl]
        simp only [hl, false_or, f1, f2, List.append_nil, List.append_assoc]
      · rw [hax]
        exact e2
      · obtain ⟨w1, w2⟩ := hwf
        constructor
        · by_cases hr : TABLET_BUTTONS_RELEASED ∈ s.tablet.status
          · rw [if_pos (Or.inr hr)]
          · have : tablet_get_released_buttons s.tablet = ∅ := by
              by_contra hne
              exact hr (w1 hne)
            rw [if_neg (by simp [hl, hr]), hfb]
            unfold tablet_get_released_buttons at this
            rw [this, button_events_empty]
        · by_cases hp : TABLET_BUTTONS_PRESSED ∈ s.tablet.status
          · rw [if_pos hp]
          · have : tablet_get_pressed_buttons s.tablet = ∅ := by
              by_contra hne
              exact hp (w2 hne)
            rw [if_neg hp, hfb]
            unfold tablet_get_pressed_buttons at this
            rw [this, button_events_empty]

/-! ## No axis report while the tool is out of proximity -/

theorem check_notify_axes_out (s s' : State) (time : Nat) (tool : tool_ptr)
    (ho : TABLET_TOOL_OUT_OF_PROXIMITY ∈ s.tablet.status ∨
      TABLET_TOOL_LEAVING_PROXIMITY ∈ s.tablet.status)
    (h : tablet_check_notify_axes s time tool = some s') :
    s'.libinput.events = s.libinput.events := by
  unfold tablet_check_notify_axes at h
  split at h
  · exact absurd h (by simp)
  · simp only [Option.some.injEq] at h
    subst h
    dsimp only
    split
    · rename_i hc
      exfalso
      rcases ho with ho | ho
      · simp [tablet_has_status, ho] at hc
      · simp [tablet_has_status, ho] at hc
    · rfl

theorem flush_axes_out (s s1 : State) (time : Nat) (tool : tool_ptr)
    (ho : TABLET_TOOL_OUT_OF_PROXIMITY ∈ s.tablet.status)
    (hl : TABLET_TOOL_LEAVING_PROXIMITY ∉ s.tablet.status)
    (h : tablet_flush_axes s time tool = some s1) :
    s1.libinput.events = s.libinput.events := by
  unfold tablet_flush_axes at h
  rw [if_neg (by simpa [tablet_has_status] using hl)] at h
  split at h
  · cases hs2 : sanitize_tablet_axes s with
    | none => rw [hs2] at h; exact absurd h (by simp)
    | some s2 =>
      rw [hs2] at h
      dsimp only at h
      cases hs3 : tablet_check_notify_axes s2 time tool with
      | none => rw [hs3] at h; exact absurd h (by simp)
      | some s3 =>
        rw [hs3] at h
        simp only [Option.some.injEq] at h
        subst h
        have hst : s2.tablet.status = s.tablet.status := (sanitize_post _ _ hs2).1
        show s3.libinput.events = _
        rw [check_notify_axes_out s2 s3 time tool (Or.inl (by rw [hst]; exact ho)) hs3,
          (sanitize_frame _ _ hs2).2]
  · simp only [Option.some.injEq] at h
    subst h
    rfl

theorem flush_buttons_no_axis (s : State) (time : Nat) (tool : tool_ptr) :
    ∃ out, (tablet_flush_buttons s time tool).libinput.events = s.libinput.events ++ out ∧
      ∀ n ∈ out, n.is_axis = false ∧ n.is_proximity_in = false := by
  have hb : ∀ (axes : libinput_tablet_axis → c_double) (b : Finset (Fin KEY_CNT))
      (st : libinput_button_state) (n : notification),
      n ∈ button_events time tool axes b st →
      n.is_axis = false ∧ n.is_proximity_in = false := by
    intro axes b st n hn
    unfold button_events at hn
    obtain ⟨i, -, rfl⟩ := List.mem_map.mp hn
    exact ⟨rfl, rfl⟩
  refine ⟨_, flush_buttons_events s time tool, fun n hn => ?_⟩
  simp only [List.mem_append] at hn
  rcases hn with (hn | hn) | hn
  · split at hn
    · exact hb _ _ _ _ hn
    · simp at hn
  · split at hn
    · exact hb _ _ _ _ hn
    · simp at hn
  · split at hn
    · simp only [List.mem_singleton] at hn
      subst hn
      exact ⟨rfl, rfl⟩
    · simp at hn

/-- A flush out of proximity with no button report pending emits nothing. -/
theorem flush_out_quiet (s s' : State) (time : Nat)
    (ho : TABLET_TOOL_OUT_OF_PROXIMITY ∈ s.tablet.status)
    (hl : TABLET_TOOL_LEAVING_PROXIMITY ∉ s.tablet.status)
    (hp : TABLET_BUTTONS_PRESSED ∉ s.tablet.status)
    (hr : TABLET_BUTTONS_RELEASED ∉ s.tablet.status)
    (h : tablet_flush s time = some s') :
    s'.libinput.events = s.libinput.events := by
  unfold tablet_flush at h
  dsimp only at h
  cases h1 : tablet_flush_axes (tablet_get_tool s s.tablet.current_tool_type
      s.tablet.current_tool_id s.tablet.current_tool_serial).2 time
      (tablet_get_tool s s.tablet.current_tool_type
      s.tablet.current_tool_id s.tablet.current_tool_serial).1 with
  | none => rw [h1] at h; exact absurd h (by simp)
  | some s1 =>
    rw [h1] at h
    simp only [Option.some.injEq] at h
    subst h
    have he := flush_axes_out _ _ _ _ (by rw [get_tool_status]; exact ho)
      (by rw [get_tool_status]; exact hl) h1
    rw [get_tool_events] at he
    obtain ⟨-, -, f1, f2, f3, -⟩ := flush_axes_shape _ _ _ _
      (by rw [get_tool_status]; exact hl) h1
    rw [get_tool_status] at f1 f2
    rw [flush_buttons_events, if_neg (fun hm => hr (f1.mp hm)), if_neg (fun hm => hp (f2.mp hm)),
      if_neg f3, he]
    simp only [List.append_nil]

theorem tablet_init_changed_axes (device : evdev_device) (li : libinput)
    (db : Option WacomDeviceDatabase) :
    (tablet_init device li db).tablet.changed_axes = device_axes device := by
  have h : all_axes.foldl (mark_axis_changed device) ∅ = ∅ ∪ device_axes device :=
    foldl_mark_eq device ∅
  rw [Finset.empty_union] at h
  exact h

/-- C21: a flush that starts with out-of-proximity or leaving-proximity set
emits neither an axis update nor a proximity IN, whatever axes are marked
changed, and it returns when leaving-proximity is set.  `tablet_init` marks
every axis of the device changed and sets out-of-proximity, and a
synchronization marker right after it emits no notification at all; that
flush returns when the sanitizer reads only samples the device has. -/
theorem no_axis_report_out_of_proximity (s : State) (time : Nat)
    (ho : TABLET_TOOL_OUT_OF_PROXIMITY ∈ s.tablet.status ∨
      TABLET_TOOL_LEAVING_PROXIMITY ∈ s.tablet.status) :
    (∀ s' : State, tablet_flush s time = some s' →
      ∃ out, s'.libinput.events = s.libinput.events ++ out ∧
        ∀ n ∈ out, n.is_axis = false ∧ n.is_proximity_in = false) ∧
    (TABLET_TOOL_LEAVING_PROXIMITY ∈ s.tablet.status →
      ∃ s' : State, tablet_flush s time = some s') ∧
    (∀ (device : evdev_device) (li : libinput) (db : Option WacomDeviceDatabase)
        (e : input_event) (t : Nat), e.type = EV_SYN →
      (tablet_init device li db).tablet.changed_axes = device_axes device ∧
      TABLET_TOOL_OUT_OF_PROXIMITY ∈ (tablet_init device li db).tablet.status ∧
      (∀ s' : State, tablet_process (tablet_init device li db) e t = some s' →
        s'.libinput.events = li.events) ∧
      (sanitize_reads_ok (tablet_init device li db) →
        ∃ s' : State, tablet_process (tablet_init device li db) e t = some s')) := by
  refine ⟨fun s' h => ?_, fun hl => ⟨_, flush_leaving_eq s time hl⟩,
    fun device li db e t hsyn => ?_⟩
  · by_cases hl : TABLET_TOOL_LEAVING_PROXIMITY ∈ s.tablet.status
    · rw [flush_leaving_eq s time hl] at h
      simp only [Option.some.injEq] at h
      subst h
      obtain ⟨out, o1, o2⟩ := flush_buttons_no_axis
        { (tablet_get_tool s s.tablet.current_tool_type s.tablet.current_tool_id
            s.tablet.current_tool_serial).2 with
          tablet := tablet_set_status
            { (tablet_get_tool s s.tablet.current_tool_type s.tablet.current_tool_id
                s.tablet.current_tool_serial).2.tablet with
              button_state := { stylus_buttons := ∅ } }
            TABLET_BUTTONS_RELEASED }
        time
        (tablet_get_tool s s.tablet.current_tool_type s.tablet.current_tool_id
          s.tablet.current_tool_serial).1
      refine ⟨out, ?_, o2⟩
      rw [o1]
      show (tablet_get_tool s s.tablet.current_tool_type s.tablet.current_tool_id
        s.tablet.current_tool_serial).2.libinput.events ++ out = _
      rw [get_tool_events]
    · have ho1 : TABLET_TOOL_OUT_OF_PROXIMITY ∈ s.tablet.status := by
        rcases ho with ho | ho
        · exact ho
        · exact absurd ho hl
      unfold tablet_flush at h
      dsimp only at h
      cases h1 : tablet_flush_axes (tablet_get_tool s s.tablet.current_tool_type
          s.tablet.current_tool_id s.tablet.current_tool_serial).2 time
          (tablet_get_tool s s.tablet.current_tool_type
          s.tablet.current_tool_id s.tablet.current_tool_serial).1 with
      | none => rw [h1] at h; exact absurd h (by simp)
      | some s1 =>
        rw [h1] at h
        simp only [Option.some.injEq] at h
        subst h
        have he := flush_axes_out _ _ _ _ (by rw [get_tool_status]; exact ho1)
          (by rw [get_tool_status]; exact hl) h1
        rw [get_tool_events] at he
        obtain ⟨out, o1, o2⟩ := flush_buttons_no_axis s1 time
          (tablet_get_tool s s.tablet.current_tool_type s.tablet.current_tool_id
            s.tablet.current_tool_serial).1
        exact ⟨out, by rw [o1, he], o2⟩
  · have hst := tablet_init_status device li db
    have hev : (tablet_init device li db).libinput.events = li.events := rfl
    have hout : TABLET_TOOL_OUT_OF_PROXIMITY ∈ (tablet_init device li db).tablet.status := by
      rw [hst]; decide
    have hlv : TABLET_TOOL_LEAVING_PROXIMITY ∉ (tablet_init device li db).tablet.status := by
      rw [hst]; decide
    refine ⟨tablet_init_changed_axes device li db, hout, fun s' h => ?_, fun hr => ?_⟩
    · rw [process_syn _ _ _ hsyn] at h
      rw [← hev]
      exact flush_out_quiet _ _ _ hout hlv (by rw [hst]; decide) (by rw [hst]; decide) h
    · rw [process_syn _ _ _ hsyn]
      obtain ⟨s', hs', -⟩ := flush_axes_branch (tablet_init device li db) (t % 2 ^ 32) hlv
        (Or.inl (by rw [hst]; decide)) hr
        (fun a ha => (mem_device_axes device a).mp (by
          have := sanitized_changed_subset _ _ _ _ ha
          rw [tablet_init_changed_axes] at this
          exact this))
      exact ⟨s', hs'⟩

/-! ## Changed axes have axes-updated pending -/

theorem process_non_syn_axes_flag (s s' : State) (e : input_event) (time : Nat)
    (hs : e.type ≠ EV_SYN) (h : tablet_process s e time = some s') (hi : axes_flag_ok s) :
    axes_flag_ok s' := by
  unfold axes_flag_ok at *
  unfold tablet_process at h
  split at h
  · simp only [Option.some.injEq] at h
    subst h
    unfold tablet_process_absolute
    split
    · split
      · exact hi
      · intro _
        exact Finset.mem_insert_self _ _
    · split <;> exact hi
  · split at h
    · unfold tablet_process_key at h
      split at h
      · split at h
        · exact absurd h (by simp)
        · unfold tablet_update_tool at h
          split at h
          · exact absurd h (by simp)
          · split at h
            · simp only [Option.some.injEq] at h
              subst h
              intro _
              show TABLET_AXES_UPDATED ∈ (insert TABLET_TOOL_ENTERING_PROXIMITY
                (insert TABLET_AXES_UPDATED s.tablet.status)).erase TABLET_TOOL_OUT_OF_PROXIMITY
              exact Finset.mem_erase.mpr ⟨by decide,
                Finset.mem_insert_of_mem (Finset.mem_insert_self _ _)⟩
            · simp only [Option.some.injEq] at h
              subst h
              intro hne
              exact Finset.mem_insert_of_mem (hi hne)
      · simp only [Option.some.injEq] at h
        subst h
        obtain ⟨-, -, -, u4⟩ := update_button_frame
          (if e.code = BTN_TOUCH then
            if e.value ≠ 0 then tablet_set_status s.tablet TABLET_STYLUS_IN_CONTACT
            else tablet_unset_status s.tablet TABLET_STYLUS_IN_CONTACT
          else s.tablet) e.code (e.value % 2 ^ 32).toNat
        have hch : (if e.code = BTN_TOUCH then
            if e.value ≠ 0 then tablet_set_status s.tablet TABLET_STYLUS_IN_CONTACT
            else tablet_unset_status s.tablet TABLET_STYLUS_IN_CONTACT
          else s.tablet).changed_axes = s.tablet.changed_axes := by
          split
          · split <;> rfl
          · rfl
        have hst : TABLET_AXES_UPDATED ∈ s.tablet.status →
            TABLET_AXES_UPDATED ∈ (if e.code = BTN_TOUCH then
              if e.value ≠ 0 then tablet_set_status s.tablet TABLET_STYLUS_IN_CONTACT
              else tablet_unset_status s.tablet TABLET_STYLUS_IN_CONTACT
            else s.tablet).status := by
          intro hm
          split
          · split
            · exact Finset.mem_insert_of_mem hm
            · exact Finset.mem_erase.mpr ⟨by decide, hm⟩
          · exact hm
        intro hne
        have hne2 : s.tablet.changed_axes ≠ ∅ := by
          rw [← hch, ← u4]
          exact hne
        have hm := hst (hi hne2)
        show TABLET_AXES_UPDATED ∈ (tablet_update_button _ _ _).status
        unfold tablet_update_button
        split
        · split
          · split
            · exact Finset.mem_insert_of_mem hm
            · exact Finset.mem_insert_of_mem hm
          · exact hm
        · exact hm
    · split at h
      · simp only [Option.some.injEq] at h
        subst h
        unfold tablet_process_misc
        split
        · split <;> exact hi
        · exact hi
      · simp only [hs, if_false, Option.some.injEq] at h
        subst h
        exact hi

theorem flush_axes_changed (s s1 : State) (time : Nat) (tool : tool_ptr)
    (hl : TABLET_TOOL_LEAVING_PROXIMITY ∉ s.tablet.status) (hi : axes_flag_ok s)
    (h : tablet_flush_axes s time tool = some s1) : s1.tablet.changed_axes = ∅ := by
  unfold tablet_flush_axes at h
  rw [if_neg (by simpa [tablet_has_status] using hl)] at h
  split at h
  · cases hs2 : sanitize_tablet_axes s with
    | none => rw [hs2] at h; exact absurd h (by simp)
    | some s2 =>
      rw [hs2] at h
      dsimp only at h
      cases hs3 : tablet_check_notify_axes s2 time tool with
      | none => rw [hs3] at h; exact absurd h (by simp)
      | some s3 =>
        rw [hs3] at h
        simp only [Option.some.injEq] at h
        subst h
        exact (check_notify_axes_post _ _ _ _ hs3).1
  · rename_i hnu
    simp only [Option.some.injEq] at h
    subst h
    simp only [tablet_has_status, Bool.or_eq_true, decide_eq_true_eq, not_or] at hnu
    by_contra hne
    exact hnu.1 (hi hne)

/-- After a flush of a state in which changed axes have axes-updated pending
no axis is marked changed. -/
theorem flush_changed_axes_empty (s s' : State) (time : Nat) (hi : axes_flag_ok s)
    (h : tablet_flush s time = some s') : s'.tablet.changed_axes = ∅ := by
  by_cases hl : TABLET_TOOL_LEAVING_PROXIMITY ∈ s.tablet.status
  · rw [flush_leaving_eq s time hl] at h
    simp only [Option.some.injEq] at h
    subst h
    rw [flush_buttons_changed_axes, if_pos]
    simp only [tablet_set_status, get_tool_status]
    exact Finset.mem_insert_of_mem hl
  · unfold tablet_flush at h
    dsimp only at h
    cases h1 : tablet_flush_axes (tablet_get_tool s s.tablet.current_tool_type
        s.tablet.current_tool_id s.tablet.current_tool_serial).2 time
        (tablet_get_tool s s.tablet.current_tool_type
        s.tablet.current_tool_id s.tablet.current_tool_serial).1 with
    | none => rw [h1] at h; exact absurd h (by simp)
    | some s1 =>
      rw [h1] at h
      simp only [Option.some.injEq] at h
      subst h
      have hc := flush_axes_changed _ _ _ _ (by rw [get_tool_status]; exact hl)
        (by unfold axes_flag_ok; rw [get_tool_status, get_tool_changed_axes]; exact hi) h1
      rw [flush_buttons_changed_axes, hc]
      split <;> rfl

theorem deliver_axes_flag (s s' : State) (r : raw_event) (hi : axes_flag_ok s)
    (h : deliver s r = some s') : axes_flag_ok s' := by
  unfold deliver at h
  by_cases hsyn : r.event.type = EV_SYN
  · rw [process_syn _ _ _ hsyn] at h
    have hc := flush_changed_axes_empty _ s' _
      (show axes_flag_ok { s with device := { s.device with evdev := r.evdev } } from hi) h
    intro hne
    exact absurd hc hne
  · exact process_non_syn_axes_flag _ s' r.event r.time hsyn h hi

theorem run_axes_flag (es : List raw_event) (s s' : State) (hi : axes_flag_ok s)
    (hrun : run_events s es = some s') : axes_flag_ok s' := by
  induction es generalizing s with
  | nil =>
    simp only [run_events, Option.some.injEq] at hrun
    subst hrun
    exact hi
  | cons r rs ih =>
    simp only [run_events] at hrun
    cases h1 : deliver s r with
    | none => rw [h1] at hrun; exact absurd hrun (by simp)
    | some s1 =>
      rw [h1] at hrun
      exact ih s1 (deliver_axes_flag s s1 r hi h1) hrun

/-- C22: in every state reached from a freshly initialised dispatcher by raw
events, a non-empty changed-axes set has axes-updated pending; and after a
flush of such a state no axis is marked changed and buttons-pressed,
buttons-released and leaving-proximity are clear. -/
theorem changed_axes_have_axes_updated (device : evdev_device) (li : libinput)
    (db : Option WacomDeviceDatabase) (es : List raw_event) (s : State)
    (hrun : run_events (tablet_init device li db) es = some s) :
    (s.tablet.changed_axes ≠ ∅ → TABLET_AXES_UPDATED ∈ s.tablet.status) ∧
    ∀ (time : Nat) (s' : State), tablet_flush s time = some s' →
      s'.tablet.changed_axes = ∅ ∧
      TABLET_BUTTONS_PRESSED ∉ s'.tablet.status ∧
      TABLET_BUTTONS_RELEASED ∉ s'.tablet.status ∧
      TABLET_TOOL_LEAVING_PROXIMITY ∉ s'.tablet.status := by
  have h0 : axes_flag_ok (tablet_init device li db) := by
    intro _
    rw [tablet_init_status]
    decide
  have hi : axes_flag_ok s := run_axes_flag es _ s h0 hrun
  refine ⟨hi, fun time s' h => ?_⟩
  obtain ⟨-, p2, p3, p4, -⟩ := flush_post _ _ _ h
  exact ⟨flush_changed_axes_empty s s' time hi h, p3, p4, p2⟩

/-! ## Instances -/

/-- C1 at a concrete state: the pen leaves proximity with the stylus button held. -/
theorem leaving_flush_witness :
    TABLET_TOOL_LEAVING_PROXIMITY ∈ leaving_state.tablet.status ∧
    ∃ (s' : State) (codes : List (Fin KEY_CNT)),
      tablet_flush leaving_state 7 = some s' ∧
      codes.Pairwise (· < ·) ∧
      (∀ b, b ∈ codes ↔ b ∈ leaving_state.tablet.prev_button_state.stylus_buttons) ∧
      s'.libinput.events = leaving_state.libinput.events ++
        codes.map (fun b => notification.button 7
          (tablet_get_tool leaving_state leaving_state.tablet.current_tool_type
            leaving_state.tablet.current_tool_id leaving_state.tablet.current_tool_serial).1
          leaving_state.tablet.axes b.val LIBINPUT_BUTTON_STATE_RELEASED) ++
        [notification.proximity 7
          (tablet_get_tool leaving_state leaving_state.tablet.current_tool_type
            leaving_state.tablet.current_tool_id leaving_state.tablet.current_tool_serial).1
          LIBINPUT_TOOL_PROXIMITY_OUT ∅ leaving_state.tablet.axes] :=
  ⟨by decide, leaving_flush_releases_then_proximity_out leaving_state 7 (by decide)⟩

/-- C2, amended, at a concrete state: the pen enters proximity of the example device. -/
theorem entering_proximity_witness :
    TABLET_TOOL_OUT_OF_PROXIMITY ∈ out_of_proximity_state.tablet.status ∧
    ∃ (s1 s2 : State) (tool : tool_ptr) (axes : libinput_tablet_axis → c_double)
      (rest : List notification),
      tablet_process out_of_proximity_state ⟨EV_KEY, BTN_TOOL_PEN, 1⟩ 3 = some s1 ∧
      tablet_process s1 ⟨EV_SYN, 0, 0⟩ 4 = some s2 ∧
      s2.libinput.events = out_of_proximity_state.libinput.events ++
        notification.proximity (4 % 2 ^ 32) tool LIBINPUT_TOOL_PROXIMITY_IN
          (sanitized_changed_axes out_of_proximity_state.device
            out_of_proximity_state.tablet.status out_of_proximity_state.tablet.axes
            (device_axes out_of_proximity_state.device))
          axes :: rest :=
  ⟨by decide, entering_proximity_changed_axes out_of_proximity_state ⟨EV_KEY, BTN_TOOL_PEN, 1⟩
    3 4 (by decide) (by decide) (by decide) rfl (Or.inl rfl) rfl (by decide) (by decide)⟩

/-- C3 at a concrete state: the stylus button is pressed after a first flush. -/
theorem press_then_sync_witness :
    tablet_flush out_of_proximity_state 0 = some flushed_state ∧
    ∃ s1 s2 : State,
      tablet_process flushed_state ⟨EV_KEY, BTN_STYLUS, 1⟩ 1 = some s1 ∧
      tablet_process s1 ⟨EV_SYN, 0, 0⟩ 2 = some s2 ∧
      s2.libinput.events = flushed_state.libinput.events ++
        [notification.button (2 % 2 ^ 32) (flush_tool s1) flushed_state.tablet.axes BTN_STYLUS
          LIBINPUT_BUTTON_STATE_PRESSED] :=
  ⟨rfl, press_then_sync_emits_one_pressed out_of_proximity_state flushed_state 0 1 2 BTN_STYLUS
    ⟨EV_SYN, 0, 0⟩ rfl (by decide) (by decide) rfl⟩

/-- C4, amended, at the scenario of the spec: distance 50 and pressure 10 on
ranges 0..100 give distance 0, not changed, and pressure 1/10, changed. -/
theorem sanitizer_rule1_witness :
    ∃ (s' : State) (n : notification) (rest : List notification),
      tablet_flush scenario_state 0 = some s' ∧
      s'.libinput.events = n :: rest ∧
      n.axes DISTANCE = 0 ∧ DISTANCE ∉ n.changed_axes ∧
      PRESSURE ∈ n.changed_axes ∧ n.axes PRESSURE = c_double.finite (1 / 10) := by
  obtain ⟨s', out, hf, hev, -, hall, hp⟩ :=
    (sanitizer_rule1_suppresses_distance scenario_state 0 ⟨50, 0, 100⟩ ⟨10, 0, 100⟩ rfl rfl
      (by decide) (by decide)).2 (by decide) (by decide) (by decide) (Or.inl (by decide))
      (by decide)
  obtain ⟨-, n, rest, ho, hm, hv⟩ :=
    (hp (by decide)).2 (by decide) (by decide) (by decide) (by decide)
  have hn := hall n (by rw [ho]; exact List.mem_cons_self n rest)
  refine ⟨s', n, rest, hf, ?_, hn.1, hn.2, hm, ?_⟩
  · rw [hev, ho]
    rfl
  · rw [hv]
    norm_num

/-- C7 at concrete states: two dispatchers resolve the pen with serial 12345. -/
theorem same_global_tool_witness :
    (12345 : Nat) ≠ 0 ∧
    (tablet_get_tool
      { tablet := leaving_state.tablet, device := leaving_state.device,
        libinput := (tablet_get_tool out_of_proximity_state PEN 1 12345).2.libinput,
        libwacom := none } PEN 2 12345).1 =
      (tablet_get_tool out_of_proximity_state PEN 1 12345).1 :=
  ⟨by decide, (same_global_tool_with_serial out_of_proximity_state leaving_state.tablet
    leaving_state.device none PEN 1 2 12345 (by decide)).1⟩

/-- C8 at a concrete state: a new pen on the example device. -/
theorem new_tool_capabilities_witness :
    out_of_proximity_state.tablet.axis_caps =
      (tablet_init out_of_proximity_state.device out_of_proximity_state.libinput
        out_of_proximity_state.libwacom).tablet.axis_caps ∧
    ∀ a ∈ (tool_set_bits out_of_proximity_state ⟨PEN, 0, 0, 1, ∅, ∅⟩).axis_caps,
      tablet_device_has_axis out_of_proximity_state.device a = true :=
  ⟨by decide, (new_tool_capabilities_within_device out_of_proximity_state PEN 0 0).2.2
    (by decide)⟩

/-- C9 at a concrete state: a new pen on the example device, without database. -/
theorem fallback_capabilities_witness :
    out_of_proximity_state.libwacom = none ∧
    (tool_set_bits out_of_proximity_state ⟨PEN, 0, 0, 1, ∅, ∅⟩).axis_caps =
      {PRESSURE, DISTANCE, TILT_X, TILT_Y} ∩ out_of_proximity_state.tablet.axis_caps ∧
    (tool_set_bits out_of_proximity_state ⟨PEN, 0, 0, 1, ∅, ∅⟩).buttons =
      ({BTN_STYLUS, BTN_STYLUS2, BTN_TOUCH} : Finset Nat).filter
        (fun b => libevdev_has_event_code out_of_proximity_state.device.evdev EV_KEY b = true) :=
  ⟨rfl,
    ((fallback_capabilities_by_type out_of_proximity_state PEN 0 0 (Or.inl rfl)).1
      (Or.inl rfl)).1,
    ((fallback_capabilities_by_type out_of_proximity_state PEN 0 0 (Or.inl rfl)).1
      (Or.inl rfl)).2.2⟩

/-- C10 at a concrete state: the pending orientation change is applied by the
flush that takes the pen out of proximity. -/
theorem left_handed_witness :
    ∃ s' : State,
      tablet_process leaving_state ⟨EV_SYN, 0, 0⟩ 0 = some s' ∧
      s'.device.left_handed_enabled ≠ leaving_state.device.left_handed_enabled ∧
      TABLET_TOOL_OUT_OF_PROXIMITY ∈ s'.tablet.status ∧
      s'.device.left_handed_enabled = s'.device.left_handed_want_enabled := by
  have hp : tablet_process leaving_state ⟨EV_SYN, 0, 0⟩ 0 = tablet_flush leaving_state 0 := rfl
  have hf := hp.trans (flush_leaving_eq leaving_state 0 (by decide))
  refine ⟨_, hf, ?_, ?_⟩
  · rw [flush_buttons_device]
    decide
  · refine ((left_handed_changes_only_at_proximity_out leaving_state ⟨EV_SYN, 0, 0⟩ 0).2 _
      hf ?_).2.2
    rw [flush_buttons_device]
    decide

/-- C11 at a concrete state: a press of the stylus button emits nothing. -/
theorem only_flush_emits_witness :
    (⟨EV_KEY, BTN_STYLUS, 1⟩ : input_event).type ≠ EV_SYN ∧
    ∃ s' : State, tablet_process out_of_proximity_state ⟨EV_KEY, BTN_STYLUS, 1⟩ 0 = some s' ∧
      s'.libinput.events = out_of_proximity_state.libinput.events ∧
      s'.tablet.axes = out_of_proximity_state.tablet.axes ∧
      s'.tablet.prev_button_state = out_of_proximity_state.tablet.prev_button_state :=
  ⟨by decide, only_flush_emits out_of_proximity_state ⟨EV_KEY, BTN_STYLUS, 1⟩ 0 (by decide)⟩

/-- C12, amended, at the sample 10 on the range 0..100. -/
theorem normalize_bounds_witness :
    (0 : Int) < 100 ∧ (0 : Int) ≤ 10 ∧ (10 : Int) ≤ 100 ∧ (100 : Int) - 0 < 2 ^ 31 ∧
    (∃ q : ℚ, normalize_pressure_or_dist ⟨10, 0, 100⟩ = c_double.finite q ∧ 0 ≤ q ∧ q ≤ 1) ∧
    (∃ q : ℚ, normalize_tilt ⟨10, 0, 100⟩ = c_double.finite q ∧ -1 ≤ q ∧ q ≤ 1) :=
  ⟨by decide, by decide, by decide, by decide,
    normalize_bounds ⟨10, 0, 100⟩ (by decide) (by decide) (by decide) (by decide)⟩

/-- C13, amended, at the samples 10 and 20 on the range 0..100. -/
theorem normalize_monotone_witness :
    (0 : Int) < 100 ∧ (10 : Int) ≤ 20 ∧ (100 : Int) - 0 < 2 ^ 31 ∧
    -2 ^ 31 ≤ (10 : Int) - 0 ∧ (20 : Int) - 0 < 2 ^ 31 ∧
    (∃ q1 q2 : ℚ, normalize_pressure_or_dist ⟨10, 0, 100⟩ = c_double.finite q1 ∧
      normalize_pressure_or_dist ⟨20, 0, 100⟩ = c_double.finite q2 ∧ q1 ≤ q2) ∧
    (∃ q1 q2 : ℚ, normalize_tilt ⟨10, 0, 100⟩ = c_double.finite q1 ∧
      normalize_tilt ⟨20, 0, 100⟩ = c_double.finite q2 ∧ q1 ≤ q2) :=
  ⟨by decide, by decide, by decide, by decide, by decide,
    normalize_monotone 0 100 10 20 (by decide) (by decide) (by decide) (by decide)
      (by decide)⟩

/-- C14, amended, at a concrete state: a frame with a pressure sample after a
flush with the stylus button held. -/
theorem no_button_report_witness :
    tablet_flush held_state 0 = some held_flushed_state ∧
    run_events held_flushed_state pressure_frame = some pressure_frame_state ∧
    tablet_get_pressed_buttons held_flushed_state.tablet = ∅ ∧
    tablet_get_released_buttons held_flushed_state.tablet = ∅ ∧
    ∃ out, pressure_frame_state.libinput.events = held_flushed_state.libinput.events ++ out ∧
      ∀ n ∈ out, n.is_button = false :=
  ⟨rfl, rfl,
    (no_button_report_after_flush held_state held_flushed_state pressure_frame_state 0
      pressure_frame rfl (by decide) rfl).2⟩

/-- C15 at a concrete state: the serial 5 is reported. -/
theorem serial_report_witness :
    (5 : Int) ≠ -1 ∧
    tablet_process out_of_proximity_state ⟨EV_MSC, MSC_SERIAL, 5⟩ 0 =
      some { out_of_proximity_state with tablet := { out_of_proximity_state.tablet with
        current_tool_serial := ((5 : Int) % 2 ^ 32).toNat } } :=
  ⟨by decide, (serial_report_sets_only_the_serial out_of_proximity_state 5 0).2.1 (by decide)⟩

/-- C17 at a concrete state: the pen is reported as present. -/
theorem tool_conversion_witness :
    (⟨EV_KEY, BTN_TOOL_PEN, 1⟩ : input_event).type = EV_KEY ∧
    ∃ s' : State, tablet_process out_of_proximity_state ⟨EV_KEY, BTN_TOOL_PEN, 1⟩ 0 = some s' :=
  ⟨rfl, (tool_conversion_never_aborts out_of_proximity_state ⟨EV_KEY, BTN_TOOL_PEN, 1⟩ 0).2.2.1
    rfl⟩

/-- C18 at a concrete state: the pen leaves proximity with the stylus button held. -/
theorem flush_notification_shape_witness :
    tablet_flush leaving_state 7 = some left_state ∧
    ∃ first rel prs last : List notification,
      left_state.libinput.events =
        leaving_state.libinput.events ++ first ++ rel ++ prs ++ last ∧
      first = [] ∧
      rel = button_events 7 (flush_tool leaving_state) left_state.tablet.axes
          (leaving_state.tablet.prev_button_state.stylus_buttons \ flush_button_set leaving_state)
          LIBINPUT_BUTTON_STATE_RELEASED ∧
      prs = [] ∧
      last = [notification.proximity 7 (flush_tool leaving_state) LIBINPUT_TOOL_PROXIMITY_OUT ∅
        left_state.tablet.axes] := by
  obtain ⟨first, rel, prs, last, h1, -, h3, h4, h5, h6, -⟩ :=
    flush_notification_shape leaving_state left_state 7 rfl
  refine ⟨rfl, first, rel, prs, last, h1, h3 (by decide), ?_, ?_, ?_⟩
  · rw [h4, if_pos (Or.inl (by decide))]
  · rw [h5, if_neg (by decide)]
  · rw [h6, if_pos (by decide)]

/-- C19 at a concrete state: a pressure sample while the pen hovers with a
stored pressure of 0. -/
theorem zero_pressure_witness :
    PRESSURE ∈ hover_zero_state.tablet.changed_axes ∧
    TABLET_STYLUS_IN_CONTACT ∉ hover_zero_state.tablet.status ∧
    ¬ rule1_applies hover_zero_state ∧
    hover_zero_state.tablet.axes PRESSURE = 0 ∧
    ∃ s1 s' : State, sanitize_tablet_axes hover_zero_state = some s1 ∧
      PRESSURE ∉ s1.tablet.changed_axes ∧
      tablet_flush hover_zero_state 0 = some s' ∧
      s'.tablet.axes PRESSURE = 0 ∧
      ∃ out, s'.libinput.events = hover_zero_state.libinput.events ++ out ∧
        ∀ n ∈ out, PRESSURE ∉ n.changed_axes ∧ n.axes PRESSURE = 0 :=
  ⟨by decide, by decide, fun h => absurd h.1 (by decide), rfl, _, _, rfl,
    ((zero_pressure_update_suppressed hover_zero_state 0 (by decide) (by decide)
      (fun h => absurd h.1 (by decide)) rfl).2.1 _ rfl).2.1,
    rfl,
    (zero_pressure_update_suppressed hover_zero_state 0 (by decide) (by decide)
      (fun h => absurd h.1 (by decide)) rfl).2.2.2 _ rfl⟩

/-- C20, amended, at a concrete run: the pen enters proximity, the frame is
flushed, and the pen leaves. -/
theorem entering_and_leaving_witness :
    frames_separate enter_then_leave ∧
    run_events initial_state enter_then_leave = some enter_then_leave_state ∧
    ¬ (TABLET_TOOL_ENTERING_PROXIMITY ∈ enter_then_leave_state.tablet.status ∧
        TABLET_TOOL_LEAVING_PROXIMITY ∈ enter_then_leave_state.tablet.status) :=
  ⟨rfl, rfl,
    (entering_and_leaving_not_both example_device { tool_list := [], next_tool := 0, events := [] }
      none enter_then_leave enter_then_leave_state rfl rfl).1⟩

/-- C21 at a concrete state: the first flush after `tablet_init`. -/
theorem no_axis_report_witness :
    (TABLET_TOOL_OUT_OF_PROXIMITY ∈ initial_state.tablet.status ∨
      TABLET_TOOL_LEAVING_PROXIMITY ∈ initial_state.tablet.status) ∧
    ∃ s' : State, tablet_flush initial_state 0 = some s' ∧
      ∃ out, s'.libinput.events = initial_state.libinput.events ++ out ∧
        ∀ n ∈ out, n.is_axis = false ∧ n.is_proximity_in = false :=
  ⟨Or.inl (by decide), _, rfl,
    (no_axis_report_out_of_proximity initial_state 0 (Or.inl (by decide))).1 _ rfl⟩

/-- C22 at a concrete run: the pen enters proximity, the frame is flushed, and
the pen leaves. -/
theorem changed_axes_witness :
    run_events initial_state enter_then_leave = some enter_then_leave_state ∧
    (enter_then_leave_state.tablet.changed_axes ≠ ∅ →
      TABLET_AXES_UPDATED ∈ enter_then_leave_state.tablet.status) ∧
    ∀ (time : Nat) (s' : State), tablet_flush enter_then_leave_state time = some s' →
      s'.tablet.changed_axes = ∅ ∧
      TABLET_BUTTONS_PRESSED ∉ s'.tablet.status ∧
      TABLET_BUTTONS_RELEASED ∉ s'.tablet.status ∧
      TABLET_TOOL_LEAVING_PROXIMITY ∉ s'.tablet.status :=
  ⟨rfl, changed_axes_have_axes_updated example_device
    { tool_list := [], next_tool := 0, events := [] } none enter_then_leave
    enter_then_leave_state rfl⟩

/-- C2, counterexample: the device reports distance 50 and pressure 10 on the
ranges 0..100 and no tool is in proximity.  The pen enters and the frame is
flushed: the only notification is a proximity IN whose changed-axes set is
`{PRESSURE}`, although the device supports distance as well. -/
theorem entering_proximity_counterexample :
    TABLET_TOOL_OUT_OF_PROXIMITY ∈ out_of_proximity_state.tablet.status ∧
    TABLET_TOOL_LEAVING_PROXIMITY ∉ out_of_proximity_state.tablet.status ∧
    tablet_device_has_axis out_of_proximity_state.device DISTANCE = true ∧
    DISTANCE ∉ ({PRESSURE} : Finset libinput_tablet_axis) ∧
    ∃ (s1 s2 : State) (tool : tool_ptr) (axes : libinput_tablet_axis → c_double),
      tablet_process out_of_proximity_state ⟨EV_KEY, BTN_TOOL_PEN, 1⟩ 0 = some s1 ∧
      tablet_process s1 ⟨EV_SYN, 0, 0⟩ 0 = some s2 ∧
      s2.libinput.events =
        [notification.proximity 0 tool LIBINPUT_TOOL_PROXIMITY_IN {PRESSURE} axes] :=
  ⟨by decide, by decide, rfl, by decide, _, _, _, _, rfl, rfl, rfl⟩

/-- C14, counterexample: the stylus button is held when a flush returns.  The
next frame holds no button event, only the pen going out of proximity, and its
flush emits a button RELEASED notification for the stylus button. -/
theorem tool_leave_frame_reports_button :
    tablet_flush held_state 0 = some held_flushed_state ∧
    ¬ is_button_event ⟨EV_KEY, BTN_TOOL_PEN, 0⟩ ∧
    ¬ is_button_event ⟨EV_SYN, 0, 0⟩ ∧
    deliver held_flushed_state (example_event ⟨EV_KEY, BTN_TOOL_PEN, 0⟩) =
      some held_leaving_state ∧
    ∃ (s3 : State) (tool : tool_ptr) (axes : libinput_tablet_axis → c_double),
      deliver held_leaving_state (example_event ⟨EV_SYN, 0, 0⟩) = some s3 ∧
      s3.libinput.events = held_flushed_state.libinput.events ++
        [notification.button 0 tool axes BTN_STYLUS LIBINPUT_BUTTON_STATE_RELEASED,
         notification.proximity 0 tool LIBINPUT_TOOL_PROXIMITY_OUT ∅ axes] := by
  have h1 : deliver held_leaving_state (example_event ⟨EV_SYN, 0, 0⟩) =
      tablet_flush held_leaving_state 0 := rfl
  have h2 := h1.trans (flush_leaving_eq held_leaving_state 0 (by decide))
  have hprev : held_leaving_state.tablet.prev_button_state.stylus_buttons =
      {⟨BTN_STYLUS, by decide⟩} := rfl
  have hst : held_leaving_state.tablet.status = {TABLET_TOOL_LEAVING_PROXIMITY} := rfl
  refine ⟨rfl, by decide, by decide, rfl, _, flush_tool held_leaving_state,
    held_leaving_state.tablet.axes, h2, ?_⟩
  rw [flush_buttons_events]
  simp only [tablet_set_status, get_tool_status, get_tool_axes, get_tool_events,
    get_tool_prev_button_state, tablet_get_released_buttons, Finset.sdiff_empty, hprev, hst]
  rw [if_pos (by decide), if_neg (by decide), if_pos (by decide), button_events_singleton]
  rfl

/-- C16: the first synchronization marker after `tablet_init` resolves the
current tool, whose type is still "none", and so creates a tool of type "none"
in the device-local list. -/
theorem first_flush_creates_none_tool :
    ∃ s : State,
      run_events initial_state [example_event ⟨EV_SYN, 0, 0⟩] = some s ∧
      s.tablet.tool_list.map (fun p => p.2.type) = [NONE] :=
  ⟨_, rfl, rfl⟩

/-- C20, counterexample: right after `tablet_init` the pen is reported present
and then absent before any synchronization marker.  Entering-proximity is
pending when the second event sets leaving-proximity, and both are pending
afterwards. -/
theorem entering_pending_when_leaving_set :
    ∃ s1 s2 : State,
      run_events initial_state [example_event ⟨EV_KEY, BTN_TOOL_PEN, 1⟩] = some s1 ∧
      TABLET_TOOL_ENTERING_PROXIMITY ∈ s1.tablet.status ∧
      TABLET_TOOL_LEAVING_PROXIMITY ∉ s1.tablet.status ∧
      run_events initial_state
        [example_event ⟨EV_KEY, BTN_TOOL_PEN, 1⟩, example_event ⟨EV_KEY, BTN_TOOL_PEN, 0⟩] =
        some s2 ∧
      TABLET_TOOL_ENTERING_PROXIMITY ∈ s2.tablet.status ∧
      TABLET_TOOL_LEAVING_PROXIMITY ∈ s2.tablet.status :=
  ⟨_, _, rfl, by decide, by decide, rfl, by decide, by decide⟩

/-- C12, counterexample: on the range -1500000000..1500000000, whose width is
above `INT_MAX`, the sample 1000000000 lies inside the range, yet both
subtractions wrap (to -1794967296 and -1294967296) and
`normalize_pressure_or_dist` and `normalize_tilt` are above 1. -/
theorem normalize_out_of_bounds_on_wide_range :
    (-1500000000 : Int) < 1500000000 ∧
    (-1500000000 : Int) ≤ 1000000000 ∧ (1000000000 : Int) ≤ 1500000000 ∧
    -2 ^ 31 ≤ (-1500000000 : Int) ∧ (1500000000 : Int) < 2 ^ 31 ∧
    int_sub 1000000000 (-1500000000) = -1794967296 ∧
    int_sub 1500000000 (-1500000000) = -1294967296 ∧
    normalize_pressure_or_dist ⟨1000000000, -1500000000, 1500000000⟩ =
      c_double.finite (1794967296 / 1294967296) ∧
    normalize_tilt ⟨1000000000, -1500000000, 1500000000⟩ =
      c_double.finite (1794967296 / 1294967296 * 2 - 1) ∧
    (1 : ℚ) < 1794967296 / 1294967296 ∧
    (1 : ℚ) < 1794967296 / 1294967296 * 2 - 1 := by
  refine ⟨by decide, by decide, by decide, by decide, by decide, by decide, by decide,
    ?_, ?_, by norm_num, by norm_num⟩
  · simp [normalize_pressure_or_dist, int_sub, wrap_int32, c_double.of_int, c_double.div]
  · simp [normalize_tilt, int_sub, wrap_int32, c_double.of_int, c_double.div, c_double.mul,
      c_double.sub]

/-- C13, counterexample: on the range 1..100 the raw values `INT_MIN` and 0
are in increasing order, yet the subtraction `INT_MIN - 1` wraps to `INT_MAX`
and both normalizers are larger at `INT_MIN` than at 0. -/
theorem normalize_not_monotone_at_wrap :
    (1 : Int) < 100 ∧ (-2147483648 : Int) ≤ 0 ∧
    int_sub (-2147483648) 1 = 2147483647 ∧
    normalize_pressure_or_dist ⟨-2147483648, 1, 100⟩ = c_double.finite (2147483647 / 99) ∧
    normalize_pressure_or_dist ⟨0, 1, 100⟩ = c_double.finite (-1 / 99) ∧
    normalize_tilt ⟨-2147483648, 1, 100⟩ = c_double.finite (2147483647 / 99 * 2 - 1) ∧
    normalize_tilt ⟨0, 1, 100⟩ = c_double.finite (-1 / 99 * 2 - 1) ∧
    (-1 / 99 : ℚ) < 2147483647 / 99 ∧
    (-1 / 99 * 2 - 1 : ℚ) < 2147483647 / 99 * 2 - 1 := by
  refine ⟨by decide, by decide, by decide, ?_, ?_, ?_, ?_, by norm_num, by norm_num⟩
  · simp [normalize_pressure_or_dist, int_sub, wrap_int32, c_double.of_int, c_double.div]
  · simp [normalize_pressure_or_dist, int_sub, wrap_int32, c_double.of_int, c_double.div]
  · simp [normalize_tilt, int_sub, wrap_int32, c_double.of_int, c_double.div, c_double.mul,
      c_double.sub]
  · simp [normalize_tilt, int_sub, wrap_int32, c_double.of_int, c_double.div, c_double.mul,
      c_double.sub]

/-- C4, counterexample: rule 1 applies on a device whose pressure range is
wider than `INT_MAX`.  The flush publishes the pressure 1794967296 / 1294967296,
which is not `(raw - min) / (max - min) = 5 / 6`.  On a range with
`min = max` the published value is not a number of the formula either: the
sample 10 on the range 0..0 gives `+inf`. -/
theorem wide_pressure_not_the_quotient :
    DISTANCE ∈ wide_pressure_state.tablet.changed_axes ∧
    PRESSURE ∈ wide_pressure_state.tablet.changed_axes ∧
    TABLET_TOOL_OUT_OF_PROXIMITY ∉ wide_pressure_state.tablet.status ∧
    TABLET_STYLUS_IN_CONTACT ∉ wide_pressure_state.tablet.status ∧
    raw_above_min wide_pressure_state.device ABS_DISTANCE = true ∧
    raw_above_min wide_pressure_state.device ABS_PRESSURE = true ∧
    (∃ (s' : State) (axes : libinput_tablet_axis → c_double),
      tablet_flush wide_pressure_state 0 = some s' ∧
      s'.libinput.events = [notification.axis 0 0 {PRESSURE} axes] ∧
      axes DISTANCE = 0 ∧
      axes PRESSURE = c_double.finite (1794967296 / 1294967296)) ∧
    (1794967296 / 1294967296 : ℚ) ≠
      ((1000000000 : ℚ) - (-1500000000)) / ((1500000000 : ℚ) - (-1500000000)) ∧
    normalize_pressure_or_dist ⟨10, 0, 0⟩ = c_double.pos_inf := by
  refine ⟨by decide, by decide, by decide, by decide, rfl, rfl, ⟨_, _, rfl, rfl, rfl, ?_⟩,
    by norm_num, by decide⟩
  simp [axis_value, libevdev_get_abs_info, wide_pressure_state, wide_pressure_device,
    scenario_state, axis_to_evcode, ABS_PRESSURE, ABS_DISTANCE, normalize_pressure_or_dist,
    int_sub, wrap_int32, c_double.of_int, c_double.div]

end EvdevTablet
